import Mathlib

/-!
# Snake Clash: a shallow embedding of the simulation engine of `snake-clash/game.js`

The JavaScript globals (`mode`, `speed`, `paused`, `roundActive`, `snakes`, `foods`,
`scores`, `roundScores`) become the fields of `Game`; methods that mutate an object
become functions that return the new object.  Grid coordinates are `Int` (a head can
leave the grid before the wall check sees it), counters are `Nat`.  A read of
`body[0]` on an empty body gives `undefined` in JavaScript and the field access that
follows throws a `TypeError`: functions that can reach such an access return `Option`
and `none` stands for the thrown exception.  `Math.random()` is an explicit stream
of rationals that is threaded through every function that draws from it.  Canvas
drawing, DOM updates and message display carry no simulation state and are left out.
-/

namespace SnakeClash

/-! ## Constants -/

def COLS : Int := 30
def ROWS : Int := 30
def ROUNDS_TO_WIN : Nat := 3
def INITIAL_SPEED : Int := 120
def SPEED_INCREMENT : Int := 2
def MIN_SPEED : Int := 50

/-- A grid coordinate or a direction vector, the object literal with fields x and y. -/
structure Vec where
  x : Int
  y : Int
  deriving DecidableEq, Repr

namespace DIR
def UP : Vec := ⟨0, -1⟩
def DOWN : Vec := ⟨0, 1⟩
def LEFT : Vec := ⟨-1, 0⟩
def RIGHT : Vec := ⟨1, 0⟩
end DIR

/-! ## Snake -/

/-- Whether some segment of the list lies on the cell (x, y): the loops of lines
111, 119, 262, 269 and 298. -/
def hits (segs : List Vec) (x y : Int) : Bool :=
  segs.any (fun seg => decide (seg.x = x) && decide (seg.y = y))

/-- The wall test of lines 105 and 257. -/
def outOfGrid (x y : Int) : Bool :=
  decide (x < 0) || decide (x ≥ COLS) || decide (y < 0) || decide (y ≥ ROWS)

/-- The class Snake.  The fields color and glowColor are read by the drawing code only
and are left out. -/
structure Snake where
  body : List Vec
  dir : Vec
  nextDir : Vec
  alive : Bool
  isAI : Bool
  growCount : Nat
  deriving DecidableEq, Repr

/-- The constructor of Snake: the head at the start point and two more segments
extended backward along the initial direction. -/
def Snake.new (startX startY : Int) (dir : Vec) (isAI : Bool) : Snake :=
  { body := [⟨startX, startY⟩,
             ⟨startX - dir.x * 1, startY - dir.y * 1⟩,
             ⟨startX - dir.x * 2, startY - dir.y * 2⟩]
    dir := dir
    nextDir := dir
    alive := true
    isAI := isAI
    growCount := 0 }

/-- The exact-reverse test of lines 72 and 251: both component sums are zero. -/
def isReverse (a b : Vec) : Bool :=
  decide (a.x + b.x = 0) && decide (a.y + b.y = 0)

/-- Method setDirection (lines 70-74). -/
def Snake.setDirection (s : Snake) (newDir : Vec) : Snake :=
  if isReverse s.dir newDir then s
  else { s with nextDir := newDir }

/-- Method headPos (lines 99-101): the first segment, undefined on an empty body. -/
def Snake.headPos (s : Snake) : Option Vec :=
  s.body.head?

/-- Method update (lines 76-93).  The result none is the TypeError of reading
head.x when the body is empty. -/
def Snake.update (s : Snake) : Option Snake :=
  if !s.alive then some s
  else
    let dir := s.nextDir
    match s.body.head? with
    | none => none
    | some head =>
      let newHead : Vec := ⟨head.x + dir.x, head.y + dir.y⟩
      let body := newHead :: s.body
      if s.growCount > 0 then
        some { s with dir := dir, body := body, growCount := s.growCount - 1 }
      else
        some { s with dir := dir, body := body.dropLast }

/-- Method grow (lines 95-97); an absent argument takes the default amount 1. -/
def Snake.grow (s : Snake) (amount : Option Nat) : Snake :=
  { s with growCount := s.growCount + amount.getD 1 }

/-- Calls update k times in a row, stopping at the first exception. -/
def Snake.updateN : Nat → Snake → Option Snake
  | 0, s => some s
  | k + 1, s =>
    match s.update with
    | none => none
    | some t => Snake.updateN k t

/-- Method checkWallCollision (lines 103-106). -/
def Snake.checkWallCollision (s : Snake) : Option Bool :=
  match s.headPos with
  | none => none
  | some h => some (outOfGrid h.x h.y)

/-- Method checkSelfCollision (lines 108-114): the loop starts at index 1, so on an
empty body it does not run and nothing is read from the undefined head. -/
def Snake.checkSelfCollision (s : Snake) : Option Bool :=
  match s.body with
  | [] => some false
  | h :: rest => some (hits rest h.x h.y)

/-- Method checkCollisionWith (lines 116-122): with an empty own body the first
comparison throws, unless the other body is empty and the loop does not run. -/
def Snake.checkCollisionWith (s other : Snake) : Option Bool :=
  match s.headPos with
  | none => if other.body.isEmpty then some false else none
  | some h => some (hits other.body h.x h.y)

/-! ## Numbers -/

/-- The power 2^k as a rational number. -/
def pow2 (k : Int) : ℚ :=
  if 0 ≤ k then ((2 ^ k.toNat : Nat) : ℚ) else 1 / ((2 ^ (-k).toNat : Nat) : ℚ)

/-- The number of times n can be halved before it drops below 2, which is the integer
part of the binary logarithm of n; the first argument bounds the number of halvings. -/
def halvings : Nat → Nat → Nat
  | 0, _ => 0
  | fuel + 1, n => if 2 ≤ n then halvings fuel (n / 2) + 1 else 0

/-- The integer nearest to x; when x lies half-way between two integers, the even one. -/
def roundHalfEven (x : ℚ) : Int :=
  let f := Int.floor x
  if x - f < 1 / 2 then f
  else if x - f > 1 / 2 then f + 1
  else if f % 2 = 0 then f else f + 1

/-- The exponent e with 2^e ≤ |x| < 2^(e+1), for x other than 0. -/
def binade (x : ℚ) : Int :=
  let k : Int := (halvings x.num.natAbs x.num.natAbs : Int) - (halvings x.den x.den : Int)
  if pow2 k ≤ |x| then k else k - 1

/-- Every number of the script is a binary64 value, and every arithmetic operation and
every decimal literal yields the binary64 value nearest to the exact result, the one
with an even significand on a tie.  The spacing of the binary64 values around x is
2^(e-52) with e the exponent of x, and 2^-1074 below 2^-1022.  The operands of the
script (grid coordinates, counts, draws in [0, 1)) keep every result far below 2^1024,
where binary64 would give Infinity. -/
def roundDouble (x : ℚ) : ℚ :=
  if x = 0 then 0
  else
    let q := pow2 (max (binade x) (-1022) - 52)
    (roundHalfEven (x / q) : ℚ) * q

/-! ## Random source -/

/-- The values returned by the successive calls of Math.random(), in call order. -/
abbrev Rng := Nat → ℚ

/-- The stream that remains after k calls of Math.random(). -/
def Rng.after (r : Rng) (k : Nat) : Rng := fun n => r (n + k)

/-- Every value of the stream is a binary64 value in the interval from 0 (included) to
1 (excluded), as Math.random() promises. -/
def Rng.Valid (r : Rng) : Prop := ∀ n, 0 ≤ r n ∧ r n < 1 ∧ roundDouble (r n) = r n

/-! ## Food -/

inductive FoodType where
  | normal
  | super
  | speed
  deriving DecidableEq, Repr

/-- The class Food; spawnTime is read by the pulse animation only and is left out. -/
structure Food where
  x : Int
  y : Int
  type : FoodType
  deriving DecidableEq, Repr

/-- Getter value (lines 227-231). -/
def Food.value (f : Food) : Nat :=
  if f.type = FoodType.super then 3
  else if f.type = FoodType.speed then 1
  else 1

/-- Getter growAmount (lines 233-236). -/
def Food.growAmount (f : Food) : Nat :=
  if f.type = FoodType.super then 3 else 1

/-! ## Game state -/

/-- The three values of the global mode: 1p, 2p and ai. -/
inductive Mode where
  | onePlayer
  | twoPlayer
  | ai
  deriving DecidableEq, Repr

/-- A callback registered with setTimeout and not yet run. -/
inductive Timer where
  | showGameOver
  | startRound
  deriving DecidableEq, Repr

/-- The global variables of the script.  Only entries 0 and 1 of the arrays scores and
roundScores are ever read, so each is a pair.  The field timers lists the pending
setTimeout callbacks that act on the simulation (showGameOver and startRound) in
registration order; the callbacks that only hide a message are left out.  The
interval handle gameLoop is not part of the state: the transition relation lets a
tick fire at any moment. -/
structure Game where
  mode : Option Mode
  speed : Int
  paused : Bool
  roundActive : Bool
  snakes : List Snake
  foods : List Food
  scores : Nat × Nat
  roundScores : Nat × Nat
  timers : List Timer

/-- The globals right after the script is loaded (lines 40-49). -/
def Game.initial : Game :=
  { mode := none, speed := INITIAL_SPEED, paused := false, roundActive := false,
    snakes := [], foods := [], scores := (0, 0), roundScores := (0, 0), timers := [] }

/-- Reads entry idx (0 or 1) of a two-entry counter array. -/
def getScore (p : Nat × Nat) (idx : Nat) : Nat :=
  if idx = 0 then p.1 else p.2

/-- The statement arr[idx] += v on a two-entry counter array; a write at an index of 2
or more does not touch entries 0 and 1. -/
def addScore (p : Nat × Nat) (idx v : Nat) : Nat × Nat :=
  if idx = 0 then (p.1 + v, p.2)
  else if idx = 1 then (p.1, p.2 + v)
  else p

/-! ## Food spawner -/

/-- The set occupied of getRandomEmptyCell (lines 369-377): every segment of every
snake and every food position.  The string key of a cell determines the cell. -/
def occupiedCells (g : Game) : List Vec :=
  (g.snakes.map Snake.body).flatten ++ g.foods.map (fun f => (⟨f.x, f.y⟩ : Vec))

/-- The sampling loop of getRandomEmptyCell (lines 379-386); the first argument is the
number of attempts that remain, 1000 minus the variable attempts.  Math.floor is
applied to the binary64 product Math.random() * COLS. -/
def sampleCell (occupied : List Vec) : Nat → Rng → Vec × Rng
  | 0, r => (⟨COLS / 2, ROWS / 2⟩, r)
  | n + 1, r =>
    let x : Int := Int.floor (roundDouble (r 0 * (COLS : ℚ)))
    let y : Int := Int.floor (roundDouble (r 1 * (ROWS : ℚ)))
    if (⟨x, y⟩ : Vec) ∈ occupied then sampleCell occupied n (r.after 2)
    else (⟨x, y⟩, r.after 2)

/-- Function getRandomEmptyCell (lines 368-387). -/
def getRandomEmptyCell (g : Game) (r : Rng) : Vec × Rng :=
  sampleCell (occupiedCells g) 1000 r

/-- The variant thresholds of spawnFood (lines 392-394); the literals 0.92 and 0.82
are the binary64 values nearest to 92/100 and 82/100. -/
def foodTypeOf (rand : ℚ) : FoodType :=
  if rand > roundDouble (92 / 100) then FoodType.super
  else if rand > roundDouble (82 / 100) then FoodType.speed
  else FoodType.normal

/-- Function spawnFood (lines 389-396). -/
def spawnFood (g : Game) (r : Rng) : Game × Rng :=
  let pr := getRandomEmptyCell g r
  let pos := pr.1
  let rand := pr.2 0
  ({ g with foods := g.foods ++ [⟨pos.x, pos.y, foodTypeOf rand⟩] }, pr.2.after 1)

/-- Function initRound (lines 398-419). -/
def initRound (g : Game) (r : Rng) : Game × Rng :=
  let p1 := Snake.new 5 (ROWS / 2) DIR.RIGHT false
  let snakes :=
    if g.mode = some Mode.onePlayer then [p1]
    else [p1, Snake.new (COLS - 6) (ROWS / 2) DIR.LEFT (decide (g.mode = some Mode.ai))]
  let g0 := { g with speed := INITIAL_SPEED, foods := [], roundActive := true, snakes := snakes }
  let a := spawnFood g0 r
  let b := spawnFood a.1 a.2
  spawnFood b.1 b.2

/-! ## AI policy -/

/-- The array dirs of aiDecide (line 247). -/
def dirs : List Vec := [DIR.UP, DIR.DOWN, DIR.LEFT, DIR.RIGHT]

/-- The loop of lines 278-282: the Manhattan distance from (nx, ny) to the nearest
food; none is the initial value Infinity, kept when there is no food. -/
def nearestDist (foods : List Food) (nx ny : Int) : Option Int :=
  foods.foldl
    (fun acc food =>
      let dist := abs (food.x - nx) + abs (food.y - ny)
      match acc with
      | none => some dist
      | some m => if dist < m then some dist else some m)
    none

/-- Line 286: Math.min(nx, ny, COLS - 1 - nx, ROWS - 1 - ny). -/
def wallDist (nx ny : Int) : Int :=
  min (min nx ny) (min (COLS - 1 - nx) (ROWS - 1 - ny))

/-- The values taken by dx and by dy in the loops of lines 291-292. -/
def offsets : List Int := [-2, -1, 0, 1, 2]

/-- Lines 290-303: the number of cells of the 5x5 neighbourhood of (nx, ny) that are
inside the grid and hold no segment of the given body. -/
def openSpaces (body : List Vec) (nx ny : Int) : Nat :=
  (offsets.map (fun dx =>
    (offsets.filter (fun dy =>
      let cx := nx + dx
      let cy := ny + dy
      (decide (cx ≥ 0) && decide (cx < COLS) && decide (cy ≥ 0) && decide (cy < ROWS))
        && !hits body cx cy)).length)).sum

/-- Lines 275-307: the score of the candidate cell (nx, ny) with jitter draw rand; none
is the value -Infinity that results when there is no food.  The four updates of the
variable score (lines 283, 287, 304 and 307) are binary64 operations, each product and
each sum rounded; the literal 0.5 is a binary64 value and 0.3 is read as the binary64
value nearest to 3/10. -/
def candidateScore (foods : List Food) (body : List Vec) (nx ny : Int) (rand : ℚ) : Option ℚ :=
  match nearestDist foods nx ny with
  | none => none
  | some nd =>
    let s1 := roundDouble (0 - (nd : ℚ))
    let s2 := roundDouble (s1 + roundDouble ((wallDist nx ny : ℚ) * (1 / 2)))
    let s3 := roundDouble (s2 + roundDouble ((openSpaces body nx ny : ℚ) * roundDouble (3 / 10)))
    some (roundDouble (s3 + roundDouble (rand * 2)))

/-- The comparison score > bestScore of line 309, none being -Infinity. -/
def scoreGt : Option ℚ → Option ℚ → Bool
  | none, _ => false
  | some _, none => true
  | some a, some b => decide (a > b)

/-- The loop variables of aiDecide together with the random stream. -/
structure AiState where
  bestDir : Vec
  bestScore : Option ℚ
  rng : Rng

/-- Lines 251-272: whether candidate d survives pruning. -/
def survives (aiSnake : Snake) (head : Vec) (otherSnake : Option Snake) (d : Vec) : Bool :=
  if isReverse d aiSnake.dir then false
  else
    let nx := head.x + d.x
    let ny := head.y + d.y
    if outOfGrid nx ny then false
    else if hits aiSnake.body nx ny then false
    else
      match otherSnake with
      | some other => !hits other.body nx ny
      | none => true

/-- One iteration of the loop of lines 249-313 for candidate d. -/
def aiStep (foods : List Food) (aiSnake : Snake) (head : Vec) (otherSnake : Option Snake)
    (st : AiState) (d : Vec) : AiState :=
  if survives aiSnake head otherSnake d then
    let score := candidateScore foods aiSnake.body (head.x + d.x) (head.y + d.y) (st.rng 0)
    if scoreGt score st.bestScore then
      { bestDir := d, bestScore := score, rng := st.rng.after 1 }
    else { st with rng := st.rng.after 1 }
  else st

/-- Lines 243-313 of aiDecide: the loop over the four directions, started with
bestDir = aiSnake.dir and bestScore = -Infinity. -/
def aiBest (foods : List Food) (aiSnake : Snake) (head : Vec) (otherSnake : Option Snake)
    (r : Rng) : AiState :=
  dirs.foldl (aiStep foods aiSnake head otherSnake)
    { bestDir := aiSnake.dir, bestScore := none, rng := r }

/-- Function aiDecide (lines 242-316).  With an empty body the head is undefined and
the first candidate that is not the reverse direction throws at line 253; at most
one of the four candidates is the reverse, so the call always throws then. -/
def aiDecide (foods : List Food) (aiSnake : Snake) (otherSnake : Option Snake) (r : Rng) :
    Option (Snake × Rng) :=
  match aiSnake.headPos with
  | none => none
  | some head =>
    let st := aiBest foods aiSnake head otherSnake r
    some (aiSnake.setDirection st.bestDir, st.rng)

/-! ## Tick engine -/

/-- The call snakes.find(s => s !== snake) of line 450 for the snake at index i: the
first snake that is another object, which is the one at index 1 when i is 0 and the
one at index 0 otherwise; undefined when there is no such snake. -/
def otherOf (snakes : List Snake) (i : Nat) : Option Snake :=
  if i = 0 then snakes[1]? else snakes[0]?

/-- The loop of lines 448-452 over the given indices of the array snakes. -/
def aiPhase (foods : List Food) : List Nat → List Snake → Rng → Option (List Snake × Rng)
  | [], snakes, r => some (snakes, r)
  | i :: rest, snakes, r =>
    match snakes[i]? with
    | none => aiPhase foods rest snakes r
    | some snake =>
      if snake.isAI && snake.alive then
        match aiDecide foods snake (otherOf snakes i) r with
        | none => none
        | some res => aiPhase foods rest (snakes.set i res.1) res.2
      else aiPhase foods rest snakes r

/-- The loop of lines 455-457: update on every snake in order. -/
def updateAll : List Snake → Option (List Snake)
  | [] => some []
  | s :: rest =>
    match s.update with
    | none => none
    | some s2 =>
      match updateAll rest with
      | none => none
      | some rest2 => some (s2 :: rest2)

/-- The call snake.grow(amount) of line 466 on the snake at index idx of the array. -/
def growAt (snakes : List Snake) (idx amount : Nat) : List Snake :=
  match snakes[idx]? with
  | none => snakes
  | some snake => snakes.set idx (snake.grow (some amount))

/-- The body of the test of line 464 (lines 465-481) for the snake at index idx and the
food at index i. -/
def eatFood (g : Game) (idx i : Nat) (food : Food) (r : Rng) : Game × Rng :=
  let snakes := growAt g.snakes idx food.growAmount
  let scores :=
    if g.mode = some Mode.onePlayer then addScore g.scores 0 food.value
    else addScore g.scores idx food.value
  let sp := spawnFood { g with snakes := snakes, scores := scores, foods := g.foods.eraseIdx i } r
  ({ sp.1 with speed := max MIN_SPEED (sp.1.speed - SPEED_INCREMENT) }, sp.2)

/-- The loop of lines 463-483 for the snake at index idx whose head is head; the
third argument is i + 1 for the loop variable i, and 0 ends the loop. -/
def eatLoop (idx : Nat) (head : Vec) : Nat → Game → Rng → Game × Rng
  | 0, g, r => (g, r)
  | i + 1, g, r =>
    match g.foods[i]? with
    | none => eatLoop idx head i g r
    | some food =>
      if food.x = head.x ∧ food.y = head.y then
        let e := eatFood g idx i food r
        eatLoop idx head i e.1 e.2
      else eatLoop idx head i g r

/-- The loop of lines 460-484 over the given indices of the array snakes.  With an
empty body the comparison of line 464 throws as soon as there is a food to compare. -/
def foodPhase : List Nat → Game → Rng → Option (Game × Rng)
  | [], g, r => some (g, r)
  | idx :: rest, g, r =>
    match g.snakes[idx]? with
    | none => foodPhase rest g r
    | some snake =>
      if !snake.alive then foodPhase rest g r
      else
        match snake.headPos with
        | none => if g.foods.isEmpty then foodPhase rest g r else none
        | some head =>
          let e := eatLoop idx head g.foods.length g r
          foodPhase rest e.1 e.2

/-- The loop of lines 496-501 for snake number i over the given indices j. -/
def hitOthers (snakes : List Snake) (i : Nat) : List Nat → Snake → Option Snake
  | [], s => some s
  | j :: rest, s =>
    if i = j then hitOthers snakes i rest s
    else
      match snakes[j]? with
      | none => hitOthers snakes i rest s
      | some other =>
        match s.checkCollisionWith other with
        | none => none
        | some hit => hitOthers snakes i rest (if hit then { s with alive := false } else s)

/-- The body of the loop of lines 487-502 for the snake at index i.  The wall test
comes first and throws on an empty body; the self test never throws, so evaluating
it also when the wall test is true changes nothing. -/
def collideSnake (snakes : List Snake) (i : Nat) (snake : Snake) : Option Snake :=
  if !snake.alive then some snake
  else
    match snake.checkWallCollision, snake.checkSelfCollision with
    | some wall, some self =>
      hitOthers snakes i (List.range snakes.length)
        (if wall || self then { snake with alive := false } else snake)
    | _, _ => none

/-- The loop of lines 487-502 over the given indices i. -/
def collisionPhase : List Nat → List Snake → Option (List Snake)
  | [], snakes => some snakes
  | i :: rest, snakes =>
    match snakes[i]? with
    | none => collisionPhase rest snakes
    | some snake =>
      match collideSnake snakes i snake with
      | none => none
      | some s2 => collisionPhase rest (snakes.set i s2)

/-- The head-on block of lines 505-512. -/
def headOnPhase (snakes : List Snake) : Option (List Snake) :=
  match snakes with
  | [s0, s1] =>
    if s0.alive && s1.alive then
      match s0.headPos, s1.headPos with
      | some h0, some h1 =>
        if h0.x = h1.x ∧ h0.y = h1.y then
          some [{ s0 with alive := false }, { s1 with alive := false }]
        else some snakes
      | _, _ => none
    else some snakes
  | _ => some snakes

/-- The density step of lines 515-517; Math.random() is called only when the first
disjunct is false and foods.length is below 5.  The literal 0.02 is the binary64 value
nearest to 2/100. -/
def extraFood (g : Game) (r : Rng) : Game × Rng :=
  if g.foods.length < 2 then spawnFood g r
  else if g.foods.length < 5 then
    if r 0 < roundDouble (2 / 100) then spawnFood g (r.after 1) else (g, r.after 1)
  else (g, r)

/-- Function checkRoundEnd (lines 534-564).  The index of alive[0] in snakes is the
index of the first snake whose flag alive is set.  A setTimeout appends its callback
to timers. -/
def checkRoundEnd (g : Game) : Option Game :=
  if g.mode = some Mode.onePlayer then
    match g.snakes.head? with
    | none => none
    | some s0 =>
      if !s0.alive then
        some { g with roundActive := false, timers := g.timers ++ [Timer.showGameOver] }
      else some g
  else
    let alive := g.snakes.filter (fun s => s.alive)
    if alive.length ≤ 0 then
      some { g with roundActive := false, timers := g.timers ++ [Timer.startRound] }
    else if alive.length = 1 ∧ g.snakes.length = 2 then
      let winnerIdx := g.snakes.findIdx (fun s => s.alive)
      let roundScores := addScore g.roundScores winnerIdx 1
      if getScore roundScores winnerIdx ≥ ROUNDS_TO_WIN then
        some { g with roundScores := roundScores, roundActive := false,
                      timers := g.timers ++ [Timer.showGameOver] }
      else
        some { g with roundScores := roundScores, roundActive := false,
                      timers := g.timers ++ [Timer.startRound] }
    else some g

/-- Lines 447-457 of tick: the AI decisions, then the move of every snake. -/
def tickMove (g : Game) (r : Rng) : Option (Game × Rng) :=
  match aiPhase g.foods (List.range g.snakes.length) g.snakes r with
  | none => none
  | some a =>
    match updateAll a.1 with
    | none => none
    | some moved => some ({ g with snakes := moved }, a.2)

/-- Lines 486-512 of tick: the collision loop, then the head-on block. -/
def tickCollide (snakes : List Snake) : Option (List Snake) :=
  match collisionPhase (List.range snakes.length) snakes with
  | none => none
  | some checked => headOnPhase checked

/-- Lines 459-523 of tick, on the state reached after the moves. -/
def tickRest (g : Game) (r : Rng) : Option (Game × Rng) :=
  match foodPhase (List.range g.snakes.length) g r with
  | none => none
  | some f =>
    match tickCollide f.1.snakes with
    | none => none
    | some snakes =>
      let e := extraFood { f.1 with snakes := snakes } f.2
      match checkRoundEnd e.1 with
      | none => none
      | some g2 => some (g2, e.2)

/-- Function tick (lines 444-524). -/
def tick (g : Game) (r : Rng) : Option (Game × Rng) :=
  if g.paused || !g.roundActive then some (g, r)
  else
    match tickMove g r with
    | none => none
    | some m => tickRest m.1 m.2

/-- The variant of tickRest in which the head-on block of lines 504-512 is removed: the
collision loop alone decides the flags alive. -/
def tickRestNoHeadOn (g : Game) (r : Rng) : Option (Game × Rng) :=
  match foodPhase (List.range g.snakes.length) g r with
  | none => none
  | some f =>
    match collisionPhase (List.range f.1.snakes.length) f.1.snakes with
    | none => none
    | some snakes =>
      let e := extraFood { f.1 with snakes := snakes } f.2
      match checkRoundEnd e.1 with
      | none => none
      | some g2 => some (g2, e.2)

/-- The variant of tick in which the head-on block of lines 504-512 is removed. -/
def tickNoHeadOn (g : Game) (r : Rng) : Option (Game × Rng) :=
  if g.paused || !g.roundActive then some (g, r)
  else
    match tickMove g r with
    | none => none
    | some m => tickRestNoHeadOn m.1 m.2

/-! ## Round and match lifecycle -/

/-- Function startRound (lines 566-585); the countdown only delays the first tick. -/
def startRound (g : Game) (r : Rng) : Game × Rng :=
  initRound g r

/-- Function startGame (lines 587-597). -/
def startGame (gameMode : Mode) (g : Game) (r : Rng) : Game × Rng :=
  startRound { g with mode := some gameMode, scores := (0, 0), roundScores := (0, 0) } r

/-- Function showGameOver (lines 599-625): it stops the interval and fills the
game-over screen, and writes no simulation variable. -/
def showGameOver (g : Game) : Game := g

/-- Runs a pending setTimeout callback. -/
def runTimer (t : Timer) (g : Game) (r : Rng) : Game × Rng :=
  match t with
  | Timer.showGameOver => (showGameOver g, r)
  | Timer.startRound => startRound g r

/-! ## Input handling -/

/-- The keys the keydown handler reacts to; wasd stands for both letter cases. -/
inductive Key where
  | w
  | s
  | a
  | d
  | arrowUp
  | arrowDown
  | arrowLeft
  | arrowRight
  | escape
  | other
  deriving DecidableEq, Repr

/-- The switch of lines 643-648. -/
def p1Dir : Key → Option Vec
  | Key.w => some DIR.UP
  | Key.s => some DIR.DOWN
  | Key.a => some DIR.LEFT
  | Key.d => some DIR.RIGHT
  | _ => none

/-- The switch of lines 654-659. -/
def p2Dir : Key → Option Vec
  | Key.arrowUp => some DIR.UP
  | Key.arrowDown => some DIR.DOWN
  | Key.arrowLeft => some DIR.LEFT
  | Key.arrowRight => some DIR.RIGHT
  | _ => none

/-- The keydown handler (lines 637-668). -/
def keydown (k : Key) (g : Game) : Game :=
  if g.snakes.length = 0 then g
  else
    let snakes1 :=
      match g.snakes[0]?, p1Dir k with
      | some p1, some d => if p1.alive then g.snakes.set 0 (p1.setDirection d) else g.snakes
      | _, _ => g.snakes
    let snakes2 :=
      match snakes1[1]?, p2Dir k with
      | some p2, some d =>
        if !p2.isAI && p2.alive then snakes1.set 1 (p2.setDirection d) else snakes1
      | _, _ => snakes1
    let paused := if k = Key.escape ∧ g.roundActive then !g.paused else g.paused
    { g with snakes := snakes2, paused := paused }

/-! ## Reachable states -/

/-- One event of the running page: a tick of the interval, a key press, or a pending
setTimeout callback that runs and leaves the list of pending callbacks. -/
inductive Step : Game → Game → Prop where
  | tick (g : Game) (r : Rng) (g2 : Game) (r2 : Rng) :
      tick g r = some (g2, r2) → Step g g2
  | key (g : Game) (k : Key) : Step g (keydown k g)
  | timer (g : Game) (t : Timer) (r : Rng) :
      t ∈ g.timers → Step g (runTimer t { g with timers := g.timers.erase t } r).1

/-- The states of a match: startGame called with no callback pending, followed by any
number of events. -/
inductive Reachable : Game → Prop where
  | start (gameMode : Mode) (g : Game) (r : Rng) :
      g.timers = [] → Reachable (startGame gameMode g r).1
  | step (g g2 : Game) : Reachable g → Step g g2 → Reachable g2

/-- The states of a round: initRound called in any state, followed by any number of
ticks and key presses. -/
inductive InRound : Game → Prop where
  | init (g : Game) (r : Rng) : InRound (initRound g r).1
  | tick (g : Game) (r : Rng) (g2 : Game) (r2 : Rng) :
      InRound g → tick g r = some (g2, r2) → InRound g2
  | key (g : Game) (k : Key) : InRound g → InRound (keydown k g)

/-! ## Vocabulary of the statements -/

/-- The foods of the list that lie on cell c. -/
def foodsAt (foods : List Food) (c : Vec) : List Food :=
  foods.filter (fun f => decide (f.x = c.x ∧ f.y = c.y))

/-- The sum of the grow amounts of the foods of the list. -/
def totalGrow (foods : List Food) : Nat :=
  (foods.map Food.growAmount).sum

/-- The sum of the values of the foods of the list. -/
def totalValue (foods : List Food) : Nat :=
  (foods.map Food.value).sum

/-- The entry of scores that line 469 or 471 writes for the snake at index idx. -/
def scoreIdx (mode : Option Mode) (idx : Nat) : Nat :=
  if mode = some Mode.onePlayer then 0 else idx

/-- Runs k ticks in a row, stopping at the first exception. -/
def runTicks : Nat → Game → Rng → Option (Game × Rng)
  | 0, g, r => some (g, r)
  | k + 1, g, r =>
    match tick g r with
    | none => none
    | some p => runTicks k p.1 p.2

/-- A snake with its flag alive cleared; two snakes with the same image differ in the
flag alive at most. -/
def Snake.cleared (s : Snake) : Snake :=
  { s with alive := false }

/-- A snake with its pending direction blanked; two snakes with the same image differ
in nextDir at most. -/
def Snake.undirected (s : Snake) : Snake :=
  { s with nextDir := ⟨0, 0⟩ }

/-- A snake with its growth counter zeroed; two snakes with the same image differ in
growCount at most. -/
def Snake.ungrown (s : Snake) : Snake :=
  { s with growCount := 0 }

/-- Every snake of the list has at least one segment. -/
def BodiesNonEmpty (snakes : List Snake) : Prop :=
  ∀ s ∈ snakes, s.body ≠ []

/-- Whether the cell h holds a segment of the snake at index j, for j other than i. -/
def hitsOther (snakes : List Snake) (h : Vec) (i j : Nat) : Bool :=
  decide (i ≠ j) &&
    (match snakes[j]? with
     | some other => hits other.body h.x h.y
     | none => false)

/-- Whether the snake at index i has its head outside the grid, on one of its own
later segments, or on a segment of another snake of the list. -/
def collides (snakes : List Snake) (i : Nat) : Bool :=
  match snakes[i]? with
  | none => false
  | some s =>
    match s.body with
    | [] => false
    | h :: rest =>
      outOfGrid h.x h.y || hits rest h.x h.y
        || (List.range snakes.length).any (hitsOther snakes h i)

/-! ## The score of a candidate, in the words of the specification -/

/-- The Manhattan distance from a food to a cell. -/
def manhattan (f : Food) (c : Vec) : Int :=
  abs (f.x - c.x) + abs (f.y - c.y)

/-- The least Manhattan distance from a cell to a food of the list; 0 stands in when
there is no food. -/
def nearestFood (foods : List Food) (c : Vec) : Int :=
  match foods with
  | [] => 0
  | f :: fs => fs.foldl (fun m g => min m (manhattan g c)) (manhattan f c)

/-- The 25 cells of the 5x5 neighbourhood centred on a cell. -/
def neighbourhood (c : Vec) : List Vec :=
  (offsets.map (fun dx => offsets.map (fun dy => (⟨c.x + dx, c.y + dy⟩ : Vec)))).flatten

/-- The number of cells of the neighbourhood of c that are inside the grid and hold no
segment of the given body. -/
def freeCells (body : List Vec) (c : Vec) : Nat :=
  (neighbourhood c).countP
    (fun q => decide (0 ≤ q.x ∧ q.x < 30 ∧ 0 ≤ q.y ∧ q.y < 30 ∧ q ∉ body))

/-- The score of the candidate cell c: minus the distance to the nearest food, plus
0.5 times the distance to the nearest wall, plus 0.3 times the number of free cells
around it, plus the jitter.  The terms are binary64 values and the sum is evaluated
from left to right in binary64 arithmetic. -/
def specScore (foods : List Food) (body : List Vec) (c : Vec) (jitter : ℚ) : ℚ :=
  roundDouble
    (roundDouble
      (roundDouble
        (roundDouble (-(nearestFood foods c : ℚ))
          + roundDouble ((1 / 2) * ((min (min c.x c.y) (min (29 - c.x) (29 - c.y)) : Int) : ℚ)))
        + roundDouble (roundDouble (3 / 10) * (freeCells body c : ℚ)))
      + jitter)

/-- The cell reached from head by one step in direction d. -/
def cellOf (head d : Vec) : Vec :=
  ⟨head.x + d.x, head.y + d.y⟩

/-- The candidates that survive pruning, in the order UP, DOWN, LEFT, RIGHT. -/
def survivors (aiSnake : Snake) (head : Vec) (otherSnake : Option Snake) : List Vec :=
  dirs.filter (fun d => survives aiSnake head otherSnake d)

/-! ## Vocabulary of the food spawner -/

/-- The cell sampled at attempt number j (from 0) of getRandomEmptyCell on the stream
r: draw 2j gives the column, draw 2j + 1 the row, each as the integer part of the
binary64 product of the draw and 30. -/
def sampleAt (r : Rng) (j : Nat) : Vec :=
  ⟨Int.floor (roundDouble (r (2 * j) * 30)), Int.floor (roundDouble (r (2 * j + 1) * 30))⟩

/-! ## Concrete states and random streams -/

/-- The random stream whose draws are all 0. -/
def rngZero : Rng := fun _ => 0

/-- A random stream for a single-player round: the three initial foods land on the
cells (6,15), (7,15) and (8,15) in front of the snake, all of type normal, their
replacements land on (0,0), (1,0) and (2,0), and no extra food is spawned. -/
def rngEat : Rng := fun n =>
  [(7 / 32 : ℚ), 1 / 2, 0, 1 / 4, 1 / 2, 0, 9 / 32, 1 / 2, 0,
   0, 0, 0, 1 / 2, 1 / 16, 0, 0, 1 / 2, 3 / 32, 0, 0, 1 / 2, 1 / 2].getD n 0

/-- The random stream whose draws are all the binary64 value 0.7, which is
3152519739159347 / 2^52. -/
def rngSeven : Rng := fun _ => 3152519739159347 / 4503599627370496

/-- The random stream whose second draw is 2^-52 and whose other draws are 0. -/
def rngTie : Rng := fun n => if n = 1 then 1 / 4503599627370496 else 0

/-- A two-player state one tick before a head-on on the cell (15,15), which holds a
normal food. -/
def headOnFoodState : Game :=
  { mode := some Mode.twoPlayer, speed := INITIAL_SPEED, paused := false, roundActive := true,
    snakes :=
      [{ body := [⟨14, 15⟩, ⟨13, 15⟩, ⟨12, 15⟩], dir := DIR.RIGHT, nextDir := DIR.RIGHT,
         alive := true, isAI := false, growCount := 0 },
       { body := [⟨16, 15⟩, ⟨17, 15⟩, ⟨18, 15⟩], dir := DIR.LEFT, nextDir := DIR.LEFT,
         alive := true, isAI := false, growCount := 0 }],
    foods := [⟨15, 15, FoodType.normal⟩, ⟨1, 1, FoodType.normal⟩, ⟨2, 2, FoodType.normal⟩,
              ⟨3, 3, FoodType.normal⟩, ⟨4, 4, FoodType.normal⟩],
    scores := (0, 0), roundScores := (0, 0), timers := [] }

/-- A two-player state in which player 1 is about to leave the grid through the left
wall while player 2 moves on free cells. -/
def wallState : Game :=
  { mode := some Mode.twoPlayer, speed := INITIAL_SPEED, paused := false, roundActive := true,
    snakes :=
      [{ body := [⟨0, 15⟩, ⟨1, 15⟩, ⟨2, 15⟩], dir := DIR.LEFT, nextDir := DIR.LEFT,
         alive := true, isAI := false, growCount := 0 },
       { body := [⟨20, 15⟩, ⟨21, 15⟩, ⟨22, 15⟩], dir := DIR.LEFT, nextDir := DIR.LEFT,
         alive := true, isAI := false, growCount := 0 }],
    foods := [⟨1, 1, FoodType.normal⟩, ⟨2, 2, FoodType.normal⟩, ⟨3, 3, FoodType.normal⟩,
              ⟨4, 4, FoodType.normal⟩, ⟨5, 5, FoodType.normal⟩],
    scores := (0, 0), roundScores := (0, 0), timers := [] }

/-- A state of the mode ai in which the AI snake (index 1) is coiled against the right
wall: the cell ahead of its head holds its own last segment, the cell to its left
holds another of its segments and the cell to its right is outside the grid. -/
def tailChaseState : Game :=
  { mode := some Mode.ai, speed := INITIAL_SPEED, paused := false, roundActive := true,
    snakes :=
      [{ body := [⟨5, 15⟩, ⟨4, 15⟩, ⟨3, 15⟩], dir := DIR.RIGHT, nextDir := DIR.RIGHT,
         alive := true, isAI := false, growCount := 0 },
       { body := [⟨29, 5⟩, ⟨29, 6⟩, ⟨28, 6⟩, ⟨28, 5⟩, ⟨28, 4⟩, ⟨29, 4⟩], dir := DIR.UP,
         nextDir := DIR.UP, alive := true, isAI := true, growCount := 0 }],
    foods := [⟨1, 1, FoodType.normal⟩, ⟨2, 2, FoodType.normal⟩, ⟨3, 3, FoodType.normal⟩,
              ⟨4, 4, FoodType.normal⟩, ⟨5, 5, FoodType.normal⟩],
    scores := (0, 0), roundScores := (0, 0), timers := [] }

/-- A state of the mode ai at the start of a round: both snakes are on row 15 facing
each other, the AI snake (index 1) has a pending growth of 2, and one food lies on its
row. -/
def aiChaseState : Game :=
  { mode := some Mode.ai, speed := INITIAL_SPEED, paused := false, roundActive := true,
    snakes :=
      [{ body := [⟨5, 15⟩, ⟨4, 15⟩, ⟨3, 15⟩], dir := DIR.RIGHT, nextDir := DIR.RIGHT,
         alive := true, isAI := false, growCount := 0 },
       { body := [⟨24, 15⟩, ⟨25, 15⟩, ⟨26, 15⟩], dir := DIR.LEFT, nextDir := DIR.LEFT,
         alive := true, isAI := true, growCount := 2 }],
    foods := [⟨10, 15, FoodType.normal⟩, ⟨1, 1, FoodType.normal⟩, ⟨2, 2, FoodType.normal⟩],
    scores := (0, 0), roundScores := (0, 0), timers := [] }

/-- The snake at index i of a state, or a snake without segments when there is none. -/
def snakeAt (g : Game) (i : Nat) : Snake :=
  g.snakes.getD i { body := [], dir := ⟨0, 0⟩, nextDir := ⟨0, 0⟩, alive := false,
                    isAI := false, growCount := 0 }

/-- The snakes that the constructor builds with a unit direction and that are then
driven by setDirection with unit directions, grow and update. -/
inductive Driven : Snake → Prop where
  | new (startX startY : Int) (dir : Vec) (isAI : Bool) :
      dir ∈ dirs → Driven (Snake.new startX startY dir isAI)
  | setDirection (s : Snake) (d : Vec) : Driven s → d ∈ dirs → Driven (s.setDirection d)
  | grow (s : Snake) (amount : Option Nat) : Driven s → Driven (s.grow amount)
  | update (s t : Snake) : Driven s → s.update = some t → Driven t

/-! ## Snake: direction, movement and growth -/

/-- C1: setDirection with the exact reverse of the current direction returns the snake
unchanged; with any other direction it sets nextDir to that direction and leaves
dir, body, alive, isAI and growCount as they were. -/
theorem setDirection_spec (s : Snake) (d : Vec) :
    (s.dir.x + d.x = 0 ∧ s.dir.y + d.y = 0 → s.setDirection d = s) ∧
    (¬ (s.dir.x + d.x = 0 ∧ s.dir.y + d.y = 0) →
      (s.setDirection d).nextDir = d ∧ (s.setDirection d).dir = s.dir ∧
      (s.setDirection d).body = s.body ∧ (s.setDirection d).alive = s.alive ∧
      (s.setDirection d).isAI = s.isAI ∧ (s.setDirection d).growCount = s.growCount) := by
  constructor
  · intro h
    simp [Snake.setDirection, isReverse, h.1, h.2]
  · intro h
    have hr : isReverse s.dir d = false := by
      simp only [isReverse, Bool.and_eq_false_imp, decide_eq_true_eq, decide_eq_false_iff_not]
      intro hx hy
      exact h ⟨hx, hy⟩
    simp [Snake.setDirection, hr]

/-- C1, at a snake that moves right: LEFT is dropped, UP becomes the pending direction. -/
theorem setDirection_spec_witness :
    (Snake.new 5 15 DIR.RIGHT false).setDirection DIR.LEFT = Snake.new 5 15 DIR.RIGHT false ∧
    ((Snake.new 5 15 DIR.RIGHT false).setDirection DIR.UP).nextDir = DIR.UP :=
  ⟨(setDirection_spec (Snake.new 5 15 DIR.RIGHT false) DIR.LEFT).1 (by decide),
   ((setDirection_spec (Snake.new 5 15 DIR.RIGHT false) DIR.UP).2 (by decide)).1⟩

/-- C2: update on a living snake with body head :: rest returns a snake whose dir is
the old nextDir and whose body starts with head + nextDir; with growCount > 0 the old
body follows whole and growCount drops by 1, with growCount = 0 the old body follows
without its last segment and growCount stays 0. -/
theorem update_spec (s : Snake) (head : Vec) (rest : List Vec)
    (halive : s.alive = true) (hbody : s.body = head :: rest) :
    ∃ t, s.update = some t ∧ t.dir = s.nextDir ∧ t.nextDir = s.nextDir ∧
      t.alive = true ∧ t.isAI = s.isAI ∧
      (0 < s.growCount →
        t.body = ⟨head.x + s.nextDir.x, head.y + s.nextDir.y⟩ :: s.body ∧
        t.growCount = s.growCount - 1 ∧ t.body.length = s.body.length + 1) ∧
      (¬ 0 < s.growCount →
        t.body = ⟨head.x + s.nextDir.x, head.y + s.nextDir.y⟩ :: s.body.dropLast ∧
        t.growCount = 0 ∧ t.body.length = s.body.length) := by
  by_cases hg : 0 < s.growCount
  · refine ⟨{ s with dir := s.nextDir,
                     body := ⟨head.x + s.nextDir.x, head.y + s.nextDir.y⟩ :: s.body,
                     growCount := s.growCount - 1 }, ?_, rfl, rfl, halive, rfl, ?_, ?_⟩
    · simp [Snake.update, halive, hbody, hg]
    · intro _
      simp
    · intro h
      exact absurd hg h
  · refine ⟨{ s with dir := s.nextDir,
                     body := (⟨head.x + s.nextDir.x, head.y + s.nextDir.y⟩ :: s.body).dropLast },
      ?_, rfl, rfl, halive, rfl, ?_, ?_⟩
    · simp [Snake.update, halive, hbody, hg]
    · intro h
      exact absurd h hg
    · intro _
      refine ⟨?_, by show s.growCount = 0; omega, ?_⟩
      · simp [hbody]
      · simp [hbody]

/-- C2, at the snake the constructor builds and at the same snake after grow. -/
theorem update_spec_witness :
    (∃ t, (Snake.new 5 15 DIR.RIGHT false).update = some t ∧ t.body = [⟨6, 15⟩, ⟨5, 15⟩, ⟨4, 15⟩]) ∧
    (∃ t, ((Snake.new 5 15 DIR.RIGHT false).grow (some 1)).update = some t ∧
      t.body = [⟨6, 15⟩, ⟨5, 15⟩, ⟨4, 15⟩, ⟨3, 15⟩]) := by
  constructor
  · obtain ⟨t, h1, -, -, -, -, -, h2⟩ :=
      update_spec (Snake.new 5 15 DIR.RIGHT false) ⟨5, 15⟩ [⟨4, 15⟩, ⟨3, 15⟩] rfl (by decide)
    exact ⟨t, h1, (h2 (by decide)).1.trans (by decide)⟩
  · obtain ⟨t, h1, -, -, -, -, h2, -⟩ :=
      update_spec ((Snake.new 5 15 DIR.RIGHT false).grow (some 1)) ⟨5, 15⟩ [⟨4, 15⟩, ⟨3, 15⟩]
        rfl (by decide)
    exact ⟨t, h1, (h2 (by decide)).1.trans (by decide)⟩

/-- What update returns on a living snake with a non-empty body, by cases on the
growth counter. -/
theorem update_alive_cases (s : Snake) (head : Vec) (rest : List Vec)
    (halive : s.alive = true) (hbody : s.body = head :: rest) :
    ∃ t, s.update = some t ∧ t.alive = true ∧
      t.body.length = s.body.length + min 1 s.growCount ∧
      t.growCount = s.growCount - 1 ∧ t.body ≠ [] := by
  by_cases hg : 0 < s.growCount
  · refine ⟨{ s with dir := s.nextDir,
                     body := ⟨head.x + s.nextDir.x, head.y + s.nextDir.y⟩ :: s.body,
                     growCount := s.growCount - 1 }, ?_, halive, ?_, rfl, ?_⟩
    · simp [Snake.update, halive, hbody, hg]
    · have : min 1 s.growCount = 1 := by omega
      simp [this]
    · simp
  · refine ⟨{ s with dir := s.nextDir,
                     body := (⟨head.x + s.nextDir.x, head.y + s.nextDir.y⟩ :: s.body).dropLast },
      ?_, halive, ?_, ?_, ?_⟩
    · simp [Snake.update, halive, hbody, hg]
    · have : min 1 s.growCount = 0 := by omega
      simp [this, hbody]
    · show s.growCount = s.growCount - 1
      omega
    · simp [hbody]

/-- After k updates a living snake with a non-empty body is still alive, has used up
min k growCount units of pending growth and is longer by that many segments. -/
theorem updateN_alive (k : Nat) : ∀ (s : Snake), s.alive = true → s.body ≠ [] →
    ∃ t, Snake.updateN k s = some t ∧ t.alive = true ∧
      t.body.length = s.body.length + min k s.growCount ∧
      t.growCount = s.growCount - k := by
  induction k with
  | zero =>
    intro s halive _
    exact ⟨s, rfl, halive, by simp, by simp⟩
  | succ k ih =>
    intro s halive hne
    obtain ⟨head, rest, hbody⟩ := List.exists_cons_of_ne_nil hne
    obtain ⟨t, ht, htalive, htlen, htg, htne⟩ := update_alive_cases s head rest halive hbody
    obtain ⟨u, hu, hualive, hulen, hug⟩ := ih t htalive htne
    refine ⟨u, ?_, hualive, ?_, ?_⟩
    · simp [Snake.updateN, ht, hu]
    · rw [hulen, htlen, htg]
      omega
    · rw [hug, htg]
      omega

/-- C3: grow changes only the counter, by the given amount or by 1 when the amount is
absent; after grow(n) on a living snake of length L with counter g, k updates give
length L + min k (g + n), and each of the first n updates adds exactly one segment. -/
theorem grow_spec (s : Snake) (n : Nat) (halive : s.alive = true) (hbody : s.body ≠ []) :
    (s.grow (some n)).body = s.body ∧ (s.grow (some n)).growCount = s.growCount + n ∧
    (s.grow (some n)).dir = s.dir ∧ (s.grow (some n)).nextDir = s.nextDir ∧
    (s.grow (some n)).alive = s.alive ∧ (s.grow (some n)).isAI = s.isAI ∧
    s.grow none = s.grow (some 1) ∧
    (∀ k, ∃ t, Snake.updateN k (s.grow (some n)) = some t ∧
      t.body.length = s.body.length + min k (s.growCount + n)) ∧
    (∀ k, k < n → ∃ t u, Snake.updateN k (s.grow (some n)) = some t ∧
      Snake.updateN (k + 1) (s.grow (some n)) = some u ∧
      u.body.length = t.body.length + 1) := by
  refine ⟨rfl, rfl, rfl, rfl, rfl, rfl, rfl, ?_, ?_⟩
  · intro k
    obtain ⟨t, ht, -, hlen, -⟩ := updateN_alive k (s.grow (some n)) halive hbody
    exact ⟨t, ht, hlen⟩
  · intro k hk
    obtain ⟨t, ht, -, htlen, -⟩ := updateN_alive k (s.grow (some n)) halive hbody
    obtain ⟨u, hu, -, hulen, -⟩ := updateN_alive (k + 1) (s.grow (some n)) halive hbody
    refine ⟨t, u, ht, hu, ?_⟩
    rw [hulen, htlen]
    have hgc : (s.grow (some n)).growCount = s.growCount + n := rfl
    rw [hgc]
    omega

/-- C3, at the snake the constructor builds: after grow(3), five updates give a body
of 3 + 3 segments. -/
theorem grow_spec_witness :
    ∃ t, Snake.updateN 5 ((Snake.new 5 15 DIR.RIGHT false).grow (some 3)) = some t ∧
      t.body.length = 6 :=
  (grow_spec (Snake.new 5 15 DIR.RIGHT false) 3 rfl (by decide)).2.2.2.2.2.2.2.1 5

/-! ## What each phase of a tick can change -/

theorem spawnFood_foods (g : Game) (r : Rng) :
    ∃ f, (spawnFood g r).1.foods = g.foods ++ [f] :=
  ⟨_, rfl⟩

theorem spawnFood_frame (g : Game) (r : Rng) :
    (spawnFood g r).1.snakes = g.snakes ∧ (spawnFood g r).1.scores = g.scores ∧
    (spawnFood g r).1.mode = g.mode ∧ (spawnFood g r).1.speed = g.speed ∧
    (spawnFood g r).1.paused = g.paused ∧ (spawnFood g r).1.roundActive = g.roundActive ∧
    (spawnFood g r).1.roundScores = g.roundScores ∧ (spawnFood g r).1.timers = g.timers :=
  ⟨rfl, rfl, rfl, rfl, rfl, rfl, rfl, rfl⟩

theorem eatFood_frame (g : Game) (idx i : Nat) (food : Food) (r : Rng) :
    (eatFood g idx i food r).1.snakes = growAt g.snakes idx food.growAmount ∧
    (eatFood g idx i food r).1.scores = addScore g.scores (scoreIdx g.mode idx) food.value ∧
    (eatFood g idx i food r).1.mode = g.mode ∧
    (eatFood g idx i food r).1.speed = max MIN_SPEED (g.speed - SPEED_INCREMENT) ∧
    (eatFood g idx i food r).1.paused = g.paused ∧
    (eatFood g idx i food r).1.roundActive = g.roundActive ∧
    (eatFood g idx i food r).1.roundScores = g.roundScores ∧
    (eatFood g idx i food r).1.timers = g.timers ∧
    (∃ f, (eatFood g idx i food r).1.foods = g.foods.eraseIdx i ++ [f]) := by
  refine ⟨rfl, ?_, rfl, rfl, rfl, rfl, rfl, rfl, ⟨_, rfl⟩⟩
  unfold eatFood scoreIdx
  by_cases h : g.mode = some Mode.onePlayer <;> simp [h, spawnFood]

/-- Writing back the element that is already at an index changes nothing. -/
theorem set_same {α : Type} (l : List α) (i : Nat) (a : α) (h : l[i]? = some a) :
    l.set i a = l := by
  apply List.ext_getElem?
  intro n
  rw [List.getElem?_set]
  by_cases hin : i = n
  · subst hin
    obtain ⟨hlt, -⟩ := List.getElem?_eq_some_iff.mp h
    simp [hlt, h]
  · simp [hin]

theorem growAt_zero (snakes : List Snake) (idx : Nat) : growAt snakes idx 0 = snakes := by
  unfold growAt
  cases h : snakes[idx]? with
  | none => rfl
  | some s =>
    have hs : s.grow (some 0) = s := rfl
    simp only [hs]
    exact set_same snakes idx s h

theorem growAt_growAt (snakes : List Snake) (idx a b : Nat) :
    growAt (growAt snakes idx a) idx b = growAt snakes idx (a + b) := by
  unfold growAt
  cases h : snakes[idx]? with
  | none => simp [h]
  | some s =>
    obtain ⟨hlt, -⟩ := List.getElem?_eq_some_iff.mp h
    simp [hlt, Snake.grow, Nat.add_assoc]

theorem growAt_length (snakes : List Snake) (idx a : Nat) :
    (growAt snakes idx a).length = snakes.length := by
  unfold growAt
  cases h : snakes[idx]? <;> simp

theorem addScore_addScore (p : Nat × Nat) (idx a b : Nat) :
    addScore (addScore p idx a) idx b = addScore p idx (a + b) := by
  unfold addScore
  by_cases h0 : idx = 0
  · simp [h0, Nat.add_assoc]
  · by_cases h1 : idx = 1
    · simp [h1, Nat.add_assoc]
    · simp [h0, h1]

theorem addScore_zero (p : Nat × Nat) (idx : Nat) : addScore p idx 0 = p := by
  unfold addScore
  by_cases h0 : idx = 0
  · simp [h0]
  · by_cases h1 : idx = 1 <;> simp [h0, h1]

theorem take_eraseIdx_append {α : Type} (l : List α) (i : Nat) (f : α) (h : i < l.length) :
    (l.eraseIdx i ++ [f]).take i = l.take i := by
  rw [List.eraseIdx_eq_take_drop_succ, List.append_assoc]
  exact List.take_left' (by simp; omega)

theorem foodsAt_take_succ (foods : List Food) (i : Nat) (food : Food) (c : Vec)
    (h : foods[i]? = some food) :
    foodsAt (foods.take (i + 1)) c =
      foodsAt (foods.take i) c ++ (if food.x = c.x ∧ food.y = c.y then [food] else []) := by
  unfold foodsAt
  rw [List.take_succ, h]
  by_cases hc : food.x = c.x ∧ food.y = c.y
  · simp [hc]
  · simp [hc]

/-- The food check of one snake: every food of the first i entries that lies on the
head cell adds its grow amount to the counter of the snake at index idx and its value
to the score entry of that snake; nothing else of the snakes and scores changes. -/
theorem eatLoop_spec (idx : Nat) (head : Vec) : ∀ (i : Nat) (g : Game) (r : Rng),
    i ≤ g.foods.length →
    (eatLoop idx head i g r).1.snakes
      = growAt g.snakes idx (totalGrow (foodsAt (g.foods.take i) head)) ∧
    (eatLoop idx head i g r).1.scores
      = addScore g.scores (scoreIdx g.mode idx) (totalValue (foodsAt (g.foods.take i) head)) ∧
    (eatLoop idx head i g r).1.mode = g.mode ∧
    (eatLoop idx head i g r).1.paused = g.paused ∧
    (eatLoop idx head i g r).1.roundActive = g.roundActive ∧
    (eatLoop idx head i g r).1.roundScores = g.roundScores ∧
    (eatLoop idx head i g r).1.timers = g.timers ∧
    (eatLoop idx head i g r).1.foods.length = g.foods.length := by
  intro i
  induction i with
  | zero =>
    intro g r _
    simp [eatLoop, foodsAt, totalGrow, totalValue, growAt_zero, addScore_zero]
  | succ i ih =>
    intro g r hle
    have hlt : i < g.foods.length := by omega
    have hget : g.foods[i]? = some g.foods[i] := List.getElem?_eq_getElem hlt
    rw [foodsAt_take_succ g.foods i g.foods[i] head hget]
    unfold eatLoop
    simp only [hget]
    by_cases hc : g.foods[i].x = head.x ∧ g.foods[i].y = head.y
    · simp only [hc, and_self, if_true]
      obtain ⟨hsn, hsc, hmo, -, hpa, hra, hrs, hti, f, hfo⟩ := eatFood_frame g idx i g.foods[i] r
      have hlen : (eatFood g idx i g.foods[i] r).1.foods.length = g.foods.length := by
        rw [hfo]
        simp [List.length_eraseIdx, hlt]
        omega
      have htake : (eatFood g idx i g.foods[i] r).1.foods.take i = g.foods.take i := by
        rw [hfo]
        exact take_eraseIdx_append g.foods i f hlt
      obtain ⟨h1, h2, h3, h4, h5, h6, h7, h8⟩ :=
        ih (eatFood g idx i g.foods[i] r).1 (eatFood g idx i g.foods[i] r).2 (by omega)
      rw [htake] at h1 h2
      refine ⟨?_, ?_, h3.trans hmo, h4.trans hpa, h5.trans hra, h6.trans hrs, h7.trans hti,
        h8.trans hlen⟩
      · rw [h1, hsn, growAt_growAt]
        congr 1
        simp [totalGrow]
        omega
      · rw [h2, hsc, hmo, addScore_addScore]
        congr 1
        simp [totalValue]
        omega
    · simp only [hc, if_false, List.append_nil]
      exact ih g r (by omega)

/-- Replacing an element by one with the same image under f leaves the mapped list
unchanged. -/
theorem map_set_same {α β : Type} (f : α → β) (l : List α) (i : Nat) (x a : α)
    (h : l[i]? = some a) (hf : f x = f a) : (l.set i x).map f = l.map f := by
  rw [List.map_set, hf]
  exact set_same (l.map f) i (f a) (by simp [List.getElem?_map, h])

theorem setDirection_undirected (s : Snake) (d : Vec) :
    (s.setDirection d).undirected = s.undirected := by
  unfold Snake.setDirection
  split <;> rfl

theorem bodiesNonEmpty_of_map_body {a b : List Snake}
    (h : a.map Snake.body = b.map Snake.body) (hb : BodiesNonEmpty b) : BodiesNonEmpty a := by
  intro s hs
  have hmem : s.body ∈ a.map Snake.body := List.mem_map_of_mem Snake.body hs
  rw [h] at hmem
  obtain ⟨t, ht, hts⟩ := List.mem_map.mp hmem
  rw [← hts]
  exact hb t ht

theorem map_body_of_undirected {a b : List Snake}
    (h : a.map Snake.undirected = b.map Snake.undirected) :
    a.map Snake.body = b.map Snake.body ∧ a.map Snake.alive = b.map Snake.alive ∧
    a.map Snake.isAI = b.map Snake.isAI ∧ a.map Snake.growCount = b.map Snake.growCount ∧
    a.map Snake.dir = b.map Snake.dir := by
  have h1 := congrArg (List.map Snake.body) h
  have h2 := congrArg (List.map Snake.alive) h
  have h3 := congrArg (List.map Snake.isAI) h
  have h4 := congrArg (List.map Snake.growCount) h
  have h5 := congrArg (List.map Snake.dir) h
  simp only [List.map_map] at h1 h2 h3 h4 h5
  exact ⟨h1, h2, h3, h4, h5⟩

/-- The AI decisions never throw on snakes with non-empty bodies and change nothing
but pending directions. -/
theorem aiPhase_ok (foods : List Food) : ∀ (is : List Nat) (snakes : List Snake) (r : Rng),
    BodiesNonEmpty snakes →
    ∃ out r2, aiPhase foods is snakes r = some (out, r2) ∧
      out.map Snake.undirected = snakes.map Snake.undirected := by
  intro is
  induction is with
  | nil =>
    intro snakes r _
    exact ⟨snakes, r, rfl, rfl⟩
  | cons i rest ih =>
    intro snakes r hne
    unfold aiPhase
    cases hget : snakes[i]? with
    | none => exact ih snakes r hne
    | some snake =>
      simp only []
      by_cases hai : (snake.isAI && snake.alive) = true
      · simp only [hai, if_true]
        have hmem : snake ∈ snakes := List.getElem?_mem hget
        obtain ⟨head, tl, hbody⟩ := List.exists_cons_of_ne_nil (hne snake hmem)
        have hdec : aiDecide foods snake (otherOf snakes i) r
            = some (snake.setDirection (aiBest foods snake head (otherOf snakes i) r).bestDir,
                (aiBest foods snake head (otherOf snakes i) r).rng) := by
          simp [aiDecide, Snake.headPos, hbody]
        rw [hdec]
        simp only []
        have hmap : (snakes.set i
            (snake.setDirection (aiBest foods snake head (otherOf snakes i) r).bestDir)).map
              Snake.undirected = snakes.map Snake.undirected :=
          map_set_same Snake.undirected snakes i _ snake hget (setDirection_undirected _ _)
        have hne2 : BodiesNonEmpty (snakes.set i
            (snake.setDirection (aiBest foods snake head (otherOf snakes i) r).bestDir)) :=
          bodiesNonEmpty_of_map_body (map_body_of_undirected hmap).1 hne
        obtain ⟨out, r2, hout, hmapout⟩ := ih _ (aiBest foods snake head (otherOf snakes i) r).rng hne2
        exact ⟨out, r2, hout, hmapout.trans hmap⟩
      · simp only [hai]
        exact ih snakes r hne

theorem update_ok (s : Snake) (hne : s.body ≠ []) :
    ∃ t, s.update = some t ∧ t.body ≠ [] ∧ t.alive = s.alive ∧ t.isAI = s.isAI := by
  by_cases halive : s.alive = true
  · obtain ⟨head, rest, hbody⟩ := List.exists_cons_of_ne_nil hne
    by_cases hg : 0 < s.growCount
    · refine ⟨{ s with dir := s.nextDir,
                       body := ⟨head.x + s.nextDir.x, head.y + s.nextDir.y⟩ :: s.body,
                       growCount := s.growCount - 1 }, ?_, by simp, rfl, rfl⟩
      simp [Snake.update, halive, hbody, hg]
    · refine ⟨{ s with dir := s.nextDir,
                       body := (⟨head.x + s.nextDir.x, head.y + s.nextDir.y⟩ :: s.body).dropLast },
        ?_, by simp [hbody], rfl, rfl⟩
      simp [Snake.update, halive, hbody, hg]
  · refine ⟨s, ?_, hne, rfl, rfl⟩
    simp [Snake.update, halive]

/-- The moves never throw on snakes with non-empty bodies; each snake is replaced by
its update and bodies stay non-empty. -/
theorem updateAll_ok : ∀ (snakes : List Snake), BodiesNonEmpty snakes →
    ∃ out, updateAll snakes = some out ∧
      List.Forall₂ (fun a b => a.update = some b) snakes out ∧
      BodiesNonEmpty out ∧ out.map Snake.alive = snakes.map Snake.alive ∧
      out.map Snake.isAI = snakes.map Snake.isAI := by
  intro snakes
  induction snakes with
  | nil =>
    intro _
    exact ⟨[], rfl, List.Forall₂.nil, fun s hs => absurd hs (List.not_mem_nil s), rfl, rfl⟩
  | cons s rest ih =>
    intro hne
    obtain ⟨t, ht, htne, htalive, htai⟩ := update_ok s (hne s (List.mem_cons_self s rest))
    obtain ⟨out, hout, hall, houtne, houtalive, houtai⟩ :=
      ih (fun x hx => hne x (List.mem_cons_of_mem s hx))
    refine ⟨t :: out, ?_, List.Forall₂.cons ht hall, ?_, ?_, ?_⟩
    · simp [updateAll, ht, hout]
    · intro x hx
      rcases List.mem_cons.mp hx with h | h
      · rw [h]
        exact htne
      · exact houtne x h
    · simp [htalive, houtalive]
    · simp [htai, houtai]

theorem eatLoop_speed (idx : Nat) (head : Vec) : ∀ (i : Nat) (g : Game) (r : Rng),
    MIN_SPEED ≤ g.speed →
    MIN_SPEED ≤ (eatLoop idx head i g r).1.speed ∧ (eatLoop idx head i g r).1.speed ≤ g.speed := by
  intro i
  induction i with
  | zero =>
    intro g r h
    exact ⟨h, le_refl _⟩
  | succ i ih =>
    intro g r h
    unfold eatLoop
    cases hget : g.foods[i]? with
    | none => exact ih g r h
    | some food =>
      simp only []
      by_cases hc : food.x = head.x ∧ food.y = head.y
      · simp only [hc, and_self, if_true]
        have hsp : (eatFood g idx i food r).1.speed = max MIN_SPEED (g.speed - SPEED_INCREMENT) :=
          (eatFood_frame g idx i food r).2.2.2.1
        have h1 : MIN_SPEED ≤ (eatFood g idx i food r).1.speed := by
          rw [hsp]
          exact le_max_left _ _
        have h2 : (eatFood g idx i food r).1.speed ≤ g.speed := by
          rw [hsp]
          apply max_le h
          unfold SPEED_INCREMENT
          omega
        obtain ⟨h3, h4⟩ := ih (eatFood g idx i food r).1 (eatFood g idx i food r).2 h1
        exact ⟨h3, le_trans h4 h2⟩
      · simp only [hc, if_false]
        exact ih g r h

theorem growAt_ungrown (snakes : List Snake) (idx n : Nat) :
    (growAt snakes idx n).map Snake.ungrown = snakes.map Snake.ungrown := by
  unfold growAt
  cases h : snakes[idx]? with
  | none => rfl
  | some s => exact map_set_same Snake.ungrown snakes idx _ s h rfl

theorem map_body_of_ungrown {a b : List Snake}
    (h : a.map Snake.ungrown = b.map Snake.ungrown) :
    a.map Snake.body = b.map Snake.body ∧ a.map Snake.alive = b.map Snake.alive ∧
    a.map Snake.isAI = b.map Snake.isAI ∧ a.map Snake.dir = b.map Snake.dir ∧
    a.map Snake.nextDir = b.map Snake.nextDir := by
  have h1 := congrArg (List.map Snake.body) h
  have h2 := congrArg (List.map Snake.alive) h
  have h3 := congrArg (List.map Snake.isAI) h
  have h4 := congrArg (List.map Snake.dir) h
  have h5 := congrArg (List.map Snake.nextDir) h
  simp only [List.map_map] at h1 h2 h3 h4 h5
  exact ⟨h1, h2, h3, h4, h5⟩

/-- The food checks never throw on snakes with non-empty bodies; they change growth
counters, foods (not their number), scores and speed only, and speed never rises
once it is at least MIN_SPEED. -/
theorem foodPhase_ok : ∀ (is : List Nat) (g : Game) (r : Rng), BodiesNonEmpty g.snakes →
    ∃ g2 r2, foodPhase is g r = some (g2, r2) ∧
      g2.snakes.map Snake.ungrown = g.snakes.map Snake.ungrown ∧
      g2.mode = g.mode ∧ g2.paused = g.paused ∧ g2.roundActive = g.roundActive ∧
      g2.roundScores = g.roundScores ∧ g2.timers = g.timers ∧
      g2.foods.length = g.foods.length ∧
      (MIN_SPEED ≤ g.speed → MIN_SPEED ≤ g2.speed ∧ g2.speed ≤ g.speed) := by
  intro is
  induction is with
  | nil =>
    intro g r _
    exact ⟨g, r, rfl, rfl, rfl, rfl, rfl, rfl, rfl, rfl, fun h => ⟨h, le_refl _⟩⟩
  | cons idx rest ih =>
    intro g r hne
    unfold foodPhase
    cases hget : g.snakes[idx]? with
    | none => exact ih g r hne
    | some snake =>
      simp only []
      by_cases halive : snake.alive = true
      · simp only [halive, Bool.not_true, Bool.false_eq_true, if_false]
        have hmem : snake ∈ g.snakes := List.getElem?_mem hget
        obtain ⟨head, tl, hbody⟩ := List.exists_cons_of_ne_nil (hne snake hmem)
        simp only [Snake.headPos, hbody, List.head?_cons]
        obtain ⟨e1, -, e3, e4, e5, e6, e7, e8⟩ :=
          eatLoop_spec idx head g.foods.length g r (le_refl _)
        have hun : (eatLoop idx head g.foods.length g r).1.snakes.map Snake.ungrown
            = g.snakes.map Snake.ungrown := by
          rw [e1]
          exact growAt_ungrown _ _ _
        have hne2 : BodiesNonEmpty (eatLoop idx head g.foods.length g r).1.snakes :=
          bodiesNonEmpty_of_map_body (map_body_of_ungrown hun).1 hne
        obtain ⟨g2, r2, hrun, f1, f2, f3, f4, f5, f6, f7, f8⟩ :=
          ih (eatLoop idx head g.foods.length g r).1 (eatLoop idx head g.foods.length g r).2 hne2
        refine ⟨g2, r2, hrun, f1.trans hun, f2.trans e3, f3.trans e4, f4.trans e5, f5.trans e6,
          f6.trans e7, f7.trans e8, ?_⟩
        intro hsp
        obtain ⟨s1, s2⟩ := eatLoop_speed idx head g.foods.length g r hsp
        obtain ⟨s3, s4⟩ := f8 s1
        exact ⟨s3, le_trans s4 s2⟩
      · simp only [halive, Bool.not_false, if_true]
        exact ih g r hne

theorem hitOthers_spec (snakes : List Snake) (i : Nat) (h : Vec) (rest : List Vec) :
    ∀ (js : List Nat) (s : Snake), s.body = h :: rest →
      hitOthers snakes i js s
        = some { s with alive := s.alive && !js.any (hitsOther snakes h i) } := by
  intro js
  induction js with
  | nil =>
    intro s _
    simp [hitOthers]
  | cons j js ih =>
    intro s hbody
    unfold hitOthers
    by_cases hij : i = j
    · simp only [hij, if_true]
      rw [← hij, ih s hbody]
      simp [hitsOther]
    · simp only [hij, if_false]
      cases hget : snakes[j]? with
      | none =>
        simp only []
        rw [ih s hbody]
        simp [hitsOther, hget]
      | some other =>
        have hcc : s.checkCollisionWith other = some (hits other.body h.x h.y) := by
          simp [Snake.checkCollisionWith, Snake.headPos, hbody]
        simp only [hcc]
        by_cases hhit : hits other.body h.x h.y = true
        · simp only [hhit, if_true]
          rw [ih { s with alive := false } hbody]
          simp [hitsOther, hget, hhit, hij]
        · simp only [Bool.not_eq_true] at hhit
          simp only [hhit, Bool.false_eq_true, if_false]
          rw [ih s hbody]
          simp [hitsOther, hget, hhit, hij]

/-- The collision check of one snake: a dead snake is returned as it is, a living one
stays alive exactly when collides is false; nothing but the flag alive changes. -/
theorem collideSnake_spec (snakes : List Snake) (i : Nat) (snake : Snake)
    (hget : snakes[i]? = some snake) (hne : snake.body ≠ []) :
    collideSnake snakes i snake
      = some { snake with alive := snake.alive && !collides snakes i } := by
  obtain ⟨h, rest, hbody⟩ := List.exists_cons_of_ne_nil hne
  have hwall : snake.checkWallCollision = some (outOfGrid h.x h.y) := by
    simp [Snake.checkWallCollision, Snake.headPos, hbody]
  have hself : snake.checkSelfCollision = some (hits rest h.x h.y) := by
    simp [Snake.checkSelfCollision, hbody]
  have hcol : collides snakes i
      = (outOfGrid h.x h.y || hits rest h.x h.y
          || (List.range snakes.length).any (hitsOther snakes h i)) := by
    simp only [collides, hget, hbody]
  unfold collideSnake
  rw [hwall, hself, hcol]
  by_cases halive : snake.alive = true
  · simp only [halive, Bool.not_true, Bool.false_eq_true, if_false]
    by_cases hw : (outOfGrid h.x h.y || hits rest h.x h.y) = true
    · simp only [hw, if_true]
      rw [hitOthers_spec snakes i h rest (List.range snakes.length) { snake with alive := false }
        hbody]
      simp
    · simp only [Bool.not_eq_true] at hw
      simp only [hw, Bool.false_eq_true, if_false]
      rw [hitOthers_spec snakes i h rest (List.range snakes.length) snake hbody]
      simp [halive]
  · simp only [Bool.not_eq_true] at halive
    simp only [halive, Bool.not_false, if_true, Bool.false_and]
    congr 1
    cases snake
    simp only at halive
    subst halive
    rfl

theorem getElem?_body_of_map {a b : List Snake} (h : a.map Snake.body = b.map Snake.body)
    (j : Nat) : (a[j]?).map Snake.body = (b[j]?).map Snake.body := by
  rw [← List.getElem?_map, ← List.getElem?_map, h]

/-- Whether a snake collides depends on the bodies of the list only. -/
theorem collides_congr {a b : List Snake} (h : a.map Snake.body = b.map Snake.body) (i : Nat) :
    collides a i = collides b i := by
  have hlen : a.length = b.length := by
    have := congrArg List.length h
    simpa using this
  have hother : ∀ (c : Vec) (j : Nat), hitsOther a c i j = hitsOther b c i j := by
    intro c j
    have hj := getElem?_body_of_map h j
    unfold hitsOther
    cases ha : a[j]? with
    | none =>
      cases hb : b[j]? with
      | none => rfl
      | some y => simp [ha, hb] at hj
    | some x =>
      cases hb : b[j]? with
      | none => simp [ha, hb] at hj
      | some y =>
        simp only [ha, hb, Option.map_some', Option.some.injEq] at hj
        simp only [hj]
  have hi := getElem?_body_of_map h i
  unfold collides
  cases ha : a[i]? with
  | none =>
    cases hb : b[i]? with
    | none => rfl
    | some y => simp [ha, hb] at hi
  | some x =>
    cases hb : b[i]? with
    | none => simp [ha, hb] at hi
    | some y =>
      simp only [ha, hb, Option.map_some', Option.some.injEq] at hi
      simp only [hi, hlen]
      cases y.body with
      | nil => rfl
      | cons c rest =>
        simp only []
        rw [show hitsOther a c i = hitsOther b c i from funext (hother c)]

theorem map_body_of_cleared {a b : List Snake}
    (h : a.map Snake.cleared = b.map Snake.cleared) :
    a.map Snake.body = b.map Snake.body ∧ a.map Snake.growCount = b.map Snake.growCount ∧
    a.map Snake.isAI = b.map Snake.isAI ∧ a.map Snake.dir = b.map Snake.dir ∧
    a.map Snake.nextDir = b.map Snake.nextDir := by
  have h1 := congrArg (List.map Snake.body) h
  have h2 := congrArg (List.map Snake.growCount) h
  have h3 := congrArg (List.map Snake.isAI) h
  have h4 := congrArg (List.map Snake.dir) h
  have h5 := congrArg (List.map Snake.nextDir) h
  simp only [List.map_map] at h1 h2 h3 h4 h5
  exact ⟨h1, h2, h3, h4, h5⟩

/-- The collision loop over the indices is: it never throws on non-empty bodies, it
changes nothing but flags alive, and the snake at an index of the list ends alive
exactly when it was alive and does not collide; the other snakes keep their flag. -/
theorem collisionPhase_spec : ∀ (is : List Nat) (snakes : List Snake),
    BodiesNonEmpty snakes →
    ∃ out, collisionPhase is snakes = some out ∧
      out.map Snake.cleared = snakes.map Snake.cleared ∧
      ∀ (j : Nat) (s : Snake), snakes[j]? = some s →
        ∃ t, out[j]? = some t ∧
          t.alive = (if j ∈ is then s.alive && !collides snakes j else s.alive) := by
  intro is
  induction is with
  | nil =>
    intro snakes _
    exact ⟨snakes, rfl, rfl, fun j s hs => ⟨s, hs, by simp⟩⟩
  | cons i rest ih =>
    intro snakes hne
    unfold collisionPhase
    cases hget : snakes[i]? with
    | none =>
      obtain ⟨out, hout, hmap, hpt⟩ := ih snakes hne
      refine ⟨out, hout, hmap, ?_⟩
      intro j s hs
      obtain ⟨t, ht, hta⟩ := hpt j s hs
      refine ⟨t, ht, ?_⟩
      have hji : j ≠ i := by
        intro hji
        rw [hji, hget] at hs
        cases hs
      simp only [List.mem_cons, hji, false_or]
      exact hta
    | some snake =>
      simp only []
      have hmem : snake ∈ snakes := List.getElem?_mem hget
      rw [collideSnake_spec snakes i snake hget (hne snake hmem)]
      simp only []
      have hmap2 : (snakes.set i { snake with alive := snake.alive && !collides snakes i }).map
          Snake.cleared = snakes.map Snake.cleared :=
        map_set_same Snake.cleared snakes i _ snake hget rfl
      have hbodies := (map_body_of_cleared hmap2).1
      have hne2 := bodiesNonEmpty_of_map_body hbodies hne
      obtain ⟨out, hout, hmap, hpt⟩ := ih _ hne2
      refine ⟨out, hout, hmap.trans hmap2, ?_⟩
      intro j s hs
      obtain ⟨hlt, -⟩ := List.getElem?_eq_some_iff.mp hget
      by_cases hji : j = i
      · subst hji
        have hs2 : (snakes.set j { snake with alive := snake.alive && !collides snakes j })[j]?
            = some { snake with alive := snake.alive && !collides snakes j } := by
          simp [List.getElem?_set, hlt]
        obtain ⟨t, ht, hta⟩ := hpt j _ hs2
        refine ⟨t, ht, ?_⟩
        rw [hget] at hs
        cases hs
        rw [hta, collides_congr hbodies j]
        simp only [List.mem_cons, true_or, if_true]
        split <;> simp
      · have hs2 : (snakes.set i { snake with alive := snake.alive && !collides snakes i })[j]?
            = some s := by
          rw [List.getElem?_set]
          simp [Ne.symm hji, hs]
        obtain ⟨t, ht, hta⟩ := hpt j s hs2
        refine ⟨t, ht, ?_⟩
        rw [hta, collides_congr hbodies j]
        simp only [List.mem_cons, hji, false_or]

theorem hits_head (h c : Vec) (rest : List Vec) (hx : h.x = c.x) (hy : h.y = c.y) :
    hits (h :: rest) c.x c.y = true := by
  simp [hits, hx, hy]

/-- Two snakes whose heads share a cell: the first one collides. -/
theorem collides_head_on_left (a0 a1 : Snake) (h0 h1 : Vec) (r0 r1 : List Vec)
    (hb0 : a0.body = h0 :: r0) (hb1 : a1.body = h1 :: r1)
    (hx : h0.x = h1.x) (hy : h0.y = h1.y) : collides [a0, a1] 0 = true := by
  have hh : hits a1.body h0.x h0.y = true := by
    rw [hb1]
    exact hits_head h1 h0 r1 hx.symm hy.symm
  have hr : List.range 2 = [0, 1] := by decide
  simp [collides, hb0, hitsOther, hh, hr]

/-- Two snakes whose heads share a cell: the second one collides. -/
theorem collides_head_on_right (a0 a1 : Snake) (h0 h1 : Vec) (r0 r1 : List Vec)
    (hb0 : a0.body = h0 :: r0) (hb1 : a1.body = h1 :: r1)
    (hx : h0.x = h1.x) (hy : h0.y = h1.y) : collides [a0, a1] 1 = true := by
  have hh : hits a0.body h1.x h1.y = true := by
    rw [hb0]
    exact hits_head h0 h1 r0 hx hy
  have hr : List.range 2 = [0, 1] := by decide
  simp [collides, hb1, hitsOther, hh, hr]

/-- The collision loop of a tick with its result spelled out for every index. -/
theorem collisionPhase_range (snakes : List Snake) (hne : BodiesNonEmpty snakes) :
    ∃ out, collisionPhase (List.range snakes.length) snakes = some out ∧
      out.map Snake.cleared = snakes.map Snake.cleared ∧
      ∀ (j : Nat) (s : Snake), snakes[j]? = some s →
        ∃ t, out[j]? = some t ∧ t.alive = (s.alive && !collides snakes j) := by
  obtain ⟨out, hout, hmap, hpt⟩ := collisionPhase_spec (List.range snakes.length) snakes hne
  refine ⟨out, hout, hmap, ?_⟩
  intro j s hs
  obtain ⟨t, ht, hta⟩ := hpt j s hs
  obtain ⟨hlt, -⟩ := List.getElem?_eq_some_iff.mp hs
  refine ⟨t, ht, ?_⟩
  rw [hta]
  simp [List.mem_range, hlt]

/-- After the collision loop the head-on block finds nothing to do. -/
theorem headOn_after_collision (snakes out : List Snake) (hne : BodiesNonEmpty snakes)
    (hout : collisionPhase (List.range snakes.length) snakes = some out) :
    headOnPhase out = some out := by
  obtain ⟨out2, hout2, hmap, hpt⟩ := collisionPhase_range snakes hne
  rw [hout] at hout2
  cases hout2
  rcases snakes with _ | ⟨a0, _ | ⟨a1, _ | ⟨a2, tl⟩⟩⟩
  · cases out with
    | nil => rfl
    | cons x xs => simp at hmap
  · rcases out with _ | ⟨s0, _ | ⟨s1, tl2⟩⟩
    · rfl
    · rfl
    · simp at hmap
  · rcases out with _ | ⟨s0, _ | ⟨s1, _ | ⟨s2, tl2⟩⟩⟩
    · rfl
    · rfl
    · obtain ⟨h0, r0, hb0⟩ := List.exists_cons_of_ne_nil (hne a0 (by simp))
      obtain ⟨h1, r1, hb1⟩ := List.exists_cons_of_ne_nil (hne a1 (by simp))
      have hbodies := (map_body_of_cleared hmap).1
      simp only [List.map_cons, List.map_nil, List.cons.injEq, and_true] at hbodies
      obtain ⟨t0, ht0, hta0⟩ := hpt 0 a0 rfl
      obtain ⟨t1, ht1, hta1⟩ := hpt 1 a1 rfl
      simp only [List.getElem?_cons_zero, Option.some.injEq] at ht0
      simp only [List.getElem?_cons_succ, List.getElem?_cons_zero, Option.some.injEq] at ht1
      subst ht0
      subst ht1
      unfold headOnPhase
      by_cases hal : (s0.alive && s1.alive) = true
      · simp only [hal, if_true, Snake.headPos, hbodies.1, hbodies.2, hb0, hb1, List.head?_cons]
        by_cases heq : h0.x = h1.x ∧ h0.y = h1.y
        · exfalso
          have hc := collides_head_on_left a0 a1 h0 h1 r0 r1 hb0 hb1 heq.1 heq.2
          rw [hc] at hta0
          simp only [Bool.and_eq_true] at hal
          rw [hal.1] at hta0
          simp at hta0
        · simp only [heq, if_false]
      · simp only [hal]
        rfl
    · simp at hmap
  · rcases out with _ | ⟨s0, _ | ⟨s1, _ | ⟨s2, tl2⟩⟩⟩
    · rfl
    · rfl
    · simp at hmap
    · rfl

/-- The collision part of a tick: it never throws on non-empty bodies, it equals the
collision loop alone, it changes nothing but flags alive, and each snake ends alive
exactly when it was alive and does not collide. -/
theorem tickCollide_spec (snakes : List Snake) (hne : BodiesNonEmpty snakes) :
    ∃ out, tickCollide snakes = some out ∧
      collisionPhase (List.range snakes.length) snakes = some out ∧
      out.map Snake.cleared = snakes.map Snake.cleared ∧
      ∀ (j : Nat) (s : Snake), snakes[j]? = some s →
        ∃ t, out[j]? = some t ∧ t.alive = (s.alive && !collides snakes j) := by
  obtain ⟨out, hout, hmap, hpt⟩ := collisionPhase_range snakes hne
  refine ⟨out, ?_, hout, hmap, hpt⟩
  unfold tickCollide
  rw [hout]
  exact headOn_after_collision snakes out hne hout

theorem extraFood_frame (g : Game) (r : Rng) :
    (extraFood g r).1.snakes = g.snakes ∧ (extraFood g r).1.scores = g.scores ∧
    (extraFood g r).1.mode = g.mode ∧ (extraFood g r).1.speed = g.speed ∧
    (extraFood g r).1.paused = g.paused ∧ (extraFood g r).1.roundActive = g.roundActive ∧
    (extraFood g r).1.roundScores = g.roundScores ∧ (extraFood g r).1.timers = g.timers := by
  unfold extraFood
  split
  · exact spawnFood_frame g r
  · split
    · split
      · exact spawnFood_frame g _
      · exact ⟨rfl, rfl, rfl, rfl, rfl, rfl, rfl, rfl⟩
    · exact ⟨rfl, rfl, rfl, rfl, rfl, rfl, rfl, rfl⟩

/-- The round-end check writes roundActive, roundScores and timers only. -/
theorem checkRoundEnd_frame (g g2 : Game) (h : checkRoundEnd g = some g2) :
    g2.snakes = g.snakes ∧ g2.foods = g.foods ∧ g2.scores = g.scores ∧ g2.mode = g.mode ∧
    g2.speed = g.speed ∧ g2.paused = g.paused := by
  unfold checkRoundEnd at h
  split at h
  · split at h
    · cases h
    · split at h <;> (cases h; exact ⟨rfl, rfl, rfl, rfl, rfl, rfl⟩)
  · simp only at h
    split at h
    · cases h
      exact ⟨rfl, rfl, rfl, rfl, rfl, rfl⟩
    · split at h
      · split at h <;> (cases h; exact ⟨rfl, rfl, rfl, rfl, rfl, rfl⟩)
      · cases h
        exact ⟨rfl, rfl, rfl, rfl, rfl, rfl⟩

/-- The round-end check throws in single-player mode with no snake only. -/
theorem checkRoundEnd_some (g : Game) (hsh : g.mode = some Mode.onePlayer → g.snakes ≠ []) :
    ∃ g2, checkRoundEnd g = some g2 := by
  unfold checkRoundEnd
  split
  · rename_i hm
    obtain ⟨s0, tl, hs⟩ := List.exists_cons_of_ne_nil (hsh hm)
    simp only [hs, List.head?_cons]
    split <;> exact ⟨_, rfl⟩
  · simp only
    split
    · exact ⟨_, rfl⟩
    · split
      · split <;> exact ⟨_, rfl⟩
      · exact ⟨_, rfl⟩

theorem length_eq_of_map_eq {α β : Type} (f : α → β) {a b : List α}
    (h : a.map f = b.map f) : a.length = b.length := by
  have := congrArg List.length h
  simpa using this

/-- The phases of a tick that runs, on a state whose snakes all have a segment and
which has a snake when the mode is single-player: no phase throws, and the tick is
the composition of the phases. -/
theorem tick_anatomy (g : Game) (r : Rng) (hp : g.paused = false) (ha : g.roundActive = true)
    (hne : BodiesNonEmpty g.snakes) (hsh : g.mode = some Mode.onePlayer → g.snakes ≠ []) :
    ∃ (ai : List Snake) (r1 : Rng) (moved : List Snake) (f : Game) (rf : Rng)
      (col : List Snake) (g2 : Game),
      aiPhase g.foods (List.range g.snakes.length) g.snakes r = some (ai, r1) ∧
      updateAll ai = some moved ∧
      tickMove g r = some ({ g with snakes := moved }, r1) ∧
      foodPhase (List.range moved.length) { g with snakes := moved } r1 = some (f, rf) ∧
      tickCollide f.snakes = some col ∧
      checkRoundEnd (extraFood { f with snakes := col } rf).1 = some g2 ∧
      tick g r = some (g2, (extraFood { f with snakes := col } rf).2) ∧
      BodiesNonEmpty ai ∧ BodiesNonEmpty moved ∧ BodiesNonEmpty f.snakes ∧
      BodiesNonEmpty col ∧ ai.length = g.snakes.length ∧ moved.length = g.snakes.length ∧
      f.snakes.length = g.snakes.length ∧ col.length = g.snakes.length ∧ f.mode = g.mode ∧
      moved.map Snake.alive = g.snakes.map Snake.alive ∧
      col.map Snake.cleared = f.snakes.map Snake.cleared ∧
      g2.snakes = col ∧ g2.scores = f.scores ∧ g2.speed = f.speed ∧ g2.mode = g.mode ∧
      g2.paused = g.paused ∧
      f.snakes.map Snake.ungrown = moved.map Snake.ungrown ∧
      (∀ (j : Nat) (s : Snake), f.snakes[j]? = some s →
        ∃ t, col[j]? = some t ∧ t.alive = (s.alive && !collides f.snakes j)) ∧
      ai.map Snake.undirected = g.snakes.map Snake.undirected ∧
      List.Forall₂ (fun x y => x.update = some y) ai moved ∧
      (MIN_SPEED ≤ g.speed → MIN_SPEED ≤ f.speed ∧ f.speed ≤ g.speed) ∧
      f.roundActive = g.roundActive ∧ f.roundScores = g.roundScores ∧ f.timers = g.timers ∧
      f.foods.length = g.foods.length := by
  obtain ⟨ai, r1, hai, haimap⟩ := aiPhase_ok g.foods (List.range g.snakes.length) g.snakes r hne
  have hai_ne : BodiesNonEmpty ai :=
    bodiesNonEmpty_of_map_body (map_body_of_undirected haimap).1 hne
  obtain ⟨moved, hmoved, hall, hmoved_ne, hmoved_alive, -⟩ := updateAll_ok ai hai_ne
  obtain ⟨f, rf, hf, hfmap, hfmode, hfpaused, hfra, hfrs, hfti, hffl, hfsp⟩ :=
    foodPhase_ok (List.range moved.length) { g with snakes := moved } r1 hmoved_ne
  have hf_ne : BodiesNonEmpty f.snakes :=
    bodiesNonEmpty_of_map_body (map_body_of_ungrown hfmap).1 hmoved_ne
  obtain ⟨col, hcol, -, hcolmap, hcolpt⟩ := tickCollide_spec f.snakes hf_ne
  have hcol_ne : BodiesNonEmpty col :=
    bodiesNonEmpty_of_map_body (map_body_of_cleared hcolmap).1 hf_ne
  have l1 : ai.length = g.snakes.length := length_eq_of_map_eq _ haimap
  have l2 : moved.length = g.snakes.length := by
    rw [← l1]
    exact hall.length_eq.symm
  have l3 : f.snakes.length = g.snakes.length := by
    rw [← l2]
    exact length_eq_of_map_eq _ hfmap
  have l4 : col.length = g.snakes.length := by
    rw [← l3]
    exact length_eq_of_map_eq _ hcolmap
  have hsh2 : (extraFood { f with snakes := col } rf).1.mode = some Mode.onePlayer →
      (extraFood { f with snakes := col } rf).1.snakes ≠ [] := by
    obtain ⟨e1, -, e3, -⟩ := extraFood_frame { f with snakes := col } rf
    rw [e1, e3]
    intro hm
    have hg := hsh (hfmode ▸ hm)
    intro hnil
    apply hg
    apply List.eq_nil_of_length_eq_zero
    rw [← l4]
    show col.length = 0
    have hnil2 : col = [] := hnil
    rw [hnil2]
    rfl
  obtain ⟨g2, hg2⟩ := checkRoundEnd_some _ hsh2
  have hmove : tickMove g r = some ({ g with snakes := moved }, r1) := by
    simp [tickMove, hai, hmoved]
  obtain ⟨c1, -, c3, c4, c5, c6⟩ := checkRoundEnd_frame _ g2 hg2
  obtain ⟨x1, x2, x3, x4, x5, -⟩ := extraFood_frame { f with snakes := col } rf
  refine ⟨ai, r1, moved, f, rf, col, g2, hai, hmoved, hmove, hf, hcol, hg2, ?_, hai_ne, hmoved_ne,
    hf_ne, hcol_ne, l1, l2, l3, l4, hfmode,
    hmoved_alive.trans (map_body_of_undirected haimap).2.1, hcolmap,
    c1.trans x1, c3.trans x2, c5.trans x4, (c4.trans x3).trans hfmode,
    (c6.trans x5).trans hfpaused, hfmap, hcolpt, haimap, hall, hfsp, hfra, hfrs, hfti, hffl⟩
  have hrest : tickRest { g with snakes := moved } r1
      = some (g2, (extraFood { f with snakes := col } rf).2) := by
    simp [tickRest, hf, hcol, hg2]
  unfold tick
  have hc : ¬ ((g.paused || !g.roundActive) = true) := by simp [hp, ha]
  rw [if_neg hc, hmove]
  exact hrest

/-! ## Food consumption -/

theorem foodPhase_cons_alive (idx : Nat) (rest : List Nat) (g : Game) (r : Rng) (s : Snake)
    (h : Vec) (hs : g.snakes[idx]? = some s) (halive : s.alive = true)
    (hh : s.headPos = some h) :
    foodPhase (idx :: rest) g r
      = foodPhase rest (eatLoop idx h g.foods.length g r).1 (eatLoop idx h g.foods.length g r).2 := by
  rw [foodPhase]
  simp only [hs, halive, hh, Bool.not_true, Bool.false_eq_true, if_false]

theorem foodPhase_cons_dead (idx : Nat) (rest : List Nat) (g : Game) (r : Rng) (s : Snake)
    (hs : g.snakes[idx]? = some s) (halive : s.alive = false) :
    foodPhase (idx :: rest) g r = foodPhase rest g r := by
  rw [foodPhase]
  simp only [hs, halive, Bool.not_false, if_true]

/-- The whole food check of one snake, over all the foods present when it starts. -/
theorem eatLoop_full (idx : Nat) (head : Vec) (g : Game) (r : Rng) :
    (eatLoop idx head g.foods.length g r).1.snakes
      = growAt g.snakes idx (totalGrow (foodsAt g.foods head)) ∧
    (eatLoop idx head g.foods.length g r).1.scores
      = addScore g.scores (scoreIdx g.mode idx) (totalValue (foodsAt g.foods head)) ∧
    (eatLoop idx head g.foods.length g r).1.mode = g.mode := by
  obtain ⟨h1, h2, h3, -⟩ := eatLoop_spec idx head g.foods.length g r (le_refl _)
  rw [List.take_length] at h1 h2
  exact ⟨h1, h2, h3⟩

theorem growAt_getElem?_self (snakes : List Snake) (idx n : Nat) :
    (growAt snakes idx n)[idx]? = (snakes[idx]?).map (fun s => s.grow (some n)) := by
  unfold growAt
  cases h : snakes[idx]? with
  | none => simp [h]
  | some s =>
    obtain ⟨hlt, -⟩ := List.getElem?_eq_some_iff.mp h
    simp [List.getElem?_set, hlt]

theorem growAt_getElem?_ne (snakes : List Snake) (idx j n : Nat) (hne : idx ≠ j) :
    (growAt snakes idx n)[j]? = snakes[j]? := by
  unfold growAt
  cases h : snakes[idx]? with
  | none => rfl
  | some s => simp [List.getElem?_set, hne]

theorem getScore_addScore_self (p : Nat × Nat) (idx v : Nat) (h : idx < 2) :
    getScore (addScore p idx v) idx = getScore p idx + v := by
  have h01 : idx = 0 ∨ idx = 1 := by omega
  rcases h01 with h0 | h1
  · subst h0
    simp [getScore, addScore]
  · subst h1
    simp [getScore, addScore]

theorem getScore_addScore_other (p : Nat × Nat) (idx v : Nat) (h : idx < 2) :
    getScore (addScore p idx v) (1 - idx) = getScore p (1 - idx) := by
  have h01 : idx = 0 ∨ idx = 1 := by omega
  rcases h01 with h0 | h1
  · subst h0
    simp [getScore, addScore]
  · subst h1
    simp [getScore, addScore]

theorem getScore_addScore_ne (p : Nat × Nat) (idx j v : Nat) (hne : idx ≠ j) (h : idx < 2) :
    getScore (addScore p j v) idx = getScore p idx := by
  have h01 : idx = 0 ∨ idx = 1 := by omega
  unfold addScore getScore
  rcases h01 with h0 | h1
  · subst h0
    have hj : j ≠ 0 := Ne.symm hne
    by_cases hj1 : j = 1 <;> simp [hj, hj1]
  · subst h1
    by_cases hj0 : j = 0
    · simp [hj0]
    · have hj1 : j ≠ 1 := Ne.symm hne
      simp [hj0, hj1]

/-- The food checks of a list of indices run one after the other. -/
theorem foodPhase_append : ∀ (is js : List Nat) (g : Game) (r : Rng),
    foodPhase (is ++ js) g r =
      match foodPhase is g r with
      | none => none
      | some p => foodPhase js p.1 p.2 := by
  intro is
  induction is with
  | nil =>
    intro js g r
    simp [foodPhase]
  | cons i is ih =>
    intro js g r
    rw [List.cons_append, foodPhase, foodPhase]
    cases g.snakes[i]? with
    | none => exact ih js g r
    | some s =>
      simp only []
      split
      · exact ih js g r
      · cases s.headPos with
        | none =>
          simp only []
          split
          · exact ih js g r
          · rfl
        | some h => exact ih js _ _

/-- The food checks of other snakes leave a snake as it is, and outside single-player
mode they leave its score entry as it is. -/
theorem foodPhase_other (idx : Nat) : ∀ (is : List Nat) (g : Game) (r : Rng) (g2 : Game)
    (r2 : Rng), idx ∉ is → foodPhase is g r = some (g2, r2) →
    g2.snakes[idx]? = g.snakes[idx]? ∧ g2.mode = g.mode ∧
    (g.mode ≠ some Mode.onePlayer → idx < 2 → getScore g2.scores idx = getScore g.scores idx) := by
  intro is
  induction is with
  | nil =>
    intro g r g2 r2 _ h
    simp only [foodPhase, Option.some.injEq, Prod.mk.injEq] at h
    obtain ⟨h1, -⟩ := h
    subst h1
    exact ⟨rfl, rfl, fun _ _ => rfl⟩
  | cons j is ih =>
    intro g r g2 r2 hnot h
    have hj : idx ≠ j := fun e => hnot (by simp [e])
    have hrest : idx ∉ is := fun e => hnot (by simp [e])
    rw [foodPhase] at h
    cases hget : g.snakes[j]? with
    | none =>
      simp only [hget] at h
      exact ih g r g2 r2 hrest h
    | some sj =>
      simp only [hget] at h
      by_cases halive : sj.alive = true
      · simp only [halive, Bool.not_true, Bool.false_eq_true, if_false] at h
        cases hh : sj.headPos with
        | none =>
          simp only [hh] at h
          split at h
          · exact ih g r g2 r2 hrest h
          · cases h
        | some hd =>
          simp only [hh] at h
          obtain ⟨e1, e2, e3⟩ := eatLoop_full j hd g r
          obtain ⟨i1, i2, i3⟩ := ih _ _ g2 r2 hrest h
          refine ⟨?_, i2.trans e3, ?_⟩
          · rw [i1, e1]
            exact growAt_getElem?_ne g.snakes j idx _ (Ne.symm hj)
          · intro hm hlt
            rw [i3 (by rw [e3]; exact hm) hlt, e2]
            have hsi : scoreIdx g.mode j = j := by simp [scoreIdx, hm]
            rw [hsi]
            exact getScore_addScore_ne g.scores idx j _ hj hlt
      · simp only [Bool.not_eq_true] at halive
        simp only [halive, Bool.not_false, if_true] at h
        exact ih g r g2 r2 hrest h

theorem range_split (n idx : Nat) (h : idx < n) :
    ∃ tail, List.range n = List.range idx ++ idx :: tail ∧ idx ∉ tail ∧
      (n = idx + 1 → tail = []) := by
  obtain ⟨k, hk⟩ : ∃ k, n = idx + (k + 1) := ⟨n - idx - 1, by omega⟩
  subst hk
  refine ⟨((List.range k).map Nat.succ).map (fun j => idx + j), ?_, ?_, ?_⟩
  · rw [List.range_add, List.range_succ_eq_map]
    simp
  · intro hmem
    simp only [List.mem_map, List.mem_range] at hmem
    obtain ⟨a, ⟨b, -, hb⟩, ha⟩ := hmem
    subst hb
    simp at ha
  · intro hn
    have hk0 : k = 0 := by omega
    subst hk0
    rfl

theorem scoreIdx_eq (mode : Option Mode) (n idx : Nat) (hidx : idx < n)
    (hm : mode ≠ some Mode.onePlayer ∨ n = 1) : scoreIdx mode idx = idx := by
  unfold scoreIdx
  rcases hm with hm | hn
  · simp [hm]
  · have h0 : idx = 0 := by omega
    simp [h0]

/-- The food check of the living snake at index idx inside the food checks of all n
snakes: it starts in the state b left by the checks of the snakes before it, and the
snake ends with the grow amounts of the foods of b on its head cell added to its
counter.  Outside single-player mode, or with one snake, its score entry ends with
the values of these foods added, and the check does not write the other entry. -/
theorem foodPhase_at (n idx : Nat) (m : Game) (r1 : Rng) (f : Game) (rf : Rng) (s : Snake)
    (h : Vec) (hidx : idx < n) (hf : foodPhase (List.range n) m r1 = some (f, rf))
    (hs : m.snakes[idx]? = some s) (halive : s.alive = true) (hh : s.headPos = some h) :
    ∃ b rb, foodPhase (List.range idx) m r1 = some (b, rb) ∧
      b.snakes[idx]? = some s ∧ b.mode = m.mode ∧
      f.snakes[idx]? = some (s.grow (some (totalGrow (foodsAt b.foods h)))) ∧
      (m.mode ≠ some Mode.onePlayer ∨ n = 1 → idx < 2 →
        getScore f.scores idx = getScore m.scores idx + totalValue (foodsAt b.foods h) ∧
        getScore (eatLoop idx h b.foods.length b rb).1.scores (1 - idx)
          = getScore b.scores (1 - idx)) := by
  obtain ⟨tail, hsplit, hnot, htail⟩ := range_split n idx hidx
  rw [hsplit, foodPhase_append] at hf
  cases hb : foodPhase (List.range idx) m r1 with
  | none => simp [hb] at hf
  | some p =>
    obtain ⟨b, rb⟩ := p
    simp only [hb] at hf
    have hnr : idx ∉ List.range idx := by simp
    obtain ⟨b1, b2, b3⟩ := foodPhase_other idx (List.range idx) m r1 b rb hnr hb
    have hbs : b.snakes[idx]? = some s := b1.trans hs
    rw [foodPhase_cons_alive idx tail b rb s h hbs halive hh] at hf
    obtain ⟨e1, e2, e3⟩ := eatLoop_full idx h b rb
    obtain ⟨t1, t2, t3⟩ := foodPhase_other idx tail _ _ f rf hnot hf
    refine ⟨b, rb, rfl, hbs, b2, ?_, ?_⟩
    · rw [t1, e1, growAt_getElem?_self, hbs]
      rfl
    · intro hm hlt
      have hsi : scoreIdx b.mode idx = idx := scoreIdx_eq b.mode n idx hidx (by rw [b2]; exact hm)
      have hscore_e : getScore (eatLoop idx h b.foods.length b rb).1.scores idx
          = getScore b.scores idx + totalValue (foodsAt b.foods h) := by
        rw [e2, hsi]
        exact getScore_addScore_self _ _ _ hlt
      have hother : getScore (eatLoop idx h b.foods.length b rb).1.scores (1 - idx)
          = getScore b.scores (1 - idx) := by
        rw [e2, hsi]
        exact getScore_addScore_other _ _ _ hlt
      refine ⟨?_, hother⟩
      rcases hm with hm | hn
      · rw [t3 (by rw [e3, b2]; exact hm) hlt, hscore_e, b3 hm hlt]
      · have hi0 : idx = 0 := by omega
        subst hi0
        have htl : tail = [] := htail (by omega)
        subst htl
        simp only [List.range_zero, foodPhase, Option.some.injEq, Prod.mk.injEq] at hb hf
        obtain ⟨hb1, -⟩ := hb
        obtain ⟨hf1, -⟩ := hf
        subst hb1
        rw [← hf1]
        exact hscore_e

/-- C4 (amended): in a tick that runs, every snake that is alive after the move ends
the tick with its growth counter raised by the grow amounts of the foods that lie on
its head cell when its own food check starts (state b, reached after the checks of
the snakes before it; for the first snake these are the foods of the start of the
tick), and its score entry raised by the values of these foods; its check does not
write the other score entry.  The pairs (value, grow) are (1,1) for normal and speed
and (3,3) for super.  In the single-player round driven by rngEat the snake eats
three normal foods in three ticks: the score goes 1, 2, 3 and after the fourth tick
the body has 3 + 3 segments and no growth is pending. -/
theorem tick_food_spec :
    (∀ (g : Game) (r : Rng), g.paused = false → g.roundActive = true →
      BodiesNonEmpty g.snakes → (g.mode = some Mode.onePlayer → g.snakes.length = 1) →
      ∃ m r1 g2 r2, tickMove g r = some (m, r1) ∧ tick g r = some (g2, r2) ∧
        m.foods = g.foods ∧ m.snakes.map Snake.alive = g.snakes.map Snake.alive ∧
        ∀ (idx : Nat) (s : Snake) (h : Vec), m.snakes[idx]? = some s → s.alive = true →
          s.headPos = some h →
          ∃ b rb, foodPhase (List.range idx) m r1 = some (b, rb) ∧
            (idx = 0 → b.foods = g.foods) ∧
            (∃ t, g2.snakes[idx]? = some t ∧ t.body = s.body ∧
              t.growCount = s.growCount + totalGrow (foodsAt b.foods h)) ∧
            (idx < 2 →
              getScore g2.scores idx = getScore g.scores idx + totalValue (foodsAt b.foods h) ∧
              getScore (eatLoop idx h b.foods.length b rb).1.scores (1 - idx)
                = getScore b.scores (1 - idx))) ∧
    (∀ f : Food,
      (f.type = FoodType.normal → f.value = 1 ∧ f.growAmount = 1) ∧
      (f.type = FoodType.speed → f.value = 1 ∧ f.growAmount = 1) ∧
      (f.type = FoodType.super → f.value = 3 ∧ f.growAmount = 3)) ∧
    ((startGame Mode.onePlayer Game.initial rngEat).1.foods
        = [⟨6, 15, FoodType.normal⟩, ⟨7, 15, FoodType.normal⟩, ⟨8, 15, FoodType.normal⟩] ∧
      (List.range 5).map (fun k =>
        (runTicks k (startGame Mode.onePlayer Game.initial rngEat).1
          (startGame Mode.onePlayer Game.initial rngEat).2).map
            (fun p => (p.1.scores, p.1.snakes.map (fun s => (s.body.length, s.growCount)))))
        = [some ((0, 0), [(3, 0)]), some ((1, 0), [(3, 1)]), some ((2, 0), [(4, 1)]),
           some ((3, 0), [(5, 1)]), some ((3, 0), [(6, 0)])]) := by
  refine ⟨?_, ?_, ?_⟩
  · intro g r hp ha hne hsh
    have hsh2 : g.mode = some Mode.onePlayer → g.snakes ≠ [] := by
      intro hm hnil
      have := hsh hm
      rw [hnil] at this
      simp at this
    obtain ⟨ai, r1, moved, f, rf, col, g2, -, -, hmove, hf, -, -, htick, -, -, -, -, -, l2, -, -,
      hfmode, halive, hcolmap, hsn, hsc, -, -, -⟩ := tick_anatomy g r hp ha hne hsh2
    refine ⟨{ g with snakes := moved }, r1, g2, _, hmove, htick, rfl, halive, ?_⟩
    intro idx s h hs hal hh
    have hidx : idx < moved.length := (List.getElem?_eq_some_iff.mp hs).1
    obtain ⟨b, rb, hb, -, -, hfs, hscore⟩ :=
      foodPhase_at moved.length idx { g with snakes := moved } r1 f rf s h hidx hf hs hal hh
    refine ⟨b, rb, hb, ?_, ?_, ?_⟩
    · intro h0
      subst h0
      simp only [List.range_zero, foodPhase, Option.some.injEq, Prod.mk.injEq] at hb
      rw [← hb.1]
    · have hc := congrArg (fun l => l[idx]?) hcolmap
      simp only [List.getElem?_map, hfs, Option.map_some'] at hc
      cases hcol : col[idx]? with
      | none => simp [hcol] at hc
      | some t =>
        simp only [hcol, Option.map_some', Option.some.injEq] at hc
        refine ⟨t, by rw [hsn]; exact hcol, ?_, ?_⟩
        · have := congrArg Snake.body hc
          exact this
        · have := congrArg Snake.growCount hc
          exact this
    · intro hlt
      rw [hsc]
      apply hscore _ hlt
      by_cases hm : g.mode = some Mode.onePlayer
      · right
        rw [l2]
        exact hsh hm
      · left
        exact hm
  · intro f
    cases hf : f.type <;> simp [Food.value, Food.growAmount, hf]
  · decide!

/-- C4 (amended), at the head-on state: the tick runs. -/
theorem tick_food_spec_witness :
    ∃ m r1 g2 r2, tickMove headOnFoodState rngZero = some (m, r1) ∧
      tick headOnFoodState rngZero = some (g2, r2) ∧ m.foods = headOnFoodState.foods := by
  obtain ⟨m, r1, g2, r2, h1, h2, h3, -⟩ :=
    tick_food_spec.1 headOnFoodState rngZero rfl rfl (by unfold BodiesNonEmpty; decide)
      (by decide)
  exact ⟨m, r1, g2, r2, h1, h2, h3⟩

/-- C4 as stated fails: both snakes are alive and after the move both heads are on the
cell (15,15) of a normal food, yet the tick leaves the growth counter and the score
of the second snake at 0; the first snake ate the food. -/
theorem tick_food_head_on_counterexample :
    headOnFoodState.snakes.map Snake.alive = [true, true] ∧
    (tickMove headOnFoodState rngZero).map
        (fun p => (p.1.snakes.map Snake.headPos, p.1.foods.head?))
      = some ([some ⟨15, 15⟩, some ⟨15, 15⟩], some ⟨15, 15, FoodType.normal⟩) ∧
    (tick headOnFoodState rngZero).map
        (fun p => (p.1.snakes.map Snake.growCount, p.1.scores))
      = some ([1, 0], (1, 0)) := by
  decide!

/-! ## Head-on collisions -/

theorem list_of_length_two {α : Type} (l : List α) (h : l.length = 2) :
    ∃ x y, l = [x, y] := by
  rcases l with _ | ⟨x, _ | ⟨y, _ | ⟨z, tl⟩⟩⟩
  · simp at h
  · simp at h
  · exact ⟨x, y, rfl⟩
  · simp at h

/-- C5: a tick that runs on two living snakes (with non-empty bodies) never throws;
the move yields two snakes, and when their heads are then on the same cell both
snakes are dead at the end of the tick. -/
theorem head_on_both_die (g : Game) (r : Rng) (a b : Snake)
    (hp : g.paused = false) (ha : g.roundActive = true) (hs : g.snakes = [a, b])
    (haa : a.alive = true) (hba : b.alive = true) (hane : a.body ≠ []) (hbne : b.body ≠ []) :
    ∃ a2 b2 r1 a3 b3 g2 r2,
      tickMove g r = some ({ g with snakes := [a2, b2] }, r1) ∧
      a2.alive = true ∧ b2.alive = true ∧
      tick g r = some (g2, r2) ∧ g2.snakes = [a3, b3] ∧
      (a2.headPos = b2.headPos → a3.alive = false ∧ b3.alive = false) := by
  have hne : BodiesNonEmpty g.snakes := by
    intro s hmem
    rw [hs] at hmem
    simp only [List.mem_cons, List.mem_singleton, List.not_mem_nil, or_false] at hmem
    rcases hmem with h | h <;> (rw [h]; assumption)
  have hsh : g.mode = some Mode.onePlayer → g.snakes ≠ [] := by
    intro _
    rw [hs]
    simp
  obtain ⟨ai, r1, moved, f, rf, col, g2, -, -, hmove, -, -, -, htick, -, hmoved_ne, -, -, -, l2, l3,
    l4, -, halive, -, hsn, -, -, -, -, hfmap, hcolpt, -⟩ := tick_anatomy g r hp ha hne hsh
  rw [hs] at l2 l3 l4 halive
  obtain ⟨a2, b2, hm⟩ := list_of_length_two moved l2
  obtain ⟨af, bf, hff⟩ := list_of_length_two f.snakes l3
  obtain ⟨a3, b3, hc⟩ := list_of_length_two col l4
  subst hm
  simp only [List.map_cons, List.map_nil, List.cons.injEq, and_true] at halive
  refine ⟨a2, b2, r1, a3, b3, g2, _, hmove, halive.1.trans haa, halive.2.trans hba, htick,
    hsn.trans hc, ?_⟩
  intro hheads
  obtain ⟨h0, t0, hb0⟩ := List.exists_cons_of_ne_nil (hmoved_ne a2 (by simp))
  obtain ⟨h1, t1, hb1⟩ := List.exists_cons_of_ne_nil (hmoved_ne b2 (by simp))
  simp only [Snake.headPos, hb0, hb1, List.head?_cons, Option.some.injEq] at hheads
  have hbodies := (map_body_of_ungrown hfmap).1
  have hcl : collides f.snakes 0 = true := by
    rw [collides_congr hbodies 0]
    exact collides_head_on_left a2 b2 h0 h1 t0 t1 hb0 hb1 (by rw [hheads]) (by rw [hheads])
  have hcr : collides f.snakes 1 = true := by
    rw [collides_congr hbodies 1]
    exact collides_head_on_right a2 b2 h0 h1 t0 t1 hb0 hb1 (by rw [hheads]) (by rw [hheads])
  obtain ⟨ta, hta, htaa⟩ := hcolpt 0 af (by rw [hff]; rfl)
  obtain ⟨tb, htb, htba⟩ := hcolpt 1 bf (by rw [hff]; rfl)
  rw [hc] at hta htb
  simp only [List.getElem?_cons_zero, Option.some.injEq] at hta
  simp only [List.getElem?_cons_succ, List.getElem?_cons_zero, Option.some.injEq] at htb
  subst hta
  subst htb
  rw [hcl] at htaa
  rw [hcr] at htba
  simp only [Bool.not_true, Bool.and_false] at htaa htba
  exact ⟨htaa, htba⟩

/-- C5, at the head-on state: both snakes move onto (15,15) and the tick yields two
snakes. -/
theorem head_on_both_die_witness :
    ∃ a2 b2 r1 a3 b3 g2 r2,
      tickMove headOnFoodState rngZero = some ({ headOnFoodState with snakes := [a2, b2] }, r1) ∧
      a2.alive = true ∧ b2.alive = true ∧
      tick headOnFoodState rngZero = some (g2, r2) ∧ g2.snakes = [a3, b3] ∧
      (a2.headPos = b2.headPos → a3.alive = false ∧ b3.alive = false) :=
  head_on_both_die headOnFoodState rngZero _ _ rfl rfl rfl rfl rfl (by decide) (by decide)

/-! ## Invariants of a round -/

/-- A tick never throws on a state whose snakes all have a segment and which has a
snake when the mode is single-player; it keeps these two properties, the number of
snakes and the mode, and it never raises a speed that is at least MIN_SPEED. -/
theorem tick_total (g : Game) (r : Rng) (hne : BodiesNonEmpty g.snakes)
    (hsh : g.mode = some Mode.onePlayer → g.snakes ≠ []) :
    ∃ g2 r2, tick g r = some (g2, r2) ∧ BodiesNonEmpty g2.snakes ∧
      g2.snakes.length = g.snakes.length ∧ g2.mode = g.mode ∧
      (MIN_SPEED ≤ g.speed → MIN_SPEED ≤ g2.speed ∧ g2.speed ≤ g.speed) := by
  by_cases hrun : g.paused = false ∧ g.roundActive = true
  · obtain ⟨ai, r1, moved, f, rf, col, g2, -, -, -, -, -, -, htick, -, -, -, hcol_ne, -, -, -, l4,
      -, -, -, hsn, -, hsp, hmode, -, -, -, -, -, hfsp, -⟩ :=
      tick_anatomy g r hrun.1 hrun.2 hne hsh
    refine ⟨g2, _, htick, by rw [hsn]; exact hcol_ne, by rw [hsn]; exact l4, hmode, ?_⟩
    rw [hsp]
    exact hfsp
  · refine ⟨g, r, ?_, hne, rfl, rfl, fun h => ⟨h, le_refl _⟩⟩
    unfold tick
    have hc : (g.paused || !g.roundActive) = true := by
      cases hp : g.paused <;> cases ha : g.roundActive <;> simp_all
    rw [if_pos hc]

theorem keydown_frame (k : Key) (g : Game) :
    (keydown k g).speed = g.speed ∧ (keydown k g).mode = g.mode ∧
    (keydown k g).roundActive = g.roundActive ∧ (keydown k g).roundScores = g.roundScores ∧
    (keydown k g).timers = g.timers ∧ (keydown k g).foods = g.foods ∧
    (keydown k g).scores = g.scores ∧
    (keydown k g).snakes.map Snake.undirected = g.snakes.map Snake.undirected := by
  unfold keydown
  split
  · exact ⟨rfl, rfl, rfl, rfl, rfl, rfl, rfl, rfl⟩
  · refine ⟨rfl, rfl, rfl, rfl, rfl, rfl, rfl, ?_⟩
    simp only []
    have h1 : (match g.snakes[0]?, p1Dir k with
        | some p1, some d => if p1.alive then g.snakes.set 0 (p1.setDirection d) else g.snakes
        | _, _ => g.snakes).map Snake.undirected = g.snakes.map Snake.undirected := by
      split
      · rename_i p1 d hp1 _
        split
        · exact map_set_same Snake.undirected g.snakes 0 _ p1 hp1 (setDirection_undirected _ _)
        · rfl
      · rfl
    refine Eq.trans ?_ h1
    split
    · rename_i p2 d hp2 _
      split
      · exact map_set_same Snake.undirected _ 1 _ p2 hp2 (setDirection_undirected _ _)
      · rfl
    · rfl

theorem initRound_frame (g : Game) (r : Rng) :
    (initRound g r).1.speed = INITIAL_SPEED ∧ (initRound g r).1.mode = g.mode ∧
    (initRound g r).1.roundActive = true ∧ (initRound g r).1.roundScores = g.roundScores ∧
    (initRound g r).1.timers = g.timers ∧ (initRound g r).1.scores = g.scores ∧
    (initRound g r).1.paused = g.paused ∧
    (initRound g r).1.snakes =
      (if g.mode = some Mode.onePlayer then [Snake.new 5 (ROWS / 2) DIR.RIGHT false]
       else [Snake.new 5 (ROWS / 2) DIR.RIGHT false,
             Snake.new (COLS - 6) (ROWS / 2) DIR.LEFT (decide (g.mode = some Mode.ai))]) :=
  ⟨rfl, rfl, rfl, rfl, rfl, rfl, rfl, rfl⟩

theorem initRound_bodies (g : Game) (r : Rng) :
    BodiesNonEmpty (initRound g r).1.snakes ∧
    ((initRound g r).1.mode = some Mode.onePlayer → (initRound g r).1.snakes ≠ []) := by
  obtain ⟨-, -, -, -, -, -, -, hs⟩ := initRound_frame g r
  rw [hs]
  constructor
  · intro s hmem
    split at hmem
    · simp only [List.mem_singleton] at hmem
      rw [hmem]
      simp [Snake.new]
    · simp only [List.mem_cons, List.mem_singleton, List.not_mem_nil, or_false] at hmem
      rcases hmem with h | h <;> (rw [h]; simp [Snake.new])
  · intro _
    split <;> simp

/-- The facts that hold in every state of a round. -/
theorem inRound_inv (g : Game) (h : InRound g) :
    BodiesNonEmpty g.snakes ∧ (g.mode = some Mode.onePlayer → g.snakes ≠ []) ∧
    MIN_SPEED ≤ g.speed ∧ g.speed ≤ INITIAL_SPEED := by
  induction h with
  | init g0 r =>
    obtain ⟨hb, hsh⟩ := initRound_bodies g0 r
    refine ⟨hb, hsh, ?_, ?_⟩
    · show MIN_SPEED ≤ INITIAL_SPEED
      decide
    · exact le_refl _
  | tick g0 r g2 r2 _ htick ih =>
    obtain ⟨hb, hsh, hmin, hmax⟩ := ih
    obtain ⟨g3, r3, ht, hb3, hlen, hmode, hsp⟩ := tick_total g0 r hb hsh
    rw [htick] at ht
    simp only [Option.some.injEq, Prod.mk.injEq] at ht
    obtain ⟨hg, -⟩ := ht
    subst hg
    obtain ⟨s1, s2⟩ := hsp hmin
    refine ⟨hb3, ?_, s1, le_trans s2 hmax⟩
    intro hm hnil
    apply hsh (hmode ▸ hm)
    apply List.eq_nil_of_length_eq_zero
    rw [← hlen, hnil]
    rfl
  | key g0 k _ ih =>
    obtain ⟨hb, hsh, hmin, hmax⟩ := ih
    obtain ⟨k1, k2, -, -, -, -, -, k8⟩ := keydown_frame k g0
    refine ⟨bodiesNonEmpty_of_map_body (map_body_of_undirected k8).1 hb, ?_, by rw [k1]; exact hmin,
      by rw [k1]; exact hmax⟩
    intro hm hnil
    apply hsh (k2 ▸ hm)
    apply List.eq_nil_of_length_eq_zero
    rw [← length_eq_of_map_eq _ k8, hnil]
    rfl

/-- C6: in every state of a round the speed lies between MIN_SPEED (50) and
INITIAL_SPEED (120); a tick in such a state never throws and never raises the speed;
a food consumption sets the speed to max(50, speed - 2); initRound sets it to 120. -/
theorem speed_invariant :
    (∀ g, InRound g → (50 : Int) ≤ g.speed ∧ g.speed ≤ 120) ∧
    (∀ g r, InRound g → ∃ g2 r2, tick g r = some (g2, r2) ∧ g2.speed ≤ g.speed) ∧
    (∀ g idx i food r, (eatFood g idx i food r).1.speed = max 50 (g.speed - 2)) ∧
    (∀ g r, (initRound g r).1.speed = 120) := by
  refine ⟨?_, ?_, ?_, ?_⟩
  · intro g h
    obtain ⟨-, -, h1, h2⟩ := inRound_inv g h
    exact ⟨h1, h2⟩
  · intro g r h
    obtain ⟨hb, hsh, hmin, -⟩ := inRound_inv g h
    obtain ⟨g2, r2, ht, -, -, -, hsp⟩ := tick_total g r hb hsh
    exact ⟨g2, r2, ht, (hsp hmin).2⟩
  · intro g idx i food r
    rfl
  · intro g r
    rfl

/-- C6, at the first state of a two-player round. -/
theorem speed_invariant_witness :
    (50 : Int) ≤ (initRound headOnFoodState rngZero).1.speed ∧
    (initRound headOnFoodState rngZero).1.speed ≤ 120 :=
  speed_invariant.1 _ (InRound.init headOnFoodState rngZero)

/-! ## Round wins -/

/-- The three ways in which the round-end check can end: nothing changes; the round
ends with the counters as they were; the round ends with one counter raised by 1, and
then the game-over callback is registered exactly when that counter has reached
ROUNDS_TO_WIN, the next round otherwise. -/
theorem checkRoundEnd_cases (e g2 : Game) (h : checkRoundEnd e = some g2) :
    g2 = e ∨
    (g2.roundScores = e.roundScores ∧ g2.roundActive = false ∧
      (g2.timers = e.timers ++ [Timer.showGameOver] ∨
        (g2.timers = e.timers ++ [Timer.startRound] ∧ e.mode ≠ some Mode.onePlayer))) ∨
    (∃ w, g2.roundScores = addScore e.roundScores w 1 ∧ g2.roundActive = false ∧
      e.mode ≠ some Mode.onePlayer ∧
      ((ROUNDS_TO_WIN ≤ getScore g2.roundScores w ∧
          g2.timers = e.timers ++ [Timer.showGameOver]) ∨
        (getScore g2.roundScores w < ROUNDS_TO_WIN ∧
          g2.timers = e.timers ++ [Timer.startRound]))) := by
  unfold checkRoundEnd at h
  split at h
  · split at h
    · cases h
    · split at h
      · cases h
        exact Or.inr (Or.inl ⟨rfl, rfl, Or.inl rfl⟩)
      · cases h
        exact Or.inl rfl
  · rename_i hm
    simp only at h
    split at h
    · cases h
      exact Or.inr (Or.inl ⟨rfl, rfl, Or.inr ⟨rfl, hm⟩⟩)
    · split at h
      · split at h
        · rename_i hge
          cases h
          exact Or.inr (Or.inr ⟨_, rfl, rfl, hm, Or.inl ⟨hge, rfl⟩⟩)
        · rename_i hlt
          cases h
          exact Or.inr (Or.inr ⟨_, rfl, rfl, hm, Or.inr ⟨Nat.lt_of_not_le hlt, rfl⟩⟩)
      · cases h
        exact Or.inl rfl

/-- What a tick does to the round bookkeeping: either the state is untouched, or the
round was active and the final state comes out of the round-end check of a state
with the same counters, callbacks and mode. -/
theorem tick_round (g : Game) (r : Rng) (g2 : Game) (r2 : Rng)
    (hne : BodiesNonEmpty g.snakes) (hsh : g.mode = some Mode.onePlayer → g.snakes ≠ [])
    (ht : tick g r = some (g2, r2)) :
    g2 = g ∨
    (g.roundActive = true ∧ ∃ e, checkRoundEnd e = some g2 ∧
      e.roundScores = g.roundScores ∧ e.timers = g.timers ∧ e.mode = g.mode ∧
      e.roundActive = g.roundActive) := by
  by_cases hrun : g.paused = false ∧ g.roundActive = true
  · right
    obtain ⟨ai, r1, moved, f, rf, col, g3, -, -, -, -, -, hcre, htick, -, -, -, -, -, -, -, -, hfmode,
      -, -, -, -, -, -, -, -, -, -, -, -, hfra, hfrs, hfti, -⟩ :=
      tick_anatomy g r hrun.1 hrun.2 hne hsh
    rw [ht] at htick
    simp only [Option.some.injEq, Prod.mk.injEq] at htick
    obtain ⟨hg, -⟩ := htick
    subst hg
    obtain ⟨-, -, x3, -, -, x6, x7, x8⟩ := extraFood_frame { f with snakes := col } rf
    exact ⟨hrun.2, _, hcre, x7.trans hfrs, x8.trans hfti, x3.trans hfmode, x6.trans hfra⟩
  · left
    unfold tick at ht
    have hc : (g.paused || !g.roundActive) = true := by
      cases hp : g.paused <;> cases ha : g.roundActive <;> simp_all
    rw [if_pos hc] at ht
    simp only [Option.some.injEq, Prod.mk.injEq] at ht
    exact ht.1.symm

theorem addScore_bounds (p : Nat × Nat) (w : Nat) (h1 : p.1 < 3) (h2 : p.2 < 3) :
    (addScore p w 1).1 ≤ 3 ∧ (addScore p w 1).2 ≤ 3 ∧
    (getScore (addScore p w 1) w < 3 → (addScore p w 1).1 < 3 ∧ (addScore p w 1).2 < 3) := by
  unfold addScore getScore
  by_cases h0 : w = 0
  · simp only [h0, if_true]
    omega
  · by_cases hw1 : w = 1
    · simp only [hw1, if_true]
      simp
      omega
    · simp only [h0, hw1, if_false]
      omega

/-- The facts that hold in every state of a match: bodies are non-empty, the
single-player mode has a snake, no round-win counter exceeds 3, both are below 3
while a round is active or a next round is pending, and at most one next round is
pending, none while a round is active. -/
theorem reachable_inv (g : Game) (h : Reachable g) :
    BodiesNonEmpty g.snakes ∧ (g.mode = some Mode.onePlayer → g.snakes ≠ []) ∧
    g.roundScores.1 ≤ 3 ∧ g.roundScores.2 ≤ 3 ∧
    (g.roundActive = true →
      g.roundScores.1 < 3 ∧ g.roundScores.2 < 3 ∧ g.timers.count Timer.startRound = 0) ∧
    (0 < g.timers.count Timer.startRound → g.roundScores.1 < 3 ∧ g.roundScores.2 < 3) ∧
    g.timers.count Timer.startRound ≤ 1 := by
  induction h with
  | start gameMode g0 r ht =>
    obtain ⟨hb, hsh⟩ :=
      initRound_bodies { g0 with mode := some gameMode, scores := (0, 0), roundScores := (0, 0) } r
    obtain ⟨-, -, -, f4, f5, -⟩ :=
      initRound_frame { g0 with mode := some gameMode, scores := (0, 0), roundScores := (0, 0) } r
    have hrs : (startGame gameMode g0 r).1.roundScores = (0, 0) := f4
    have hti : (startGame gameMode g0 r).1.timers = [] := f5.trans ht
    refine ⟨hb, hsh, ?_, ?_, ?_, ?_, ?_⟩
    · rw [hrs]
      decide
    · rw [hrs]
      decide
    · intro _
      rw [hrs, hti]
      decide
    · intro _
      rw [hrs]
      decide
    · rw [hti]
      decide
  | step g1 g2 _ hstep ih =>
    obtain ⟨hb, hsh, i3, i4, i5, i6, i7⟩ := ih
    cases hstep with
    | tick r g3 r2 ht =>
      obtain ⟨g4, r4, ht4, hb4, hlen, hmode, -⟩ := tick_total g1 r hb hsh
      rw [ht] at ht4
      simp only [Option.some.injEq, Prod.mk.injEq] at ht4
      obtain ⟨hg, -⟩ := ht4
      subst hg
      have hsh2 : g2.mode = some Mode.onePlayer → g2.snakes ≠ [] := by
        intro hm hnil
        apply hsh (hmode ▸ hm)
        apply List.eq_nil_of_length_eq_zero
        rw [← hlen, hnil]
        rfl
      refine ⟨hb4, hsh2, ?_⟩
      rcases tick_round g1 r g2 r2 hb hsh ht with hsame | ⟨hact, e, hcre, ers, eti, -, era⟩
      · rw [hsame]
        exact ⟨i3, i4, i5, i6, i7⟩
      · obtain ⟨a1, a2, a3⟩ := i5 hact
        rcases checkRoundEnd_cases e g2 hcre with hA | ⟨b1, b2, b3⟩ | ⟨w, c1, c2, -, c3⟩
        · rw [hA, ers, eti, era]
          exact ⟨i3, i4, i5, i6, i7⟩
        · rw [b1, ers, b2]
          refine ⟨i3, i4, (by intro hf; cases hf), fun _ => ⟨a1, a2⟩, ?_⟩
          rcases b3 with b3 | ⟨b3, -⟩ <;>
            (rw [b3, eti, List.count_append, a3]; decide)
        · obtain ⟨q1, q2, q3⟩ := addScore_bounds g1.roundScores w a1 a2
          rw [ers] at c1
          rw [c1] at c3
          rw [c1, c2]
          refine ⟨q1, q2, (by intro hf; cases hf), ?_, ?_⟩
          · rcases c3 with ⟨-, c3⟩ | ⟨hlt, -⟩
            · rw [c3, eti, List.count_append, a3]
              intro hpos
              simp at hpos
            · intro _
              exact q3 hlt
          · rcases c3 with ⟨-, c3⟩ | ⟨-, c3⟩ <;>
              (rw [c3, eti, List.count_append, a3]; decide)
    | key k =>
      obtain ⟨-, k2, k3, k4, k5, -, -, k8⟩ := keydown_frame k g1
      refine ⟨bodiesNonEmpty_of_map_body (map_body_of_undirected k8).1 hb, ?_, ?_⟩
      · intro hm hnil
        apply hsh (k2 ▸ hm)
        apply List.eq_nil_of_length_eq_zero
        rw [← length_eq_of_map_eq _ k8, hnil]
        rfl
      · rw [k3, k4, k5]
        exact ⟨i3, i4, i5, i6, i7⟩
    | timer t r hmem =>
      cases t with
      | showGameOver =>
        have hcount : (g1.timers.erase Timer.showGameOver).count Timer.startRound
            = g1.timers.count Timer.startRound :=
          List.count_erase_of_ne (by decide) g1.timers
        refine ⟨hb, hsh, i3, i4, ?_, ?_, ?_⟩
        · intro hact
          obtain ⟨a1, a2, a3⟩ := i5 hact
          exact ⟨a1, a2, hcount.trans a3⟩
        · intro hpos
          exact i6 (by rw [← hcount]; exact hpos)
        · exact le_of_eq_of_le hcount i7
      | startRound =>
        have hpos : 0 < g1.timers.count Timer.startRound := List.count_pos_iff.mpr hmem
        obtain ⟨a1, a2⟩ := i6 hpos
        have hcount : (g1.timers.erase Timer.startRound).count Timer.startRound = 0 := by
          rw [List.count_erase_self]
          omega
        obtain ⟨hb2, hsh2⟩ :=
          initRound_bodies { g1 with timers := g1.timers.erase Timer.startRound } r
        obtain ⟨-, -, -, f4, f5, -⟩ :=
          initRound_frame { g1 with timers := g1.timers.erase Timer.startRound } r
        have hrs : (runTimer Timer.startRound
            { g1 with timers := g1.timers.erase Timer.startRound } r).1.roundScores
              = g1.roundScores := f4
        have hti : (runTimer Timer.startRound
            { g1 with timers := g1.timers.erase Timer.startRound } r).1.timers
              = g1.timers.erase Timer.startRound := f5
        refine ⟨hb2, hsh2, ?_⟩
        rw [hrs, hti, hcount]
        exact ⟨i3, i4, fun _ => ⟨a1, a2, rfl⟩, fun _ => ⟨a1, a2⟩, by decide⟩

/-- C7: in every state of a match both round-win counters are at most ROUNDS_TO_WIN
and a tick never throws; when checkRoundEnd raises a counter to 3 it clears
roundActive and registers the game-over callback, not the next round; in a reachable
state with a counter at 3 no round is active, no next round is pending and no event
changes the counters; startGame resets them to (0, 0). -/
theorem round_win_invariant :
    (∀ g, Reachable g →
      g.roundScores.1 ≤ ROUNDS_TO_WIN ∧ g.roundScores.2 ≤ ROUNDS_TO_WIN) ∧
    (∀ g r, Reachable g → ∃ g2 r2, tick g r = some (g2, r2)) ∧
    (∀ e g2 w, checkRoundEnd e = some g2 → w < 2 → getScore e.roundScores w < 3 →
      getScore g2.roundScores w = 3 →
      g2.roundActive = false ∧ g2.timers = e.timers ++ [Timer.showGameOver]) ∧
    (∀ g, Reachable g → (g.roundScores.1 = 3 ∨ g.roundScores.2 = 3) →
      g.roundActive = false ∧ Timer.startRound ∉ g.timers ∧
      ∀ g2, Step g g2 → g2.roundScores = g.roundScores) ∧
    (∀ gameMode g r, (startGame gameMode g r).1.roundScores = (0, 0)) := by
  refine ⟨?_, ?_, ?_, ?_, ?_⟩
  · intro g h
    obtain ⟨-, -, i3, i4, -⟩ := reachable_inv g h
    exact ⟨i3, i4⟩
  · intro g r h
    obtain ⟨hb, hsh, -⟩ := reachable_inv g h
    obtain ⟨g2, r2, ht, -⟩ := tick_total g r hb hsh
    exact ⟨g2, r2, ht⟩
  · intro e g2 w hcre hw hlt heq
    rcases checkRoundEnd_cases e g2 hcre with hA | ⟨b1, -, -⟩ | ⟨w2, c1, c2, -, c3⟩
    · rw [hA] at heq
      omega
    · rw [b1] at heq
      omega
    · by_cases hww : w = w2
      · subst hww
        rcases c3 with ⟨-, c3⟩ | ⟨c3, -⟩
        · exact ⟨c2, c3⟩
        · unfold ROUNDS_TO_WIN at c3
          omega
      · rw [c1, getScore_addScore_ne _ w w2 1 hww hw] at heq
        omega
  · intro g h hthree
    obtain ⟨hb, hsh, -, -, i5, i6, -⟩ := reachable_inv g h
    have hact : g.roundActive = false := by
      cases ha : g.roundActive with
      | false => rfl
      | true =>
        obtain ⟨a1, a2, -⟩ := i5 ha
        omega
    have hcount : ¬ 0 < g.timers.count Timer.startRound := by
      intro hpos
      obtain ⟨a1, a2⟩ := i6 hpos
      omega
    have hnot : Timer.startRound ∉ g.timers := fun hmem => hcount (List.count_pos_iff.mpr hmem)
    refine ⟨hact, hnot, ?_⟩
    intro g2 hstep
    cases hstep with
    | tick r g3 r2 ht =>
      rcases tick_round g r g2 r2 hb hsh ht with hsame | ⟨hact2, -⟩
      · rw [hsame]
      · rw [hact] at hact2
        cases hact2
    | key k => exact (keydown_frame k g).2.2.2.1
    | timer t r hmem =>
      cases t with
      | showGameOver => rfl
      | startRound => exact absurd hmem hnot
  · intro gameMode g r
    rfl

/-- C7, at the first state of a two-player match. -/
theorem round_win_invariant_witness :
    (startGame Mode.twoPlayer Game.initial rngZero).1.roundScores.1 ≤ ROUNDS_TO_WIN ∧
    (startGame Mode.twoPlayer Game.initial rngZero).1.roundScores.2 ≤ ROUNDS_TO_WIN :=
  round_win_invariant.1 _ (Reachable.start Mode.twoPlayer Game.initial rngZero rfl)

/-- C8: outside single-player mode and with two snakes, checkRoundEnd ends the round
with both counters unchanged when no snake is alive, raises the counter of the only
survivor by 1 (the other counter unchanged) and ends the round when one snake is
alive, and returns the state unchanged when both are alive; the point scores never
change.  At wallState player 1 runs into the wall and the tick leaves the round
counters at (0, 1) with the next round pending. -/
theorem checkRoundEnd_two_snakes (g : Game) (a b : Snake)
    (hm : g.mode ≠ some Mode.onePlayer) (hs : g.snakes = [a, b]) :
    (a.alive = false → b.alive = false →
      checkRoundEnd g
        = some { g with roundActive := false, timers := g.timers ++ [Timer.startRound] }) ∧
    (a.alive = true → b.alive = false →
      ∃ g2, checkRoundEnd g = some g2 ∧ g2.roundActive = false ∧
        g2.roundScores = (g.roundScores.1 + 1, g.roundScores.2) ∧
        g2.timers = g.timers ++
          [if g.roundScores.1 + 1 ≥ ROUNDS_TO_WIN then Timer.showGameOver else Timer.startRound]) ∧
    (a.alive = false → b.alive = true →
      ∃ g2, checkRoundEnd g = some g2 ∧ g2.roundActive = false ∧
        g2.roundScores = (g.roundScores.1, g.roundScores.2 + 1) ∧
        g2.timers = g.timers ++
          [if g.roundScores.2 + 1 ≥ ROUNDS_TO_WIN then Timer.showGameOver else Timer.startRound]) ∧
    (a.alive = true → b.alive = true → checkRoundEnd g = some g) ∧
    (∀ g2, checkRoundEnd g = some g2 → g2.scores = g.scores) ∧
    (tick wallState rngZero).map
        (fun p => (p.1.snakes.map Snake.alive, p.1.roundScores, p.1.roundActive, p.1.timers))
      = some ([false, true], (0, 1), false, [Timer.startRound]) := by
  refine ⟨?_, ?_, ?_, ?_, ?_, ?_⟩
  · intro ha hb
    simp [checkRoundEnd, hm, hs, ha, hb]
  · intro ha hb
    have hfi : List.findIdx (fun s => s.alive) [a, b] = 0 := by
      simp [List.findIdx_cons, ha]
    by_cases hw : g.roundScores.1 + 1 ≥ ROUNDS_TO_WIN
    · refine ⟨{ g with roundScores := (g.roundScores.1 + 1, g.roundScores.2),
                       roundActive := false,
                       timers := g.timers ++ [Timer.showGameOver] }, ?_, rfl, rfl, ?_⟩
      · simp [checkRoundEnd, hm, hs, ha, hb, hfi, addScore, getScore, hw]
      · simp [hw]
    · refine ⟨{ g with roundScores := (g.roundScores.1 + 1, g.roundScores.2),
                       roundActive := false,
                       timers := g.timers ++ [Timer.startRound] }, ?_, rfl, rfl, ?_⟩
      · simp [checkRoundEnd, hm, hs, ha, hb, hfi, addScore, getScore, hw]
      · simp [hw]
  · intro ha hb
    have hfi : List.findIdx (fun s => s.alive) [a, b] = 1 := by
      simp [List.findIdx_cons, ha, hb]
    by_cases hw : g.roundScores.2 + 1 ≥ ROUNDS_TO_WIN
    · refine ⟨{ g with roundScores := (g.roundScores.1, g.roundScores.2 + 1),
                       roundActive := false,
                       timers := g.timers ++ [Timer.showGameOver] }, ?_, rfl, rfl, ?_⟩
      · simp [checkRoundEnd, hm, hs, ha, hb, hfi, addScore, getScore, hw]
      · simp [hw]
    · refine ⟨{ g with roundScores := (g.roundScores.1, g.roundScores.2 + 1),
                       roundActive := false,
                       timers := g.timers ++ [Timer.startRound] }, ?_, rfl, rfl, ?_⟩
      · simp [checkRoundEnd, hm, hs, ha, hb, hfi, addScore, getScore, hw]
      · simp [hw]
  · intro ha hb
    simp [checkRoundEnd, hm, hs, ha, hb]
  · intro g2 h
    exact (checkRoundEnd_frame g g2 h).2.2.1
  · decide!

/-- C8, at wallState, where both snakes are alive before the tick. -/
theorem checkRoundEnd_two_snakes_witness : checkRoundEnd wallState = some wallState :=
  (checkRoundEnd_two_snakes wallState _ _ (by decide) rfl).2.2.2.1 rfl rfl

/-! ## AI policy: pruning -/

theorem aiStep_keeps (foods : List Food) (s : Snake) (head : Vec) (other : Option Snake)
    (st : AiState) (d : Vec) (h : survives s head other d = false) :
    aiStep foods s head other st d = st := by
  simp [aiStep, h]

theorem foldl_aiStep_keeps (foods : List Food) (s : Snake) (head : Vec) (other : Option Snake) :
    ∀ (l : List Vec) (st : AiState), (∀ d ∈ l, survives s head other d = false) →
      l.foldl (aiStep foods s head other) st = st := by
  intro l
  induction l with
  | nil =>
    intro st _
    rfl
  | cons d l ih =>
    intro st h
    rw [List.foldl_cons, aiStep_keeps foods s head other st d (h d (List.mem_cons_self d l))]
    exact ih st (fun x hx => h x (List.mem_cons_of_mem d hx))

/-- Once a score is recorded, the recorded direction is one of the candidates seen so
far and it survived pruning. -/
theorem foldl_aiStep_selected (foods : List Food) (s : Snake) (head : Vec)
    (other : Option Snake) (all : List Vec) :
    ∀ (l : List Vec) (st : AiState), (∀ d ∈ l, d ∈ all) →
      (st.bestScore ≠ none → st.bestDir ∈ all ∧ survives s head other st.bestDir = true) →
      (l.foldl (aiStep foods s head other) st).bestScore ≠ none →
      (l.foldl (aiStep foods s head other) st).bestDir ∈ all ∧
        survives s head other (l.foldl (aiStep foods s head other) st).bestDir = true := by
  intro l
  induction l with
  | nil =>
    intro st _ hst hsel
    exact hst hsel
  | cons d l ih =>
    intro st hall hst hsel
    rw [List.foldl_cons] at hsel ⊢
    apply ih (aiStep foods s head other st d) (fun x hx => hall x (List.mem_cons_of_mem d hx)) _ hsel
    intro hne
    unfold aiStep at hne ⊢
    by_cases hsv : survives s head other d = true
    · simp only [hsv, if_true] at hne ⊢
      split
      · exact ⟨hall d (List.mem_cons_self d l), hsv⟩
      · rename_i hgt
        simp only [hgt] at hne
        exact hst hne
    · simp only [hsv] at hne ⊢
      exact hst hne

theorem hits_eq_false_iff (segs : List Vec) (x y : Int) :
    hits segs x y = false ↔ ∀ seg ∈ segs, ¬ (seg.x = x ∧ seg.y = y) := by
  unfold hits
  rw [List.any_eq_false]
  constructor
  · intro h seg hmem hxy
    have := h seg hmem
    simp [hxy.1, hxy.2] at this
  · intro h seg hmem
    have := h seg hmem
    simp only [Bool.and_eq_true, decide_eq_true_eq]
    exact this

theorem outOfGrid_eq_false_iff (x y : Int) :
    outOfGrid x y = false ↔ 0 ≤ x ∧ x < 30 ∧ 0 ≤ y ∧ y < 30 := by
  unfold outOfGrid COLS ROWS
  simp only [Bool.or_eq_false_iff, decide_eq_false_iff_not]
  omega

/-- What it means for a candidate to survive pruning. -/
theorem survives_iff (s : Snake) (head : Vec) (other : Option Snake) (d : Vec) :
    survives s head other d = true ↔
      ¬ (d.x + s.dir.x = 0 ∧ d.y + s.dir.y = 0) ∧
      (0 ≤ head.x + d.x ∧ head.x + d.x < 30 ∧ 0 ≤ head.y + d.y ∧ head.y + d.y < 30) ∧
      (∀ seg ∈ s.body, ¬ (seg.x = head.x + d.x ∧ seg.y = head.y + d.y)) ∧
      (∀ o, other = some o → ∀ seg ∈ o.body, ¬ (seg.x = head.x + d.x ∧ seg.y = head.y + d.y)) := by
  unfold survives
  have hrev : isReverse d s.dir = true ↔ (d.x + s.dir.x = 0 ∧ d.y + s.dir.y = 0) := by
    simp [isReverse]
  by_cases h1 : isReverse d s.dir = true
  · simp only [h1, if_true]
    constructor
    · intro h
      cases h
    · intro h
      exact absurd (hrev.mp h1) h.1
  · have h1n : ¬ (d.x + s.dir.x = 0 ∧ d.y + s.dir.y = 0) := fun h => h1 (hrev.mpr h)
    simp only [h1, if_false]
    by_cases h2 : outOfGrid (head.x + d.x) (head.y + d.y) = true
    · simp only [h2, if_true]
      constructor
      · intro h
        cases h
      · intro h
        have := (outOfGrid_eq_false_iff _ _).mpr h.2.1
        rw [this] at h2
        cases h2
    · simp only [Bool.not_eq_true] at h2
      have h2g := (outOfGrid_eq_false_iff _ _).mp h2
      simp only [h2, Bool.false_eq_true, if_false]
      by_cases h3 : hits s.body (head.x + d.x) (head.y + d.y) = true
      · simp only [h3, if_true]
        constructor
        · intro h
          cases h
        · intro h
          have := (hits_eq_false_iff _ _ _).mpr h.2.2.1
          rw [this] at h3
          cases h3
      · simp only [Bool.not_eq_true] at h3
        have h3b := (hits_eq_false_iff _ _ _).mp h3
        simp only [h3, Bool.false_eq_true, if_false]
        cases other with
        | none =>
          simp only []
          constructor
          · intro _
            exact ⟨h1n, h2g, h3b, fun o ho => by cases ho⟩
          · intro _
            trivial
        | some o =>
          simp only [Bool.not_eq_true']
          constructor
          · intro h
            refine ⟨h1n, h2g, h3b, ?_⟩
            intro o2 ho2
            cases ho2
            exact (hits_eq_false_iff _ _ _).mp h
          · intro h
            exact (hits_eq_false_iff _ _ _).mpr (h.2.2.2 o rfl)

/-- C10: when the loop of aiDecide has recorded a score (it has selected a candidate),
the selected direction d is one of the four directions, is not the exact reverse of
the current direction, and the cell head + d is inside the grid, holds no segment of
the AI snake and no segment of the opponent, if there is one; aiDecide then sets
nextDir to d. -/
theorem aiDecide_selects_safe (foods : List Food) (s : Snake) (head : Vec) (rest : List Vec)
    (other : Option Snake) (r : Rng) (hbody : s.body = head :: rest)
    (hsel : (aiBest foods s head other r).bestScore ≠ none) :
    (aiBest foods s head other r).bestDir ∈ dirs ∧
    ¬ ((aiBest foods s head other r).bestDir.x + s.dir.x = 0 ∧
       (aiBest foods s head other r).bestDir.y + s.dir.y = 0) ∧
    (0 ≤ head.x + (aiBest foods s head other r).bestDir.x ∧
      head.x + (aiBest foods s head other r).bestDir.x < 30 ∧
      0 ≤ head.y + (aiBest foods s head other r).bestDir.y ∧
      head.y + (aiBest foods s head other r).bestDir.y < 30) ∧
    (∀ seg ∈ s.body, ¬ (seg.x = head.x + (aiBest foods s head other r).bestDir.x ∧
      seg.y = head.y + (aiBest foods s head other r).bestDir.y)) ∧
    (∀ o, other = some o → ∀ seg ∈ o.body,
      ¬ (seg.x = head.x + (aiBest foods s head other r).bestDir.x ∧
        seg.y = head.y + (aiBest foods s head other r).bestDir.y)) ∧
    aiDecide foods s other r
      = some ({ s with nextDir := (aiBest foods s head other r).bestDir },
          (aiBest foods s head other r).rng) := by
  have hsafe := foldl_aiStep_selected foods s head other dirs dirs
    { bestDir := s.dir, bestScore := none, rng := r } (fun d hd => hd)
    (fun hne => absurd rfl hne) hsel
  obtain ⟨hmem, hsv⟩ := hsafe
  have hiff := (survives_iff s head other (aiBest foods s head other r).bestDir).mp hsv
  obtain ⟨h1, h2, h3, h4⟩ := hiff
  refine ⟨hmem, h1, h2, h3, h4, ?_⟩
  have hrev : isReverse s.dir (aiBest foods s head other r).bestDir = false := by
    simp only [isReverse, Bool.and_eq_false_imp, decide_eq_true_eq, decide_eq_false_iff_not]
    intro hx hy
    apply h1
    constructor <;> omega
  simp [aiDecide, Snake.headPos, hbody, Snake.setDirection, hrev]

/-- C10, at the AI snake of a fresh round with one food on its row: a candidate is
selected and it is among the four directions. -/
theorem aiDecide_selects_safe_witness :
    (aiBest [⟨10, 15, FoodType.normal⟩] (Snake.new 24 15 DIR.LEFT true) ⟨24, 15⟩
      (some (Snake.new 5 15 DIR.RIGHT false)) rngZero).bestDir ∈ dirs :=
  (aiDecide_selects_safe [⟨10, 15, FoodType.normal⟩] (Snake.new 24 15 DIR.LEFT true) ⟨24, 15⟩
    [⟨25, 15⟩, ⟨26, 15⟩] (some (Snake.new 5 15 DIR.RIGHT false)) rngZero (by decide)
    (by decide!)).1

/-! ## AI policy: no surviving candidate -/

/-- The snake that update returns for a living snake with a non-empty body. -/
theorem update_moved (s : Snake) (head : Vec) (rest : List Vec)
    (halive : s.alive = true) (hbody : s.body = head :: rest) :
    ∃ t, s.update = some t ∧ t.dir = s.nextDir ∧ t.alive = true ∧ t.isAI = s.isAI ∧
      t.body = ⟨head.x + s.nextDir.x, head.y + s.nextDir.y⟩ ::
        (if 0 < s.growCount then s.body else s.body.dropLast) := by
  by_cases hg : 0 < s.growCount
  · refine ⟨{ s with dir := s.nextDir,
                     body := ⟨head.x + s.nextDir.x, head.y + s.nextDir.y⟩ :: s.body,
                     growCount := s.growCount - 1 }, ?_, rfl, halive, rfl, ?_⟩
    · simp [Snake.update, halive, hbody, hg]
    · simp [hg]
  · refine ⟨{ s with dir := s.nextDir,
                     body := (⟨head.x + s.nextDir.x, head.y + s.nextDir.y⟩ :: s.body).dropLast },
      ?_, rfl, halive, rfl, ?_⟩
    · simp [Snake.update, halive, hbody, hg]
    · simp [hg, hbody]

theorem collides_pair_right (a b : Snake) (c : Vec) (kept : List Vec)
    (hb : b.body = c :: kept) :
    collides [a, b] 1 = (outOfGrid c.x c.y || hits kept c.x c.y || hits a.body c.x c.y) := by
  have hr : List.range 2 = [0, 1] := by decide
  simp [collides, hb, hitsOther, hr]

theorem collides_pair_left (a b : Snake) (c : Vec) (kept : List Vec)
    (ha : a.body = c :: kept) :
    collides [a, b] 0 = (outOfGrid c.x c.y || hits kept c.x c.y || hits b.body c.x c.y) := by
  have hr : List.range 2 = [0, 1] := by decide
  simp [collides, ha, hitsOther, hr]

theorem isReverse_self_of_mem_dirs (d : Vec) (h : d ∈ dirs) : isReverse d d = false := by
  simp only [dirs, List.mem_cons, List.mem_singleton, List.not_mem_nil, or_false] at h
  rcases h with h | h | h | h <;> (rw [h]; decide)

/-- With no surviving candidate the loop of aiDecide draws nothing and keeps bestDir at
the current direction, which setDirection then writes to nextDir. -/
theorem aiDecide_no_candidate (foods : List Food) (s : Snake) (head : Vec) (rest : List Vec)
    (other : Option Snake) (r : Rng) (hbody : s.body = head :: rest) (hdir : s.dir ∈ dirs)
    (hnone : ∀ d ∈ dirs, survives s head other d = false) :
    aiDecide foods s other r = some ({ s with nextDir := s.dir }, r) := by
  have hbest : aiBest foods s head other r = { bestDir := s.dir, bestScore := none, rng := r } :=
    foldl_aiStep_keeps foods s head other dirs _ hnone
  simp [aiDecide, Snake.headPos, hbody, hbest, Snake.setDirection,
    isReverse_self_of_mem_dirs s.dir hdir]

/-- C9 (amended): when no candidate survives pruning for an AI snake whose direction is
one of the four unit directions, aiDecide draws no random number and leaves the snake
with nextDir equal to its current direction.  In the tick of a state with a human
snake at index 0 and that living AI snake at index 1, the AI snake then moves
straight ahead, and it is dead at the end of the tick exactly when the cell ahead is
outside the grid, or holds one of its own segments that stays (any segment while
growth is pending, any but the last otherwise), or holds a segment of the other
snake after that snake's move. -/
theorem ai_no_candidate :
    (∀ (foods : List Food) (s : Snake) (head : Vec) (rest : List Vec) (other : Option Snake)
      (r : Rng), s.body = head :: rest → s.dir ∈ dirs →
      (∀ d ∈ dirs, survives s head other d = false) →
      ∃ t, aiDecide foods s other r = some (t, r) ∧ t.nextDir = s.dir ∧ t.dir = s.dir ∧
        t.body = s.body) ∧
    (∀ (g : Game) (r : Rng) (p s : Snake) (head : Vec) (rest : List Vec),
      g.paused = false → g.roundActive = true → g.snakes = [p, s] → p.isAI = false →
      s.isAI = true → s.alive = true → p.body ≠ [] → s.body = head :: rest → s.dir ∈ dirs →
      (∀ d ∈ dirs, survives s head (some p) d = false) →
      ∃ p2 g2 r2 p3 s3, p.update = some p2 ∧ tick g r = some (g2, r2) ∧
        g2.snakes = [p3, s3] ∧ s3.dir = s.dir ∧
        s3.body = ⟨head.x + s.dir.x, head.y + s.dir.y⟩ ::
          (if 0 < s.growCount then s.body else s.body.dropLast) ∧
        (s3.alive = false ↔
          (outOfGrid (head.x + s.dir.x) (head.y + s.dir.y) = true ∨
           hits (if 0 < s.growCount then s.body else s.body.dropLast)
             (head.x + s.dir.x) (head.y + s.dir.y) = true ∨
           hits p2.body (head.x + s.dir.x) (head.y + s.dir.y) = true))) := by
  constructor
  · intro foods s head rest other r hbody hdir hnone
    exact ⟨_, aiDecide_no_candidate foods s head rest other r hbody hdir hnone, rfl, rfl, rfl⟩
  · intro g r p s head rest hp ha hs hpai hsai hsalive hpne hbody hdir hnone
    have hsne : s.body ≠ [] := by
      rw [hbody]
      simp
    have hne : BodiesNonEmpty g.snakes := by
      intro x hmem
      rw [hs] at hmem
      simp only [List.mem_cons, List.mem_singleton, List.not_mem_nil, or_false] at hmem
      rcases hmem with h | h <;> (rw [h]; assumption)
    have hsh : g.mode = some Mode.onePlayer → g.snakes ≠ [] := by
      intro _
      rw [hs]
      simp
    obtain ⟨ai, r1, moved, f, rf, col, g2, hai, hmoved, -, -, -, -, htick, -, -, -, -, -, -, l3, l4,
      -, -, hcolmap, hsn, -, -, -, -, hfmap, hcolpt, -⟩ := tick_anatomy g r hp ha hne hsh
    have hr : List.range 2 = [0, 1] := by decide
    have hai2 : aiPhase g.foods (List.range g.snakes.length) g.snakes r
        = some ([p, { s with nextDir := s.dir }], r) := by
      rw [hs]
      show aiPhase g.foods (List.range 2) [p, s] r = _
      rw [hr]
      have hdec := aiDecide_no_candidate g.foods s head rest (some p) r hbody hdir hnone
      simp [aiPhase, hpai, hsai, hsalive, otherOf, hdec]
    rw [hai2] at hai
    simp only [Option.some.injEq, Prod.mk.injEq] at hai
    obtain ⟨hai_eq, -⟩ := hai
    subst hai_eq
    obtain ⟨p2, hp2, -⟩ := update_ok p hpne
    obtain ⟨s2, hs2, hs2dir, hs2alive, -, hs2body⟩ :=
      update_moved { s with nextDir := s.dir } head rest hsalive hbody
    have hmoved2 : updateAll [p, { s with nextDir := s.dir }] = some [p2, s2] := by
      simp [updateAll, hp2, hs2]
    rw [hmoved2] at hmoved
    simp only [Option.some.injEq] at hmoved
    subst hmoved
    rw [hs] at l3 l4
    obtain ⟨pf, sf, hff⟩ := list_of_length_two f.snakes l3
    obtain ⟨p3, s3, hcc⟩ := list_of_length_two col l4
    rw [hff] at hfmap hcolmap
    rw [hcc] at hcolmap
    simp only [List.map_cons, List.map_nil, List.cons.injEq, and_true] at hfmap hcolmap
    have hsf_body : sf.body = s2.body := by
      have := congrArg Snake.body hfmap.2
      exact this
    have hsf_alive : sf.alive = s2.alive := by
      have := congrArg Snake.alive hfmap.2
      exact this
    have hsf_dir : sf.dir = s2.dir := by
      have := congrArg Snake.dir hfmap.2
      exact this
    have hpf_body : pf.body = p2.body := by
      have := congrArg Snake.body hfmap.1
      exact this
    have hs3_body : s3.body = sf.body := by
      have := congrArg Snake.body hcolmap.2
      exact this
    have hs3_dir : s3.dir = sf.dir := by
      have := congrArg Snake.dir hcolmap.2
      exact this
    obtain ⟨t, ht, hta⟩ := hcolpt 1 sf (by rw [hff]; rfl)
    rw [hcc] at ht
    simp only [List.getElem?_cons_succ, List.getElem?_cons_zero, Option.some.injEq] at ht
    subst ht
    have hcol : collides f.snakes 1
        = (outOfGrid (head.x + s.dir.x) (head.y + s.dir.y)
          || hits (if 0 < s.growCount then s.body else s.body.dropLast)
              (head.x + s.dir.x) (head.y + s.dir.y)
          || hits p2.body (head.x + s.dir.x) (head.y + s.dir.y)) := by
      rw [hff, collides_pair_right pf sf ⟨head.x + s.dir.x, head.y + s.dir.y⟩
        (if 0 < s.growCount then s.body else s.body.dropLast) (hsf_body.trans hs2body), hpf_body]
    refine ⟨p2, g2, _, p3, s3, hp2, htick, hsn.trans hcc, (hs3_dir.trans hsf_dir).trans hs2dir,
      (hs3_body.trans hsf_body).trans hs2body, ?_⟩
    rw [hta, hsf_alive, hs2alive, hcol]
    simp only [Bool.true_and, Bool.not_eq_false', Bool.or_eq_true, or_assoc]

/-- C9 (amended), at tailChaseState: the AI snake has no surviving candidate and the
tick returns a state with two snakes. -/
theorem ai_no_candidate_witness :
    ∃ p2 g2 r2 p3 s3, (snakeAt tailChaseState 0).update = some p2 ∧
      tick tailChaseState rngZero = some (g2, r2) ∧ g2.snakes = [p3, s3] ∧
      s3.dir = DIR.UP := by
  obtain ⟨p2, g2, r2, p3, s3, h1, h2, h3, h4, -⟩ :=
    ai_no_candidate.2 tailChaseState rngZero (snakeAt tailChaseState 0)
      (snakeAt tailChaseState 1) ⟨29, 5⟩ [⟨29, 6⟩, ⟨28, 6⟩, ⟨28, 5⟩, ⟨28, 4⟩, ⟨29, 4⟩]
      rfl rfl rfl rfl rfl rfl (by decide) rfl (by decide) (by decide)
  exact ⟨p2, g2, r2, p3, s3, h1, h2, h3, h4⟩

/-- C9 as stated fails: at tailChaseState no candidate of the living AI snake survives
pruning, the snake moves straight onto the cell its tail leaves, and after the tick
it is still alive. -/
theorem ai_no_candidate_counterexample :
    dirs.map (survives (snakeAt tailChaseState 1) ⟨29, 5⟩ (some (snakeAt tailChaseState 0)))
      = [false, false, false, false] ∧
    (snakeAt tailChaseState 1).alive = true ∧ (snakeAt tailChaseState 1).isAI = true ∧
    (tick tailChaseState rngZero).map (fun p => p.1.snakes.map (fun s => (s.body, s.alive)))
      = some [([⟨6, 15⟩, ⟨5, 15⟩, ⟨4, 15⟩], true),
              ([⟨29, 4⟩, ⟨29, 5⟩, ⟨29, 6⟩, ⟨28, 6⟩, ⟨28, 5⟩, ⟨28, 4⟩], true)] := by
  decide!

/-! ## Binary64 rounding -/

/-- The function pow2 is the power of 2 with an integer exponent. -/
theorem pow2_eq (k : Int) : pow2 k = (2 : ℚ) ^ k := by
  unfold pow2
  split
  · rename_i h
    have hk : k = (k.toNat : Int) := (Int.toNat_of_nonneg h).symm
    conv_rhs => rw [hk]
    rw [zpow_natCast]
    push_cast
    rfl
  · rename_i h
    have hk : k = -((-k).toNat : Int) := by
      rw [Int.toNat_of_nonneg (by omega)]
      omega
    conv_rhs => rw [hk]
    rw [zpow_neg, zpow_natCast]
    push_cast
    rw [one_div]

/-- With enough fuel, halvings brackets n between two consecutive powers of 2. -/
theorem halvings_spec : ∀ (fuel n : Nat), n ≠ 0 → n ≤ fuel →
    2 ^ halvings fuel n ≤ n ∧ n < 2 ^ (halvings fuel n + 1) := by
  intro fuel
  induction fuel with
  | zero =>
    intro n h0 h
    omega
  | succ fuel ih =>
    intro n h0 h
    unfold halvings
    by_cases h2 : 2 ≤ n
    · rw [if_pos h2]
      obtain ⟨a, b⟩ := ih (n / 2) (by omega) (by omega)
      rw [pow_succ] at b
      rw [pow_succ, pow_succ, pow_succ]
      generalize 2 ^ halvings fuel (n / 2) = p at a b ⊢
      omega
    · rw [if_neg h2]
      constructor
      · simp
        omega
      · simp
        omega

/-- The exponent brackets the magnitude of x between two consecutive powers of 2. -/
theorem binade_spec (x : ℚ) (hx : x ≠ 0) :
    (2 : ℚ) ^ binade x ≤ |x| ∧ |x| < (2 : ℚ) ^ (binade x + 1) := by
  have hn : x.num.natAbs ≠ 0 := by
    intro h
    apply hx
    rw [Int.natAbs_eq_zero] at h
    exact Rat.zero_of_num_zero h
  have hd : x.den ≠ 0 := x.den_nz
  obtain ⟨a1, a2⟩ := halvings_spec _ _ hn (le_refl _)
  obtain ⟨b1, b2⟩ := halvings_spec _ _ hd (le_refl _)
  have habs : |x| = (x.num.natAbs : ℚ) / (x.den : ℚ) := by
    conv_lhs => rw [← Rat.num_div_den x]
    rw [abs_div, Nat.cast_natAbs, Nat.abs_cast]
    push_cast
    rfl
  have hdpos : (0 : ℚ) < x.den := by exact_mod_cast Nat.pos_of_ne_zero hd
  have a1q : (2 : ℚ) ^ (halvings x.num.natAbs x.num.natAbs) ≤ (x.num.natAbs : ℚ) := by
    exact_mod_cast a1
  have a2q : (x.num.natAbs : ℚ) < (2 : ℚ) ^ (halvings x.num.natAbs x.num.natAbs + 1) := by
    exact_mod_cast a2
  have b1q : (2 : ℚ) ^ (halvings x.den x.den) ≤ (x.den : ℚ) := by
    exact_mod_cast b1
  have b2q : (x.den : ℚ) < (2 : ℚ) ^ (halvings x.den x.den + 1) := by
    exact_mod_cast b2
  have hb : binade x
      = if pow2 ((halvings x.num.natAbs x.num.natAbs : Int) - (halvings x.den x.den : Int)) ≤ |x|
        then (halvings x.num.natAbs x.num.natAbs : Int) - (halvings x.den x.den : Int)
        else (halvings x.num.natAbs x.num.natAbs : Int) - (halvings x.den x.den : Int) - 1 := rfl
  rw [hb]
  generalize halvings x.num.natAbs x.num.natAbs = a at a1q a2q ⊢
  generalize halvings x.den x.den = b at b1q b2q ⊢
  have hpa : (0 : ℚ) < 2 ^ a := by positivity
  have hpb : (0 : ℚ) < 2 ^ b := by positivity
  have e1 : (2 : ℚ) ^ ((a : Int) - (b : Int)) = 2 ^ a / 2 ^ b := by
    rw [zpow_sub₀ (by norm_num), zpow_natCast, zpow_natCast]
  have e2 : (2 : ℚ) ^ ((a : Int) - (b : Int) + 1) = 2 ^ (a + 1) / 2 ^ b := by
    rw [zpow_add₀ (by norm_num), e1, zpow_one, pow_succ]
    ring
  have e3 : (2 : ℚ) ^ ((a : Int) - (b : Int) - 1) = 2 ^ a / 2 ^ (b + 1) := by
    rw [zpow_sub₀ (by norm_num), e1, zpow_one, pow_succ]
    field_simp
  rw [pow2_eq]
  by_cases hc : (2 : ℚ) ^ ((a : Int) - (b : Int)) ≤ |x|
  · rw [if_pos hc]
    refine ⟨hc, ?_⟩
    rw [e2, habs, div_lt_div_iff₀ hdpos hpb]
    calc (x.num.natAbs : ℚ) * 2 ^ b ≤ (x.num.natAbs : ℚ) * x.den := by
          apply mul_le_mul_of_nonneg_left b1q
          positivity
      _ < 2 ^ (a + 1) * x.den := by
          apply mul_lt_mul_of_pos_right a2q hdpos
  · rw [if_neg hc]
    rw [sub_add_cancel]
    refine ⟨?_, not_le.mp hc⟩
    rw [e3, habs, div_le_div_iff₀ (by positivity) hdpos]
    calc (2 : ℚ) ^ a * x.den ≤ (x.num.natAbs : ℚ) * x.den := by
          apply mul_le_mul_of_nonneg_right a1q (le_of_lt hdpos)
      _ ≤ (x.num.natAbs : ℚ) * 2 ^ (b + 1) := by
          apply mul_le_mul_of_nonneg_left (le_of_lt b2q)
          positivity

/-- A number below m + 1/2 is rounded to an integer that is at most m. -/
theorem roundHalfEven_le (z : ℚ) (m : Int) (h : z < (m : ℚ) + 1 / 2) : roundHalfEven z ≤ m := by
  have hf1 : (Int.floor z : ℚ) ≤ z := Int.floor_le z
  have hf2 : z < (Int.floor z : ℚ) + 1 := Int.lt_floor_add_one z
  unfold roundHalfEven
  simp only []
  by_cases hle : Int.floor z + 1 ≤ m
  · split
    · omega
    · split
      · exact hle
      · split
        · omega
        · exact hle
  · have hge : m ≤ Int.floor z := by omega
    have hgeq : (m : ℚ) ≤ (Int.floor z : ℚ) := by exact_mod_cast hge
    have hlt : z - (Int.floor z : ℚ) < 1 / 2 := by linarith
    rw [if_pos hlt]
    have : (Int.floor z : ℚ) < (m : ℚ) + 1 := by linarith
    have : Int.floor z < m + 1 := by exact_mod_cast this
    omega

theorem roundHalfEven_nonneg (z : ℚ) (h : 0 ≤ z) : 0 ≤ roundHalfEven z := by
  have hf : 0 ≤ Int.floor z := Int.floor_nonneg.mpr h
  unfold roundHalfEven
  simp only []
  split
  · exact hf
  · split
    · omega
    · split
      · exact hf
      · omega

theorem roundHalfEven_intCast (m : Int) : roundHalfEven (m : ℚ) = m := by
  unfold roundHalfEven
  simp

theorem pow2_pos (k : Int) : 0 < pow2 k := by
  rw [pow2_eq]
  positivity

theorem roundDouble_nonneg (x : ℚ) (h : 0 ≤ x) : 0 ≤ roundDouble x := by
  unfold roundDouble
  split
  · exact le_refl 0
  · simp only []
    apply mul_nonneg
    · exact_mod_cast roundHalfEven_nonneg _ (div_nonneg h (le_of_lt (pow2_pos _)))
    · exact le_of_lt (pow2_pos _)

/-- The exponent of a positive number below 2^(E+1) is at most E. -/
theorem binade_le (x : ℚ) (E : Int) (h0 : 0 < x) (h : x < (2 : ℚ) ^ (E + 1)) : binade x ≤ E := by
  obtain ⟨h1, -⟩ := binade_spec x (ne_of_gt h0)
  rw [abs_of_pos h0] at h1
  have := lt_of_le_of_lt h1 h
  rw [zpow_lt_zpow_iff_right₀ (by norm_num)] at this
  omega

/-- The exponent of a number of magnitude 2^E or more is at least E. -/
theorem le_binade (x : ℚ) (E : Int) (h0 : 0 < x) (h : (2 : ℚ) ^ E ≤ x) : E ≤ binade x := by
  obtain ⟨-, h2⟩ := binade_spec x (ne_of_gt h0)
  rw [abs_of_pos h0] at h2
  have := lt_of_le_of_lt h h2
  rw [zpow_lt_zpow_iff_right₀ (by norm_num)] at this
  omega

/-- A positive number below 2^(E+1) that lies more than half a spacing 2^(E-52) below a
multiple of that spacing is rounded to a value below that multiple. -/
theorem roundDouble_lt (y : ℚ) (E n : Int) (h0 : 0 < y) (hE : -1022 ≤ E)
    (hyE : y < (2 : ℚ) ^ (E + 1))
    (hlt : y < (n : ℚ) * (2 : ℚ) ^ (E - 52) - (2 : ℚ) ^ (E - 53)) :
    roundDouble y < (n : ℚ) * (2 : ℚ) ^ (E - 52) := by
  have hb := binade_le y E h0 hyE
  have he : max (binade y) (-1022) ≤ E := max_le hb hE
  unfold roundDouble
  rw [if_neg (ne_of_gt h0)]
  simp only []
  rw [pow2_eq]
  generalize max (binade y) (-1022) = e at he
  obtain ⟨m, hm⟩ : ∃ m : Nat, E = e + m := ⟨(E - e).toNat, by omega⟩
  have two : (2 : ℚ) ≠ 0 := by norm_num
  have hq : (0 : ℚ) < 2 ^ (e - 52) := by positivity
  have hE52 : (2 : ℚ) ^ (E - 52) = (2 : ℚ) ^ m * 2 ^ (e - 52) := by
    rw [hm, show e + (m : Int) - 52 = (m : Int) + (e - 52) by ring, zpow_add₀ two, zpow_natCast]
  have hE53 : (2 : ℚ) ^ (e - 52) / 2 ≤ (2 : ℚ) ^ (E - 53) := by
    have h1 : (2 : ℚ) ^ (e - 53) ≤ (2 : ℚ) ^ (E - 53) :=
      (zpow_le_zpow_iff_right₀ (by norm_num)).mpr (by omega)
    have h2 : (2 : ℚ) ^ (e - 52) = (2 : ℚ) ^ (e - 53) * 2 := by
      rw [show e - 52 = (e - 53) + 1 by ring, zpow_add₀ two, zpow_one]
    rw [h2]
    linarith
  rw [hE52] at hlt ⊢
  have hz : y / (2 : ℚ) ^ (e - 52) < ((n * 2 ^ m - 1 : Int) : ℚ) + 1 / 2 := by
    rw [div_lt_iff₀ hq]
    push_cast
    nlinarith
  have hr := roundHalfEven_le _ _ hz
  have hrq : (roundHalfEven (y / (2 : ℚ) ^ (e - 52)) : ℚ) ≤ ((n * 2 ^ m - 1 : Int) : ℚ) := by
    exact_mod_cast hr
  push_cast at hrq
  nlinarith

/-- A binary64 value in [0, 1) is at most 1 - 2^-53. -/
theorem double_below_one (r : ℚ) (h1 : r < 1) (hd : roundDouble r = r) :
    r ≤ 1 - 1 / 2 ^ 53 := by
  have hp : (2 : ℚ) ^ (-53 : Int) = 1 / 2 ^ 53 := by
    rw [zpow_neg, one_div, ← zpow_natCast]
    rfl
  by_cases hhalf : r < 1 / 2
  · have : (1 : ℚ) / 2 ^ 53 ≤ 1 / 2 := by norm_num
    linarith
  · have hpos : 0 < r := by linarith
    have hb1 : binade r ≤ -1 := binade_le r (-1) hpos (by simpa using h1)
    have hb2 : -1 ≤ binade r :=
      le_binade r (-1) hpos (by
        rw [show (2 : ℚ) ^ (-1 : Int) = 1 / 2 by norm_num]
        exact not_lt.mp hhalf)
    have hb : binade r = -1 := by omega
    unfold roundDouble at hd
    rw [if_neg (ne_of_gt hpos), hb] at hd
    simp only [] at hd
    rw [pow2_eq, show max (-1 : Int) (-1022) - 52 = -53 by decide, hp] at hd
    generalize roundHalfEven (r / (1 / 2 ^ 53)) = M at hd
    have hr : r * 2 ^ 53 = (M : ℚ) := by
      rw [← hd]
      field_simp
    have hM : (M : ℚ) < ((2 ^ 53 : Int) : ℚ) := by
      push_cast
      rw [← hr]
      linarith
    have hM2 : M ≤ 2 ^ 53 - 1 := by
      have : M < 2 ^ 53 := by exact_mod_cast hM
      omega
    have hM3 : (M : ℚ) ≤ 2 ^ 53 - 1 := by exact_mod_cast hM2
    rw [← hr] at hM3
    have hP : (0 : ℚ) < 2 ^ 53 := by positivity
    have hsum : r + 1 / 2 ^ 53 = (r * 2 ^ 53 + 1) / 2 ^ 53 := by
      field_simp
    rw [le_sub_iff_add_le, hsum, div_le_one hP]
    linarith

/-- The value roundHalfEven z is an integer nearest to z, and it is even when z lies
half-way between two integers. -/
theorem roundHalfEven_near (z : ℚ) :
    |(roundHalfEven z : ℚ) - z| ≤ 1 / 2 ∧
    (|(roundHalfEven z : ℚ) - z| = 1 / 2 → roundHalfEven z % 2 = 0) := by
  have hf1 : (Int.floor z : ℚ) ≤ z := Int.floor_le z
  have hf2 : z < (Int.floor z : ℚ) + 1 := Int.lt_floor_add_one z
  unfold roundHalfEven
  simp only []
  by_cases h1 : z - (Int.floor z : ℚ) < 1 / 2
  · rw [if_pos h1]
    have habs : |(Int.floor z : ℚ) - z| = z - (Int.floor z : ℚ) := by
      rw [abs_sub_comm, abs_of_nonneg (by linarith)]
    rw [habs]
    exact ⟨le_of_lt h1, fun h => absurd h (ne_of_lt h1)⟩
  · rw [if_neg h1]
    by_cases h2 : z - (Int.floor z : ℚ) > 1 / 2
    · rw [if_pos h2]
      have habs : |((Int.floor z + 1 : Int) : ℚ) - z| = (Int.floor z : ℚ) + 1 - z := by
        push_cast
        rw [abs_of_nonneg (by linarith)]
      rw [habs]
      exact ⟨by linarith, fun h => by linarith⟩
    · rw [if_neg h2]
      have heq : z - (Int.floor z : ℚ) = 1 / 2 := le_antisymm (not_lt.mp h2) (not_lt.mp h1)
      by_cases h3 : Int.floor z % 2 = 0
      · rw [if_pos h3]
        have habs : |(Int.floor z : ℚ) - z| = z - (Int.floor z : ℚ) := by
          rw [abs_sub_comm, abs_of_nonneg (by linarith)]
        rw [habs]
        exact ⟨le_of_eq heq, fun _ => h3⟩
      · rw [if_neg h3]
        have habs : |((Int.floor z + 1 : Int) : ℚ) - z| = (Int.floor z : ℚ) + 1 - z := by
          push_cast
          rw [abs_of_nonneg (by linarith)]
        rw [habs]
        exact ⟨by linarith, fun _ => by omega⟩

/-- The value roundDouble x is a multiple of the spacing 2^(e-52) of the binary64 values
around x, it is within half a spacing of x, and the multiple is even when x lies
half-way between two of them. -/
theorem roundDouble_near (x : ℚ) (hx : x ≠ 0) :
    ∃ m : Int, roundDouble x = (m : ℚ) * (2 : ℚ) ^ (max (binade x) (-1022) - 52) ∧
      |roundDouble x - x| ≤ (2 : ℚ) ^ (max (binade x) (-1022) - 52) / 2 ∧
      (|roundDouble x - x| = (2 : ℚ) ^ (max (binade x) (-1022) - 52) / 2 → m % 2 = 0) := by
  unfold roundDouble
  rw [if_neg hx]
  simp only []
  rw [pow2_eq]
  generalize max (binade x) (-1022) - 52 = k
  have hq : (0 : ℚ) < (2 : ℚ) ^ k := by positivity
  obtain ⟨h1, h2⟩ := roundHalfEven_near (x / (2 : ℚ) ^ k)
  have hdiff : (roundHalfEven (x / (2 : ℚ) ^ k) : ℚ) * (2 : ℚ) ^ k - x
      = ((roundHalfEven (x / (2 : ℚ) ^ k) : ℚ) - x / (2 : ℚ) ^ k) * (2 : ℚ) ^ k := by
    field_simp
  refine ⟨roundHalfEven (x / (2 : ℚ) ^ k), rfl, ?_, ?_⟩
  · rw [hdiff, abs_mul, abs_of_pos hq]
    have := mul_le_mul_of_nonneg_right h1 (le_of_lt hq)
    linarith
  · intro h
    apply h2
    rw [hdiff, abs_mul, abs_of_pos hq] at h
    have h3 : |(roundHalfEven (x / (2 : ℚ) ^ k) : ℚ) - x / (2 : ℚ) ^ k| * (2 : ℚ) ^ k
        = (1 / 2) * (2 : ℚ) ^ k := by
      rw [h]
      ring
    exact mul_right_cancel₀ (ne_of_gt hq) h3

/-- Math.floor(Math.random() * 30) lies in 0..29 for every binary64 draw in [0, 1). -/
theorem floor_draw_inGrid (r : ℚ) (h0 : 0 ≤ r) (h1 : r < 1) (hd : roundDouble r = r) :
    0 ≤ Int.floor (roundDouble (r * 30)) ∧ Int.floor (roundDouble (r * 30)) < 30 := by
  constructor
  · exact Int.floor_nonneg.mpr (roundDouble_nonneg _ (by linarith))
  · apply Int.floor_lt.mpr
    push_cast
    by_cases hz : r = 0
    · rw [hz, zero_mul]
      unfold roundDouble
      rw [if_pos rfl]
      norm_num
    · have hpos : 0 < r := lt_of_le_of_ne h0 (Ne.symm hz)
      have hb := double_below_one r h1 hd
      have e1 : (2 : ℚ) ^ ((4 : Int) + 1) = 32 := by norm_num
      have e2 : (2 : ℚ) ^ ((4 : Int) - 52) = 1 / 2 ^ 48 := by
        rw [show (4 : Int) - 52 = -((48 : Nat) : Int) by decide, zpow_neg, zpow_natCast, one_div]
      have e3 : (2 : ℚ) ^ ((4 : Int) - 53) = 1 / 2 ^ 49 := by
        rw [show (4 : Int) - 53 = -((49 : Nat) : Int) by decide, zpow_neg, zpow_natCast, one_div]
      have h := roundDouble_lt (r * 30) 4 (30 * 2 ^ 48) (by linarith) (by decide)
        (by rw [e1]; linarith)
        (by
          rw [e2, e3]
          push_cast
          norm_num at hb ⊢
          linarith)
      rw [e2] at h
      push_cast at h
      norm_num at h ⊢
      exact h

/-- Math.random() * 2 lies in [0, 2) for every binary64 draw in [0, 1). -/
theorem jitter_range (r : ℚ) (h0 : 0 ≤ r) (h1 : r < 1) (hd : roundDouble r = r) :
    0 ≤ roundDouble (r * 2) ∧ roundDouble (r * 2) < 2 := by
  constructor
  · exact roundDouble_nonneg _ (by linarith)
  · by_cases hz : r = 0
    · rw [hz, zero_mul]
      unfold roundDouble
      rw [if_pos rfl]
      norm_num
    · have hpos : 0 < r := lt_of_le_of_ne h0 (Ne.symm hz)
      have hb := double_below_one r h1 hd
      have e1 : (2 : ℚ) ^ ((0 : Int) + 1) = 2 := by norm_num
      have e2 : (2 : ℚ) ^ ((0 : Int) - 52) = 1 / 2 ^ 52 := by
        rw [show (0 : Int) - 52 = -((52 : Nat) : Int) by decide, zpow_neg, zpow_natCast, one_div]
      have e3 : (2 : ℚ) ^ ((0 : Int) - 53) = 1 / 2 ^ 53 := by
        rw [show (0 : Int) - 53 = -((53 : Nat) : Int) by decide, zpow_neg, zpow_natCast, one_div]
      have h := roundDouble_lt (r * 2) 0 (2 * 2 ^ 52) (by linarith) (by decide)
        (by rw [e1]; linarith)
        (by
          rw [e2, e3]
          push_cast
          norm_num at hb ⊢
          linarith)
      rw [e2] at h
      push_cast at h
      norm_num at h ⊢
      exact h

/-- Doubling a positive binary64 value is exact. -/
theorem roundDouble_double (r : ℚ) (h0 : 0 < r) (hd : roundDouble r = r) :
    roundDouble (r * 2) = r * 2 := by
  have two : (2 : ℚ) ≠ 0 := by norm_num
  obtain ⟨s1, s2⟩ := binade_spec r (ne_of_gt h0)
  rw [abs_of_pos h0] at s1 s2
  have h2pos : 0 < r * 2 := by linarith
  have hb2 : binade (r * 2) = binade r + 1 := by
    apply le_antisymm
    · apply binade_le _ _ h2pos
      rw [zpow_add₀ two, zpow_one]
      linarith
    · apply le_binade _ _ h2pos
      rw [zpow_add₀ two, zpow_one]
      linarith
  unfold roundDouble at hd ⊢
  rw [if_neg (ne_of_gt h0)] at hd
  rw [if_neg (ne_of_gt h2pos), hb2]
  simp only [] at hd ⊢
  rw [pow2_eq] at hd ⊢
  by_cases hn : -1022 ≤ binade r
  · rw [max_eq_left hn] at hd
    rw [max_eq_left (by omega : (-1022 : Int) ≤ binade r + 1)]
    generalize binade r = b at hd
    have hq : (0 : ℚ) < (2 : ℚ) ^ (b - 52) := by positivity
    have hq2 : (2 : ℚ) ^ (b + 1 - 52) = (2 : ℚ) ^ (b - 52) * 2 := by
      rw [show b + 1 - 52 = (b - 52) + 1 by ring, zpow_add₀ two, zpow_one]
    have hdiv : r * 2 / ((2 : ℚ) ^ (b - 52) * 2) = r / (2 : ℚ) ^ (b - 52) := by
      field_simp
      ring
    rw [hq2, hdiv]
    calc (roundHalfEven (r / (2 : ℚ) ^ (b - 52)) : ℚ) * ((2 : ℚ) ^ (b - 52) * 2)
        = ((roundHalfEven (r / (2 : ℚ) ^ (b - 52)) : ℚ) * (2 : ℚ) ^ (b - 52)) * 2 := by ring
      _ = r * 2 := by rw [hd]
  · rw [max_eq_right (by omega : binade r ≤ (-1022 : Int))] at hd
    rw [max_eq_right (by omega : binade r + 1 ≤ (-1022 : Int))]
    have hq : (0 : ℚ) < (2 : ℚ) ^ ((-1022 : Int) - 52) := by positivity
    generalize (2 : ℚ) ^ ((-1022 : Int) - 52) = q at hd hq ⊢
    generalize roundHalfEven (r / q) = M at hd
    have hdiv : r * 2 / q = ((M * 2 : Int) : ℚ) := by
      rw [← hd]
      push_cast
      field_simp
      ring
    rw [hdiv, roundHalfEven_intCast, ← hd]
    push_cast
    ring

/-! ## AI policy: scoring -/

theorem nearestDist_fold (c : Vec) : ∀ (fs : List Food) (m : Int),
    fs.foldl
        (fun acc food =>
          match acc with
          | none => some (abs (food.x - c.x) + abs (food.y - c.y))
          | some m =>
            if abs (food.x - c.x) + abs (food.y - c.y) < m then
              some (abs (food.x - c.x) + abs (food.y - c.y))
            else some m)
        (some m)
      = some (fs.foldl (fun m g => min m (manhattan g c)) m) := by
  intro fs
  induction fs with
  | nil =>
    intro m
    rfl
  | cons f fs ih =>
    intro m
    simp only [List.foldl_cons]
    by_cases h : abs (f.x - c.x) + abs (f.y - c.y) < m
    · simp only [h, if_true]
      rw [ih]
      congr 2
      unfold manhattan
      exact (min_eq_right (le_of_lt h)).symm
    · simp only [h, if_false]
      rw [ih]
      congr 2
      unfold manhattan
      exact (min_eq_left (not_lt.mp h)).symm

theorem nearestDist_eq (foods : List Food) (c : Vec) (h : foods ≠ []) :
    nearestDist foods c.x c.y = some (nearestFood foods c) := by
  obtain ⟨f, fs, hf⟩ := List.exists_cons_of_ne_nil h
  subst hf
  unfold nearestDist nearestFood
  simp only [List.foldl_cons]
  exact nearestDist_fold c fs _

/-- The value nearestFood is the distance to some food and no food is nearer. -/
theorem nearestFood_spec (foods : List Food) (c : Vec) (h : foods ≠ []) :
    (∃ f ∈ foods, nearestFood foods c = manhattan f c) ∧
    (∀ f ∈ foods, nearestFood foods c ≤ manhattan f c) := by
  obtain ⟨f0, fs, hf⟩ := List.exists_cons_of_ne_nil h
  subst hf
  unfold nearestFood
  simp only []
  have key : ∀ (l : List Food) (m : Int),
      (l.foldl (fun m g => min m (manhattan g c)) m = m ∨
        ∃ f ∈ l, l.foldl (fun m g => min m (manhattan g c)) m = manhattan f c) ∧
      l.foldl (fun m g => min m (manhattan g c)) m ≤ m ∧
      ∀ f ∈ l, l.foldl (fun m g => min m (manhattan g c)) m ≤ manhattan f c := by
    intro l
    induction l with
    | nil =>
      intro m
      exact ⟨Or.inl rfl, le_refl _, fun f hf => absurd hf (List.not_mem_nil f)⟩
    | cons g l ih =>
      intro m
      simp only [List.foldl_cons]
      obtain ⟨h1, h2, h3⟩ := ih (min m (manhattan g c))
      refine ⟨?_, le_trans h2 (min_le_left _ _), ?_⟩
      · rcases h1 with h1 | ⟨f, hf, h1⟩
        · rcases min_choice m (manhattan g c) with hm | hm
          · left
            rw [h1, hm]
          · right
            exact ⟨g, List.mem_cons_self g l, by rw [h1, hm]⟩
        · right
          exact ⟨f, List.mem_cons_of_mem g hf, h1⟩
      · intro f hf
        rcases List.mem_cons.mp hf with hfg | hfl
        · rw [hfg]
          exact le_trans h2 (min_le_right _ _)
        · exact h3 f hfl
  obtain ⟨h1, h2, h3⟩ := key fs (manhattan f0 c)
  constructor
  · rcases h1 with h1 | ⟨f, hf, h1⟩
    · exact ⟨f0, List.mem_cons_self f0 fs, h1⟩
    · exact ⟨f, List.mem_cons_of_mem f0 hf, h1⟩
  · intro f hf
    rcases List.mem_cons.mp hf with hfg | hfl
    · rw [hfg]
      exact h2
    · exact h3 f hfl

theorem hits_eq_true_iff (segs : List Vec) (x y : Int) :
    hits segs x y = true ↔ (⟨x, y⟩ : Vec) ∈ segs := by
  unfold hits
  rw [List.any_eq_true]
  constructor
  · rintro ⟨seg, hmem, hxy⟩
    simp only [Bool.and_eq_true, decide_eq_true_eq] at hxy
    have hseg : seg = ⟨x, y⟩ := by
      cases seg
      simp only [Vec.mk.injEq]
      exact hxy
    rw [← hseg]
    exact hmem
  · intro hmem
    exact ⟨⟨x, y⟩, hmem, by simp⟩

theorem openSpaces_eq (body : List Vec) (c : Vec) :
    openSpaces body c.x c.y = freeCells body c := by
  unfold openSpaces freeCells neighbourhood
  rw [List.countP_flatten, List.map_map]
  congr 1
  apply List.map_congr_left
  intro dx _
  simp only [Function.comp, List.countP_eq_length_filter]
  rw [List.filter_map, List.length_map]
  refine congrArg List.length (List.filter_congr ?_)
  intro dy _
  simp only [Function.comp]
  have hh := hits_eq_true_iff body (c.x + dx) (c.y + dy)
  unfold COLS ROWS
  by_cases hm : (⟨c.x + dx, c.y + dy⟩ : Vec) ∈ body
  · have := hh.mpr hm
    simp [this, hm]
  · have : hits body (c.x + dx) (c.y + dy) = false := by
      cases hv : hits body (c.x + dx) (c.y + dy) with
      | false => rfl
      | true => exact absurd (hh.mp hv) hm
    simp [this, hm, Bool.and_assoc]

theorem candidateScore_eq (foods : List Food) (body : List Vec) (c : Vec) (rand : ℚ)
    (h : foods ≠ []) :
    candidateScore foods body c.x c.y rand
      = some (specScore foods body c (roundDouble (rand * 2))) := by
  unfold candidateScore specScore
  rw [nearestDist_eq foods c h, openSpaces_eq]
  simp only [Option.some.injEq]
  have hw : wallDist c.x c.y = min (min c.x c.y) (min (29 - c.x) (29 - c.y)) := by
    unfold wallDist COLS ROWS
    norm_num
  rw [hw, zero_sub, mul_comm (((min (min c.x c.y) (min (29 - c.x) (29 - c.y)) : Int) : ℚ)) (1 / 2),
    mul_comm ((freeCells body c : Nat) : ℚ) (roundDouble (3 / 10))]

theorem foldl_aiStep_filter (foods : List Food) (s : Snake) (head : Vec) (other : Option Snake) :
    ∀ (l : List Vec) (st : AiState),
      l.foldl (aiStep foods s head other) st
        = (l.filter (fun d => survives s head other d)).foldl (aiStep foods s head other) st := by
  intro l
  induction l with
  | nil =>
    intro st
    rfl
  | cons d l ih =>
    intro st
    by_cases hsv : survives s head other d = true
    · rw [List.filter_cons_of_pos (by simpa using hsv), List.foldl_cons, List.foldl_cons]
      exact ih _
    · simp only [Bool.not_eq_true] at hsv
      rw [List.filter_cons_of_neg (by simp [hsv]), List.foldl_cons,
        aiStep_keeps foods s head other st d hsv]
      exact ih st

theorem aiStep_survivor (foods : List Food) (s : Snake) (head : Vec) (other : Option Snake)
    (st : AiState) (d : Vec) (hf : foods ≠ []) (hsv : survives s head other d = true) :
    aiStep foods s head other st d =
      if scoreGt (some (specScore foods s.body (cellOf head d) (roundDouble (st.rng 0 * 2)))) st.bestScore then
        { bestDir := d,
          bestScore := some (specScore foods s.body (cellOf head d) (roundDouble (st.rng 0 * 2))),
          rng := st.rng.after 1 }
      else { st with rng := st.rng.after 1 } := by
  unfold aiStep
  simp only [hsv, if_true]
  have hc := candidateScore_eq foods s.body (cellOf head d) (st.rng 0) hf
  simp only [cellOf] at hc
  rw [hc]
  rfl

/-- The loop of aiDecide over surviving candidates, with at least one food: it draws
one random number per candidate and records the first candidate of highest score. -/
theorem foldl_aiStep_argmax (foods : List Food) (s : Snake) (head : Vec) (other : Option Snake)
    (r : Rng) (hf : foods ≠ []) :
    ∀ (l : List Vec), (∀ d ∈ l, survives s head other d = true) →
      (l.foldl (aiStep foods s head other)
          { bestDir := s.dir, bestScore := none, rng := r }).rng = r.after l.length ∧
      (l = [] →
        (l.foldl (aiStep foods s head other)
          { bestDir := s.dir, bestScore := none, rng := r }).bestScore = none) ∧
      (l ≠ [] → ∃ k, k < l.length ∧
        (l.foldl (aiStep foods s head other)
          { bestDir := s.dir, bestScore := none, rng := r }).bestDir = l.getD k s.dir ∧
        (l.foldl (aiStep foods s head other)
          { bestDir := s.dir, bestScore := none, rng := r }).bestScore
            = some (specScore foods s.body (cellOf head (l.getD k s.dir)) (roundDouble (r k * 2))) ∧
        (∀ j, j < l.length →
          specScore foods s.body (cellOf head (l.getD j s.dir)) (roundDouble (r j * 2))
            ≤ specScore foods s.body (cellOf head (l.getD k s.dir)) (roundDouble (r k * 2))) ∧
        (∀ j, j < k →
          specScore foods s.body (cellOf head (l.getD j s.dir)) (roundDouble (r j * 2))
            < specScore foods s.body (cellOf head (l.getD k s.dir)) (roundDouble (r k * 2)))) := by
  intro l
  induction l using List.reverseRecOn with
  | nil =>
    intro _
    exact ⟨rfl, fun _ => rfl, fun h => absurd rfl h⟩
  | append_singleton l d ih =>
    intro hall
    have hl : ∀ x ∈ l, survives s head other x = true :=
      fun x hx => hall x (List.mem_append_left _ hx)
    have hd : survives s head other d = true := hall d (by simp)
    obtain ⟨hrng, hnil, hcons⟩ := ih hl
    rw [List.foldl_append, List.foldl_cons, List.foldl_nil,
      aiStep_survivor foods s head other _ d hf hd, hrng]
    have hr0 : (r.after l.length) 0 = r l.length := by simp [Rng.after]
    have hafter : (r.after l.length).after 1 = r.after (l ++ [d]).length := by
      funext n
      simp only [Rng.after, List.length_append, List.length_singleton]
      congr 1
      omega
    have hlast : (l ++ [d]).getD l.length s.dir = d := by
      rw [List.getD_append_right l [d] s.dir l.length (le_refl _)]
      simp
    have hprev : ∀ j, j < l.length → (l ++ [d]).getD j s.dir = l.getD j s.dir :=
      fun j hj => List.getD_append l [d] s.dir j hj
    have hlen : (l ++ [d]).length = l.length + 1 := by simp
    rw [hr0]
    by_cases hempty : l = []
    · have hbs := hnil hempty
      rw [hbs]
      simp only [scoreGt, if_true]
      refine ⟨hafter, fun h => absurd h (by simp), fun _ => ?_⟩
      refine ⟨l.length, by rw [hlen]; omega, hlast.symm, by rw [hlast], ?_, ?_⟩
      · intro j hj
        have hj0 : j = l.length := by
          rw [hlen, hempty] at hj
          rw [hempty]
          simp at hj ⊢
          exact hj
        rw [hj0]
      · intro j hj
        rw [hempty] at hj
        simp at hj
    · obtain ⟨k, hk, hbd, hbs, hle, hlt⟩ := hcons hempty
      rw [hbs]
      by_cases hgt : specScore foods s.body (cellOf head d) (roundDouble (r l.length * 2))
          > specScore foods s.body (cellOf head (l.getD k s.dir)) (roundDouble (r k * 2))
      · simp only [scoreGt, hgt, decide_True, if_true]
        refine ⟨hafter, fun h => absurd h (by simp), fun _ => ?_⟩
        refine ⟨l.length, by rw [hlen]; omega, hlast.symm, by rw [hlast], ?_, ?_⟩
        · intro j hj
          rw [hlast]
          by_cases hjl : j < l.length
          · rw [hprev j hjl]
            exact le_of_lt (lt_of_le_of_lt (hle j hjl) hgt)
          · have hj0 : j = l.length := by omega
            rw [hj0, hlast]
        · intro j hj
          rw [hlast, hprev j hj]
          exact lt_of_le_of_lt (hle j hj) hgt
      · simp only [scoreGt, hgt, decide_False, Bool.false_eq_true, if_false]
        refine ⟨hafter, fun h => absurd h (by simp), fun _ => ?_⟩
        refine ⟨k, by rw [hlen]; omega, by rw [hprev k hk]; exact hbd,
          by rw [hprev k hk], ?_, ?_⟩
        · intro j hj
          rw [hprev k hk]
          by_cases hjl : j < l.length
          · rw [hprev j hjl]
            exact hle j hjl
          · have hj0 : j = l.length := by omega
            rw [hj0, hlast]
            exact not_lt.mp hgt
        · intro j hj
          rw [hprev k hk, hprev j (lt_trans hj hk)]
          exact hlt j hj

/-- C11: with at least one food and at least one surviving candidate, for every stream
of random draws, aiDecide sets nextDir to the surviving candidate of highest score,
the first such candidate in the order UP, DOWN, LEFT, RIGHT.  The score of the j-th
surviving candidate is specScore at its cell, the sum of the claim evaluated from left
to right in binary64 arithmetic as the script evaluates it, with the jitter
Math.random() * 2 of the j-th draw, which is exactly twice the draw and lies in [0, 2)
for a valid stream; in
specScore the nearest-food distance is attained by a food and is at most the distance
to any food, and a free cell is a cell inside the grid that holds no segment of the AI
snake itself. -/
theorem aiDecide_picks_best (foods : List Food) (s : Snake) (head : Vec) (rest : List Vec)
    (other : Option Snake) (r : Rng) (hf : foods ≠ []) (hbody : s.body = head :: rest)
    (hsurv : survivors s head other ≠ []) :
    (∃ k, k < (survivors s head other).length ∧
      aiDecide foods s other r
        = some ({ s with nextDir := (survivors s head other).getD k s.dir },
            r.after (survivors s head other).length) ∧
      (∀ j, j < (survivors s head other).length →
        specScore foods s.body (cellOf head ((survivors s head other).getD j s.dir)) (roundDouble (r j * 2))
          ≤ specScore foods s.body (cellOf head ((survivors s head other).getD k s.dir))
              (roundDouble (r k * 2))) ∧
      (∀ j, j < k →
        specScore foods s.body (cellOf head ((survivors s head other).getD j s.dir)) (roundDouble (r j * 2))
          < specScore foods s.body (cellOf head ((survivors s head other).getD k s.dir))
              (roundDouble (r k * 2)))) ∧
    (∀ d, d ∈ survivors s head other ↔ d ∈ dirs ∧ survives s head other d = true) ∧
    List.Sublist (survivors s head other) [DIR.UP, DIR.DOWN, DIR.LEFT, DIR.RIGHT] ∧
    (∀ c, (∃ f ∈ foods, nearestFood foods c = manhattan f c) ∧
      ∀ f ∈ foods, nearestFood foods c ≤ manhattan f c) ∧
    (Rng.Valid r → ∀ j, 0 ≤ roundDouble (r j * 2) ∧ roundDouble (r j * 2) < 2 ∧
      roundDouble (r j * 2) = r j * 2) := by
  have hmem : ∀ d, d ∈ survivors s head other ↔ d ∈ dirs ∧ survives s head other d = true := by
    intro d
    unfold survivors
    simp [List.mem_filter]
  refine ⟨?_, hmem, List.filter_sublist _, fun c => nearestFood_spec foods c hf, ?_⟩
  · obtain ⟨hrng, -, hcons⟩ := foldl_aiStep_argmax foods s head other r hf
      (survivors s head other) (fun d hd => ((hmem d).mp hd).2)
    obtain ⟨k, hk, hbd, -, hle, hlt⟩ := hcons hsurv
    have hbest : aiBest foods s head other r
        = (survivors s head other).foldl (aiStep foods s head other)
            { bestDir := s.dir, bestScore := none, rng := r } := by
      unfold aiBest survivors
      exact foldl_aiStep_filter foods s head other dirs _
    refine ⟨k, hk, ?_, hle, hlt⟩
    have hin : (survivors s head other).getD k s.dir ∈ survivors s head other := by
      rw [List.getD_eq_getElem _ _ hk]
      exact List.getElem_mem _
    have hsv := ((hmem _).mp hin).2
    have hnr := ((survives_iff s head other _).mp hsv).1
    have hrev : isReverse s.dir ((survivors s head other).getD k s.dir) = false := by
      simp only [isReverse, Bool.and_eq_false_imp, decide_eq_true_eq, decide_eq_false_iff_not]
      intro hx hy
      apply hnr
      constructor <;> omega
    have hset : s.setDirection ((survivors s head other).getD k s.dir)
        = { s with nextDir := (survivors s head other).getD k s.dir } := by
      unfold Snake.setDirection
      simp only [hrev, Bool.false_eq_true, if_false]
    have hhead : s.headPos = some head := by
      simp [Snake.headPos, hbody]
    unfold aiDecide
    rw [hhead]
    simp only []
    rw [hbest, hbd, hrng, hset]
  · intro hv j
    obtain ⟨h0, h1, hd⟩ := hv j
    obtain ⟨j0, j1⟩ := jitter_range (r j) h0 h1 hd
    refine ⟨j0, j1, ?_⟩
    by_cases hz : r j = 0
    · rw [hz, zero_mul]
      unfold roundDouble
      rw [if_pos rfl]
    · exact roundDouble_double (r j) (lt_of_le_of_ne h0 (Ne.symm hz)) hd

/-- C11, at an AI snake at (24,15) facing left whose way ahead is blocked by the other
snake, with one food on its row and the draws 0 for UP and 2^-52 for DOWN: the two
binary64 scores are equal, because the larger jitter of DOWN is lost in the rounding of
the last sum, and UP, the first of the two candidates, is chosen. -/
theorem aiDecide_picks_best_witness :
    survivors (Snake.new 24 15 DIR.LEFT true) ⟨24, 15⟩ (some (Snake.new 23 15 DIR.RIGHT false))
      = [DIR.UP, DIR.DOWN] ∧
    roundDouble (rngTie 0 * 2) < roundDouble (rngTie 1 * 2) ∧
    specScore [⟨4, 15, FoodType.normal⟩] (Snake.new 24 15 DIR.LEFT true).body
        (cellOf ⟨24, 15⟩ DIR.UP) (roundDouble (rngTie 0 * 2))
      = specScore [⟨4, 15, FoodType.normal⟩] (Snake.new 24 15 DIR.LEFT true).body
          (cellOf ⟨24, 15⟩ DIR.DOWN) (roundDouble (rngTie 1 * 2)) ∧
    aiDecide [⟨4, 15, FoodType.normal⟩] (Snake.new 24 15 DIR.LEFT true)
        (some (Snake.new 23 15 DIR.RIGHT false)) rngTie
      = some ({ Snake.new 24 15 DIR.LEFT true with nextDir := DIR.UP }, rngTie.after 2) := by
  have hs : survivors (Snake.new 24 15 DIR.LEFT true) ⟨24, 15⟩
      (some (Snake.new 23 15 DIR.RIGHT false)) = [DIR.UP, DIR.DOWN] := by decide
  have htie : specScore [⟨4, 15, FoodType.normal⟩] (Snake.new 24 15 DIR.LEFT true).body
        (cellOf ⟨24, 15⟩ DIR.UP) (roundDouble (rngTie 0 * 2))
      = specScore [⟨4, 15, FoodType.normal⟩] (Snake.new 24 15 DIR.LEFT true).body
          (cellOf ⟨24, 15⟩ DIR.DOWN) (roundDouble (rngTie 1 * 2)) := by decide!
  obtain ⟨k, hk, hd, -, hlt⟩ :=
    (aiDecide_picks_best [⟨4, 15, FoodType.normal⟩] (Snake.new 24 15 DIR.LEFT true) ⟨24, 15⟩
      [⟨25, 15⟩, ⟨26, 15⟩] (some (Snake.new 23 15 DIR.RIGHT false)) rngTie (by decide)
      (by decide) (by decide)).1
  rw [hs] at hk hd hlt
  refine ⟨hs, by decide!, htie, ?_⟩
  have hk2 : k < 2 := hk
  have hk0 : k = 0 := by
    by_contra hne
    have hk1 : k = 1 := by omega
    subst hk1
    have h01 := hlt 0 (by decide)
    simp only [List.getD_cons_zero, List.getD_cons_succ] at h01
    rw [htie] at h01
    exact lt_irrefl _ h01
  subst hk0
  simp only [List.getD_cons_zero, List.length_cons, List.length_nil] at hd
  exact hd

/-! ## Food spawner -/

theorem mem_occupiedCells (g : Game) (c : Vec) :
    c ∈ occupiedCells g ↔
      (∃ s ∈ g.snakes, c ∈ s.body) ∨ (∃ f ∈ g.foods, c = ⟨f.x, f.y⟩) := by
  unfold occupiedCells
  simp only [List.mem_append, List.mem_flatten, List.mem_map]
  constructor
  · rintro (⟨l, ⟨s, hs, hl⟩, hc⟩ | ⟨f, hf, hc⟩)
    · left
      exact ⟨s, hs, by rw [hl]; exact hc⟩
    · right
      exact ⟨f, hf, hc.symm⟩
  · rintro (⟨s, hs, hc⟩ | ⟨f, hf, hc⟩)
    · left
      exact ⟨s.body, ⟨s, hs, rfl⟩, hc⟩
    · right
      exact ⟨f, hf, hc.symm⟩

theorem sampleAt_after (r : Rng) (j : Nat) : sampleAt (r.after 2) j = sampleAt r (j + 1) := by
  unfold sampleAt Rng.after
  have h1 : 2 * j + 2 = 2 * (j + 1) := by omega
  have h2 : 2 * j + 1 + 2 = 2 * (j + 1) + 1 := by omega
  rw [h1, h2]

theorem sampleAt_zero (r : Rng) :
    sampleAt r 0 = ⟨Int.floor (roundDouble (r 0 * (COLS : ℚ))),
      Int.floor (roundDouble (r 1 * (ROWS : ℚ)))⟩ := by
  unfold sampleAt COLS ROWS
  norm_num

theorem after_after (r : Rng) (a b : Nat) : (r.after a).after b = r.after (a + b) := by
  funext n
  simp only [Rng.after]
  congr 1
  omega

/-- The sampling loop when every one of the n attempts hits an occupied cell. -/
theorem sampleCell_all_occupied (occupied : List Vec) : ∀ (n : Nat) (r : Rng),
    (∀ j, j < n → sampleAt r j ∈ occupied) →
    sampleCell occupied n r = (⟨15, 15⟩, r.after (2 * n)) := by
  intro n
  induction n with
  | zero =>
    intro r _
    unfold sampleCell
    have : r.after (2 * 0) = r := by
      funext k
      rfl
    rw [this]
    rfl
  | succ n ih =>
    intro r h
    unfold sampleCell
    have h0 := h 0 (Nat.succ_pos n)
    rw [sampleAt_zero] at h0
    simp only [h0, if_true]
    rw [ih (r.after 2) (fun j hj => by rw [sampleAt_after]; exact h (j + 1) (by omega)),
      after_after]
    have harith : 2 + 2 * n = 2 * (n + 1) := by omega
    rw [harith]

/-- The sampling loop when attempt j0 is the first one that hits a free cell. -/
theorem sampleCell_first_free (occupied : List Vec) : ∀ (n : Nat) (r : Rng) (j0 : Nat),
    j0 < n → sampleAt r j0 ∉ occupied → (∀ j, j < j0 → sampleAt r j ∈ occupied) →
    sampleCell occupied n r = (sampleAt r j0, r.after (2 * (j0 + 1))) := by
  intro n
  induction n with
  | zero =>
    intro r j0 h
    omega
  | succ n ih =>
    intro r j0 hlt hfree hocc
    unfold sampleCell
    cases j0 with
    | zero =>
      rw [sampleAt_zero] at hfree
      simp only [hfree, if_false]
      rw [sampleAt_zero]
    | succ j1 =>
      have h0 := hocc 0 (Nat.succ_pos j1)
      rw [sampleAt_zero] at h0
      simp only [h0, if_true]
      rw [ih (r.after 2) j1 (by omega) (by rw [sampleAt_after]; exact hfree)
        (fun j hj => by rw [sampleAt_after]; exact hocc (j + 1) (by omega)),
        sampleAt_after, after_after]
      have harith : 2 + 2 * (j1 + 1) = 2 * (j1 + 1 + 1) := by omega
      rw [harith]

theorem sampleAt_inGrid (r : Rng) (hv : r.Valid) (j : Nat) :
    0 ≤ (sampleAt r j).x ∧ (sampleAt r j).x < 30 ∧ 0 ≤ (sampleAt r j).y ∧ (sampleAt r j).y < 30 := by
  obtain ⟨a0, a1, a2⟩ := hv (2 * j)
  obtain ⟨b0, b1, b2⟩ := hv (2 * j + 1)
  obtain ⟨k1, k2⟩ := floor_draw_inGrid _ a0 a1 a2
  obtain ⟨k3, k4⟩ := floor_draw_inGrid _ b0 b1 b2
  exact ⟨k1, k2, k3, k4⟩

/-- C12: for every stream of binary64 draws in [0, 1) getRandomEmptyCell (a total
function) samples at most 1000 cells and returns a cell inside the 30x30 grid: the
first sampled cell that is neither a segment of a snake nor the position of a food, or
the centre (15,15) after 1000 occupied samples, whether or not the centre is occupied.
A sampled coordinate is the integer part of the binary64 product of a draw and 30,
which stays below 30. -/
theorem getRandomEmptyCell_spec (g : Game) (r : Rng) (hv : r.Valid) :
    (0 ≤ (getRandomEmptyCell g r).1.x ∧ (getRandomEmptyCell g r).1.x < 30 ∧
      0 ≤ (getRandomEmptyCell g r).1.y ∧ (getRandomEmptyCell g r).1.y < 30) ∧
    (∀ j0, j0 < 1000 → sampleAt r j0 ∉ occupiedCells g →
      (∀ j, j < j0 → sampleAt r j ∈ occupiedCells g) →
      getRandomEmptyCell g r = (sampleAt r j0, r.after (2 * (j0 + 1)))) ∧
    ((∀ j, j < 1000 → sampleAt r j ∈ occupiedCells g) →
      getRandomEmptyCell g r = (⟨15, 15⟩, r.after 2000)) ∧
    (∃ n, n ≤ 1000 ∧ (getRandomEmptyCell g r).2 = r.after (2 * n)) ∧
    (∀ c, c ∈ occupiedCells g ↔
      (∃ s ∈ g.snakes, c ∈ s.body) ∨ (∃ f ∈ g.foods, c = ⟨f.x, f.y⟩)) := by
  have hfree : ∀ j0, j0 < 1000 → sampleAt r j0 ∉ occupiedCells g →
      (∀ j, j < j0 → sampleAt r j ∈ occupiedCells g) →
      getRandomEmptyCell g r = (sampleAt r j0, r.after (2 * (j0 + 1))) :=
    fun j0 h1 h2 h3 => sampleCell_first_free (occupiedCells g) 1000 r j0 h1 h2 h3
  have hfull : (∀ j, j < 1000 → sampleAt r j ∈ occupiedCells g) →
      getRandomEmptyCell g r = (⟨15, 15⟩, r.after 2000) :=
    fun h => sampleCell_all_occupied (occupiedCells g) 1000 r h
  have hcases : (∃ j0, j0 < 1000 ∧ getRandomEmptyCell g r = (sampleAt r j0, r.after (2 * (j0 + 1))))
      ∨ getRandomEmptyCell g r = (⟨15, 15⟩, r.after 2000) := by
    by_cases hex : ∃ j, j < 1000 ∧ sampleAt r j ∉ occupiedCells g
    · left
      classical
      refine ⟨Nat.find hex, (Nat.find_spec hex).1, ?_⟩
      apply hfree _ (Nat.find_spec hex).1 (Nat.find_spec hex).2
      intro j hj
      by_contra hc
      exact Nat.find_min hex hj ⟨lt_trans hj (Nat.find_spec hex).1, hc⟩
    · right
      apply hfull
      intro j hj
      by_contra hc
      exact hex ⟨j, hj, hc⟩
  refine ⟨?_, hfree, hfull, ?_, mem_occupiedCells g⟩
  · rcases hcases with ⟨j0, -, h⟩ | h
    · rw [h]
      exact sampleAt_inGrid r hv j0
    · rw [h]
      show (0 : Int) ≤ 15 ∧ (15 : Int) < 30 ∧ (0 : Int) ≤ 15 ∧ (15 : Int) < 30
      decide
  · rcases hcases with ⟨j0, hj0, h⟩ | h
    · exact ⟨j0 + 1, by omega, by rw [h]⟩
    · exact ⟨1000, le_refl _, by rw [h]⟩

/-- C12, at wallState with all draws the binary64 value 0.7: the product 0.7 * 30 is
rounded to 21, the first sample (21,21) is free and is returned after two draws. -/
theorem getRandomEmptyCell_spec_witness :
    sampleAt rngSeven 0 = ⟨21, 21⟩ ∧
    getRandomEmptyCell wallState rngSeven
      = (sampleAt rngSeven 0, rngSeven.after (2 * (0 + 1))) :=
  ⟨by decide!,
    (getRandomEmptyCell_spec wallState rngSeven
      (fun _ => show 0 ≤ (3152519739159347 / 4503599627370496 : ℚ) ∧
          (3152519739159347 / 4503599627370496 : ℚ) < 1 ∧
          roundDouble (3152519739159347 / 4503599627370496)
            = 3152519739159347 / 4503599627370496 from by decide!)).2.1 0 (by decide)
      (by decide!) (fun j hj => absurd hj (Nat.not_lt_zero j))⟩

/-! ## Collision predicates -/

/-- C13: on a snake with body head :: rest each collision predicate returns a boolean
and nothing else (the snake is not changed): checkWallCollision is true exactly when
the head has x < 0 or x >= 30 or y < 0 or y >= 30, checkSelfCollision exactly when the
head equals a segment at an index of 1 or more, and checkCollisionWith exactly when
the head equals a segment of the other body, the other head included. -/
theorem collision_predicates_spec (s other : Snake) (head : Vec) (rest : List Vec)
    (hbody : s.body = head :: rest) :
    (∃ b, s.checkWallCollision = some b ∧
      (b = true ↔ head.x < 0 ∨ head.x ≥ 30 ∨ head.y < 0 ∨ head.y ≥ 30)) ∧
    (∃ b, s.checkSelfCollision = some b ∧
      (b = true ↔ ∃ i, 1 ≤ i ∧ s.body[i]? = some head)) ∧
    (∃ b, s.checkCollisionWith other = some b ∧
      (b = true ↔ head ∈ other.body) ∧
      (∀ tl, other.body = head :: tl → b = true)) := by
  refine ⟨⟨outOfGrid head.x head.y, ?_, ?_⟩, ⟨hits rest head.x head.y, ?_, ?_⟩,
    ⟨hits other.body head.x head.y, ?_, ?_, ?_⟩⟩
  · simp [Snake.checkWallCollision, Snake.headPos, hbody]
  · unfold outOfGrid COLS ROWS
    simp only [Bool.or_eq_true, decide_eq_true_eq, or_assoc]
  · simp [Snake.checkSelfCollision, hbody]
  · rw [hits_eq_true_iff, hbody]
    constructor
    · intro hmem
      obtain ⟨n, hn⟩ := List.getElem?_of_mem hmem
      exact ⟨n + 1, by omega, by simpa using hn⟩
    · rintro ⟨i, hi, hget⟩
      cases i with
      | zero => omega
      | succ n =>
        simp only [List.getElem?_cons_succ] at hget
        exact List.getElem?_mem hget
  · simp [Snake.checkCollisionWith, Snake.headPos, hbody]
  · exact hits_eq_true_iff other.body head.x head.y
  · intro tl htl
    rw [htl]
    exact hits_head head head tl rfl rfl

/-- C13, at the first snake of the head-on state, whose head (14,15) is inside the
grid. -/
theorem collision_predicates_spec_witness :
    ∃ b, (snakeAt headOnFoodState 0).checkWallCollision = some b ∧
      (b = true ↔ (14 : Int) < 0 ∨ (14 : Int) ≥ 30 ∨ (15 : Int) < 0 ∨ (15 : Int) ≥ 30) :=
  (collision_predicates_spec (snakeAt headOnFoodState 0) (snakeAt headOnFoodState 1) ⟨14, 15⟩
    [⟨13, 15⟩, ⟨12, 15⟩] rfl).1

/-! ## Update: frame and body length -/

/-- C15: on a snake with a non-empty body, alive or dead and whatever its growth
counter, update returns a snake whose body is non-empty and at least as long. -/
theorem update_body_nonempty (s : Snake) (hne : s.body ≠ []) :
    ∃ t, s.update = some t ∧ t.body ≠ [] ∧ 1 ≤ t.body.length ∧
      s.body.length ≤ t.body.length := by
  obtain ⟨head, rest, hbody⟩ := List.exists_cons_of_ne_nil hne
  by_cases halive : s.alive = true
  · obtain ⟨t, ht, -, -, -, htb⟩ := update_moved s head rest halive hbody
    refine ⟨t, ht, by rw [htb]; simp, by rw [htb]; simp, ?_⟩
    rw [htb]
    split
    · simp
    · simp [hbody]
  · refine ⟨s, by simp [Snake.update, halive], hne, ?_, le_refl _⟩
    rw [hbody]
    simp

/-- C15, at the snake the constructor builds. -/
theorem update_body_nonempty_witness :
    ∃ t, (Snake.new 5 15 DIR.RIGHT false).update = some t ∧ t.body ≠ [] ∧
      1 ≤ t.body.length ∧ (Snake.new 5 15 DIR.RIGHT false).body.length ≤ t.body.length :=
  update_body_nonempty (Snake.new 5 15 DIR.RIGHT false) (by decide)

/-- C16: update on a snake that is not alive returns the snake itself, so body, dir,
nextDir, growCount and alive are unchanged; this holds for an empty body too. -/
theorem update_dead_noop (s : Snake) (hdead : s.alive = false) :
    s.update = some s := by
  simp [Snake.update, hdead]

/-- C16, at a dead snake with pending growth and a pending turn. -/
theorem update_dead_noop_witness :
    ({ body := [⟨3, 3⟩, ⟨3, 4⟩], dir := DIR.UP, nextDir := DIR.LEFT, alive := false,
       isAI := false, growCount := 2 } : Snake).update
      = some { body := [⟨3, 3⟩, ⟨3, 4⟩], dir := DIR.UP, nextDir := DIR.LEFT, alive := false,
               isAI := false, growCount := 2 } :=
  update_dead_noop _ rfl

/-! ## Round end in single-player mode, and the paused tick -/

/-- C17: in single-player mode with a first snake, checkRoundEnd returns the state
unchanged while that snake is alive; when it is dead it clears roundActive and
registers the game-over callback and changes nothing else; so the round ends exactly
when the snake is dead, and round-win counters and scores never change. -/
theorem checkRoundEnd_single (g : Game) (s0 : Snake) (rest : List Snake)
    (hm : g.mode = some Mode.onePlayer) (hs : g.snakes = s0 :: rest) :
    (s0.alive = true → checkRoundEnd g = some g) ∧
    (s0.alive = false →
      checkRoundEnd g = some { g with roundActive := false,
                                      timers := g.timers ++ [Timer.showGameOver] }) ∧
    (∃ g2, checkRoundEnd g = some g2 ∧ g2.roundScores = g.roundScores ∧
      g2.scores = g.scores ∧
      ((g2.roundActive = false ∧ g2.timers = g.timers ++ [Timer.showGameOver])
        ↔ s0.alive = false)) := by
  have h1 : s0.alive = true → checkRoundEnd g = some g := by
    intro ha
    simp [checkRoundEnd, hm, hs, ha]
  have h2 : s0.alive = false →
      checkRoundEnd g = some { g with roundActive := false,
                                      timers := g.timers ++ [Timer.showGameOver] } := by
    intro ha
    simp [checkRoundEnd, hm, hs, ha]
  refine ⟨h1, h2, ?_⟩
  cases ha : s0.alive with
  | true =>
    refine ⟨g, h1 ha, rfl, rfl, ?_⟩
    constructor
    · rintro ⟨-, ht⟩
      have := congrArg List.length ht
      simp at this
    · intro h
      cases h
  | false =>
    exact ⟨_, h2 ha, rfl, rfl, fun _ => rfl, fun _ => ⟨rfl, rfl⟩⟩

/-- C17, at a single-player state whose snake is dead. -/
theorem checkRoundEnd_single_witness :
    checkRoundEnd { wallState with mode := some Mode.onePlayer,
                                   snakes := [(Snake.new 5 15 DIR.RIGHT false).cleared] }
      = some { wallState with mode := some Mode.onePlayer,
                              snakes := [(Snake.new 5 15 DIR.RIGHT false).cleared],
                              roundActive := false, timers := [Timer.showGameOver] } :=
  (checkRoundEnd_single { wallState with mode := some Mode.onePlayer,
                                         snakes := [(Snake.new 5 15 DIR.RIGHT false).cleared] }
    _ _ rfl rfl).2.1 rfl

/-- C18: when paused is true or roundActive is false, tick returns the state and the
random stream as they are: snakes, foods, scores, round-win counters and speed are
unchanged and no random number is drawn. -/
theorem tick_paused_noop (g : Game) (r : Rng) (h : g.paused = true ∨ g.roundActive = false) :
    tick g r = some (g, r) := by
  unfold tick
  rcases h with h | h <;> simp [h]

/-- C18, at the head-on state with the pause flag set. -/
theorem tick_paused_noop_witness :
    tick { headOnFoodState with paused := true } rngZero
      = some ({ headOnFoodState with paused := true }, rngZero) :=
  tick_paused_noop _ rngZero (Or.inl rfl)

/-! ## The collision phase -/

theorem hits_eq_false_iff_not_mem (segs : List Vec) (c : Vec) :
    hits segs c.x c.y = false ↔ c ∉ segs := by
  have h := hits_eq_true_iff segs c.x c.y
  constructor
  · intro hf hmem
    rw [h.mpr hmem] at hf
    cases hf
  · intro hn
    cases hv : hits segs c.x c.y with
    | false => rfl
    | true => exact absurd (h.mp hv) hn

/-- The snake at index j does not collide exactly when its head is inside the grid,
differs from its own later segments and differs from every segment of every other
snake of the list. -/
theorem collides_eq_false_iff (snakes : List Snake) (j : Nat) (s : Snake) (head : Vec)
    (rest : List Vec) (hs : snakes[j]? = some s) (hbody : s.body = head :: rest) :
    collides snakes j = false ↔
      (0 ≤ head.x ∧ head.x < 30 ∧ 0 ≤ head.y ∧ head.y < 30) ∧ head ∉ rest ∧
      ∀ (i : Nat) (o : Snake), i ≠ j → snakes[i]? = some o → head ∉ o.body := by
  have hcol : collides snakes j
      = (outOfGrid head.x head.y || hits rest head.x head.y
          || (List.range snakes.length).any (hitsOther snakes head j)) := by
    simp only [collides, hs, hbody]
  rw [hcol]
  simp only [Bool.or_eq_false_iff, outOfGrid_eq_false_iff, hits_eq_false_iff_not_mem,
    List.any_eq_false, List.mem_range, and_assoc]
  constructor
  · rintro ⟨g1, g2, g3, g4, hr, ho⟩
    refine ⟨g1, g2, g3, g4, hr, ?_⟩
    intro i o hij hio hmem
    have hlt : i < snakes.length := (List.getElem?_eq_some_iff.mp hio).1
    have := ho i hlt
    apply this
    simp only [hitsOther, hio, Bool.and_eq_true, decide_eq_true_eq]
    exact ⟨Ne.symm hij, (hits_eq_true_iff o.body head.x head.y).mpr hmem⟩
  · rintro ⟨g1, g2, g3, g4, hr, ho⟩
    refine ⟨g1, g2, g3, g4, hr, ?_⟩
    intro i _ hhit
    simp only [hitsOther, Bool.and_eq_true, decide_eq_true_eq] at hhit
    obtain ⟨hji, hh⟩ := hhit
    cases hio : snakes[i]? with
    | none => simp [hio] at hh
    | some o =>
      simp only [hio] at hh
      exact ho i o (Ne.symm hji) hio ((hits_eq_true_iff o.body head.x head.y).mp hh)

/-- Two lists of snakes that agree up to the flags alive and agree on the flags are
equal. -/
theorem eq_of_cleared_of_alive (a b : List Snake)
    (hc : a.map Snake.cleared = b.map Snake.cleared)
    (ha : ∀ (j : Nat) (x y : Snake), a[j]? = some x → b[j]? = some y → x.alive = y.alive) :
    a = b := by
  apply List.ext_getElem?
  intro j
  have hj := congrArg (fun l => l[j]?) hc
  simp only [List.getElem?_map] at hj
  cases hx : a[j]? with
  | none =>
    cases hy : b[j]? with
    | none => rfl
    | some y => simp [hx, hy] at hj
  | some x =>
    cases hy : b[j]? with
    | none => simp [hx, hy] at hj
    | some y =>
      simp only [hx, hy, Option.map_some', Option.some.injEq] at hj
      have hal := ha j x y hx hy
      cases x
      cases y
      simp only [Snake.cleared, Snake.mk.injEq] at hj
      simp only at hal
      simp only [Option.some.injEq, Snake.mk.injEq]
      exact ⟨hj.1, hj.2.1, hj.2.2.1, hal, hj.2.2.2.2.1, hj.2.2.2.2.2⟩

/-- C19: on snakes with non-empty bodies the collision phase of a tick (collision loop
and head-on block) never throws and changes nothing but flags alive.  A snake that
was dead stays dead; a snake that was alive is alive afterwards exactly when its head
is inside the grid, differs from each of its own non-head segments and differs from
every segment of every other snake, alive or dead.  The collision loop run over the
indices in any other order gives the same list of snakes. -/
theorem collision_phase_spec (snakes : List Snake) (hne : BodiesNonEmpty snakes) :
    ∃ out, tickCollide snakes = some out ∧
      out.map Snake.cleared = snakes.map Snake.cleared ∧
      (∀ (j : Nat) (s : Snake) (head : Vec) (rest : List Vec), snakes[j]? = some s →
        s.body = head :: rest →
        ∃ t, out[j]? = some t ∧ t.body = s.body ∧
          (s.alive = false → t.alive = false) ∧
          (s.alive = true →
            (t.alive = true ↔
              (0 ≤ head.x ∧ head.x < 30 ∧ 0 ≤ head.y ∧ head.y < 30) ∧ head ∉ rest ∧
              ∀ (i : Nat) (o : Snake), i ≠ j → snakes[i]? = some o → head ∉ o.body))) ∧
      (∀ is : List Nat, List.Perm is (List.range snakes.length) →
        collisionPhase is snakes = some out) := by
  obtain ⟨out, hout, -, hmap, hpt⟩ := tickCollide_spec snakes hne
  refine ⟨out, hout, hmap, ?_, ?_⟩
  · intro j s head rest hs hbody
    obtain ⟨t, ht, hta⟩ := hpt j s hs
    have hbodies := (map_body_of_cleared hmap).1
    have hj := getElem?_body_of_map hbodies j
    simp only [ht, hs, Option.map_some', Option.some.injEq] at hj
    refine ⟨t, ht, hj, ?_, ?_⟩
    · intro hdead
      rw [hta, hdead]
      rfl
    · intro halive
      rw [hta, halive, ← collides_eq_false_iff snakes j s head rest hs hbody]
      cases collides snakes j <;> simp
  · intro is hperm
    obtain ⟨out2, hout2, hmap2, hpt2⟩ := collisionPhase_spec is snakes hne
    rw [hout2]
    congr 1
    apply eq_of_cleared_of_alive out2 out (hmap2.trans hmap.symm)
    intro j x y hx hy
    have hlt : j < snakes.length := by
      have h1 : j < out.length := (List.getElem?_eq_some_iff.mp hy).1
      rw [length_eq_of_map_eq _ hmap] at h1
      exact h1
    obtain ⟨t, ht, hta⟩ := hpt j snakes[j] (List.getElem?_eq_getElem hlt)
    obtain ⟨t2, ht2, hta2⟩ := hpt2 j snakes[j] (List.getElem?_eq_getElem hlt)
    rw [hy] at ht
    rw [hx] at ht2
    cases ht
    cases ht2
    rw [hta, hta2]
    have hin : j ∈ is := (hperm.mem_iff).mpr (List.mem_range.mpr hlt)
    simp [hin]

/-- C19, at the two snakes of wallState moved one step: both are returned. -/
theorem collision_phase_spec_witness :
    ∃ out, tickCollide wallState.snakes = some out ∧
      out.map Snake.cleared = wallState.snakes.map Snake.cleared := by
  obtain ⟨out, h1, h2, -⟩ :=
    collision_phase_spec wallState.snakes (by unfold BodiesNonEmpty; decide)
  exact ⟨out, h1, h2⟩

/-! ## The head-on block -/

theorem tickMove_bodies (g : Game) (r : Rng) (m : Game × Rng)
    (hne : BodiesNonEmpty g.snakes) (hm : tickMove g r = some m) :
    BodiesNonEmpty m.1.snakes := by
  obtain ⟨ai, r1, hai, haimap⟩ := aiPhase_ok g.foods (List.range g.snakes.length) g.snakes r hne
  have hai_ne : BodiesNonEmpty ai :=
    bodiesNonEmpty_of_map_body (map_body_of_undirected haimap).1 hne
  obtain ⟨moved, hmoved, -, hmoved_ne, -⟩ := updateAll_ok ai hai_ne
  have : tickMove g r = some ({ g with snakes := moved }, r1) := by
    simp [tickMove, hai, hmoved]
  rw [this] at hm
  cases hm
  exact hmoved_ne

theorem tickRestNoHeadOn_eq (g : Game) (r : Rng) (hne : BodiesNonEmpty g.snakes) :
    tickRestNoHeadOn g r = tickRest g r := by
  obtain ⟨f, rf, hf, hfmap, -⟩ := foodPhase_ok (List.range g.snakes.length) g r hne
  have hf_ne : BodiesNonEmpty f.snakes :=
    bodiesNonEmpty_of_map_body (map_body_of_ungrown hfmap).1 hne
  obtain ⟨out, h1, h2, -⟩ := tickCollide_spec f.snakes hf_ne
  unfold tickRestNoHeadOn tickRest
  rw [hf]
  simp only [h1, h2]

/-- C20: after the collision loop on snakes with non-empty bodies the head-on block
changes nothing, because two snakes that are both still alive have their heads on
different cells; hence the tick with the head-on block removed returns exactly what
the tick as written returns, for every state whose snakes have non-empty bodies. -/
theorem head_on_block_redundant :
    (∀ (snakes out : List Snake), BodiesNonEmpty snakes →
      collisionPhase (List.range snakes.length) snakes = some out →
      headOnPhase out = some out ∧
      ∀ a b, out = [a, b] → a.alive = true → b.alive = true → a.headPos ≠ b.headPos) ∧
    (∀ (g : Game) (r : Rng), BodiesNonEmpty g.snakes → tickNoHeadOn g r = tick g r) := by
  constructor
  · intro snakes out hne hout
    have hh := headOn_after_collision snakes out hne hout
    refine ⟨hh, ?_⟩
    intro a b hab haa hba hheads
    subst hab
    obtain ⟨-, hmap, -⟩ := collisionPhase_range snakes hne
    have hbodies_ne : BodiesNonEmpty [a, b] := by
      obtain ⟨out2, hout2, hmap2, -⟩ := collisionPhase_range snakes hne
      rw [hout] at hout2
      cases hout2
      exact bodiesNonEmpty_of_map_body (map_body_of_cleared hmap2).1 hne
    obtain ⟨h0, t0, hb0⟩ := List.exists_cons_of_ne_nil (hbodies_ne a (by simp))
    obtain ⟨h1, t1, hb1⟩ := List.exists_cons_of_ne_nil (hbodies_ne b (by simp))
    simp only [Snake.headPos, hb0, hb1, List.head?_cons, Option.some.injEq] at hheads
    unfold headOnPhase at hh
    simp only [haa, hba, Bool.and_self, if_true, Snake.headPos, hb0, hb1, List.head?_cons,
      hheads, and_self] at hh
    simp only [Option.some.injEq, List.cons.injEq, and_true] at hh
    have := congrArg Snake.alive hh.1
    simp only [haa] at this
    cases this
  · intro g r hne
    unfold tickNoHeadOn tick
    split
    · rfl
    · cases hm : tickMove g r with
      | none => rfl
      | some m =>
        simp only []
        exact tickRestNoHeadOn_eq m.1 m.2 (tickMove_bodies g r m hne hm)

/-- C20, at the head-on state, where the collision loop kills both snakes. -/
theorem head_on_block_redundant_witness :
    tickNoHeadOn headOnFoodState rngZero = tick headOnFoodState rngZero :=
  head_on_block_redundant.2 headOnFoodState rngZero (by unfold BodiesNonEmpty; decide)

/-! ## No 180-degree turn -/

theorem mem_dirs_iff (d : Vec) :
    d ∈ dirs ↔ d = DIR.UP ∨ d = DIR.DOWN ∨ d = DIR.LEFT ∨ d = DIR.RIGHT := by
  simp [dirs]

/-- The facts that hold for every driven snake: it is alive, dir and nextDir are unit
directions, nextDir is not the reverse of dir, and the body starts with the head
followed by the cell one step behind the head. -/
theorem driven_inv (s : Snake) (h : Driven s) :
    s.alive = true ∧ s.dir ∈ dirs ∧ s.nextDir ∈ dirs ∧ isReverse s.dir s.nextDir = false ∧
    ∃ hd rest, s.body = hd :: ⟨hd.x - s.dir.x, hd.y - s.dir.y⟩ :: rest := by
  induction h with
  | new x y d ai hd =>
    refine ⟨rfl, hd, hd, isReverse_self_of_mem_dirs d hd, ⟨x, y⟩,
      [⟨x - d.x * 2, y - d.y * 2⟩], ?_⟩
    simp [Snake.new]
  | setDirection s d _ hd ih =>
    obtain ⟨i1, i2, i3, i4, i5⟩ := ih
    unfold Snake.setDirection
    by_cases hr : isReverse s.dir d = true
    · simp only [hr, if_true]
      exact ⟨i1, i2, i3, i4, i5⟩
    · simp only [hr, if_false]
      simp only [Bool.not_eq_true] at hr
      exact ⟨i1, i2, hd, hr, i5⟩
  | grow s amount _ ih =>
    exact ih
  | update s t _ hupd ih =>
    obtain ⟨i1, i2, i3, i4, hd, rest, i5⟩ := ih
    obtain ⟨t2, ht2, hdir, halive, -, hbody⟩ :=
      update_moved s hd (⟨hd.x - s.dir.x, hd.y - s.dir.y⟩ :: rest) i1 i5
    rw [hupd] at ht2
    cases ht2
    have hnext : t.nextDir = s.nextDir := by
      unfold Snake.update at hupd
      simp only [i1, Bool.not_true, Bool.false_eq_true, if_false, i5, List.head?_cons] at hupd
      split at hupd <;> (cases hupd; rfl)
    refine ⟨halive, by rw [hdir]; exact i3, by rw [hnext]; exact i3, ?_, ?_⟩
    · rw [hdir, hnext]
      exact isReverse_self_of_mem_dirs s.nextDir i3
    · refine ⟨⟨hd.x + s.nextDir.x, hd.y + s.nextDir.y⟩,
        (if 0 < s.growCount then ⟨hd.x - s.dir.x, hd.y - s.dir.y⟩ :: rest
         else (⟨hd.x - s.dir.x, hd.y - s.dir.y⟩ :: rest).dropLast), ?_⟩
      rw [hbody, hdir, i5]
      have hhd : (⟨hd.x + s.nextDir.x - s.nextDir.x, hd.y + s.nextDir.y - s.nextDir.y⟩ : Vec)
          = hd := by
        cases hd
        simp
      rw [hhd]
      split <;> simp

/-- C14: for a snake built by the constructor with a unit direction and then driven by
any sequence of setDirection (unit directions), grow and update calls, the next update
returns a snake whose direction is not the exact reverse of the direction before, and
whose new head, the old head moved by the pending direction, is not the cell of the
old second segment. -/
theorem no_reverse_turn (s : Snake) (h : Driven s) :
    ∃ t hd neck rest, s.body = hd :: neck :: rest ∧ s.update = some t ∧
      ¬ (s.dir.x + t.dir.x = 0 ∧ s.dir.y + t.dir.y = 0) ∧
      t.body.head? = some ⟨hd.x + s.nextDir.x, hd.y + s.nextDir.y⟩ ∧
      t.body.head? ≠ some neck := by
  obtain ⟨i1, -, -, i4, hd, rest, i5⟩ := driven_inv s h
  obtain ⟨t, ht, hdir, -, -, hbody⟩ :=
    update_moved s hd (⟨hd.x - s.dir.x, hd.y - s.dir.y⟩ :: rest) i1 i5
  have hnr : ¬ (s.dir.x + s.nextDir.x = 0 ∧ s.dir.y + s.nextDir.y = 0) := by
    intro hc
    simp [isReverse, hc.1, hc.2] at i4
  refine ⟨t, hd, _, rest, i5, ht, by rw [hdir]; exact hnr, by rw [hbody]; rfl, ?_⟩
  rw [hbody]
  simp only [List.head?_cons, ne_eq, Option.some.injEq, Vec.mk.injEq, not_and]
  intro hx hy
  apply hnr
  constructor <;> omega

/-- C14, at the snake of player 1 after two rejected or accepted key presses. -/
theorem no_reverse_turn_witness :
    ∃ t hd neck rest,
      (((Snake.new 5 15 DIR.RIGHT false).setDirection DIR.UP).setDirection DIR.LEFT).body
        = hd :: neck :: rest ∧
      (((Snake.new 5 15 DIR.RIGHT false).setDirection DIR.UP).setDirection DIR.LEFT).update
        = some t ∧
      ¬ ((((Snake.new 5 15 DIR.RIGHT false).setDirection DIR.UP).setDirection DIR.LEFT).dir.x
            + t.dir.x = 0 ∧
         (((Snake.new 5 15 DIR.RIGHT false).setDirection DIR.UP).setDirection DIR.LEFT).dir.y
            + t.dir.y = 0) ∧
      t.body.head? = some
        ⟨hd.x + (((Snake.new 5 15 DIR.RIGHT false).setDirection DIR.UP).setDirection
            DIR.LEFT).nextDir.x,
         hd.y + (((Snake.new 5 15 DIR.RIGHT false).setDirection DIR.UP).setDirection
            DIR.LEFT).nextDir.y⟩ ∧
      t.body.head? ≠ some neck :=
  no_reverse_turn _
    (Driven.setDirection _ DIR.LEFT
      (Driven.setDirection _ DIR.UP (Driven.new 5 15 DIR.RIGHT false (by decide)) (by decide))
      (by decide))

/-! ## Food count -/

theorem spawnFood_length (g : Game) (r : Rng) :
    (spawnFood g r).1.foods.length = g.foods.length + 1 := by
  obtain ⟨f, hf⟩ := spawnFood_foods g r
  rw [hf]
  simp

/-- The density step adds at most one food, and none when there are already five. -/
theorem extraFood_length (g : Game) (r : Rng) :
    (extraFood g r).1.foods.length = g.foods.length ∨
    ((extraFood g r).1.foods.length = g.foods.length + 1 ∧ g.foods.length < 5) := by
  unfold extraFood
  split
  · rename_i h
    right
    exact ⟨spawnFood_length g r, by omega⟩
  · split
    · rename_i h5
      split
      · right
        exact ⟨spawnFood_length g _, h5⟩
      · left
        rfl
    · left
      rfl

theorem eatFood_length (g : Game) (idx i : Nat) (food : Food) (r : Rng)
    (hi : i < g.foods.length) : (eatFood g idx i food r).1.foods.length = g.foods.length := by
  obtain ⟨-, -, -, -, -, -, -, -, f, hf⟩ := eatFood_frame g idx i food r
  rw [hf]
  simp [List.length_eraseIdx, hi]
  omega

theorem initRound_length (g : Game) (r : Rng) : (initRound g r).1.foods.length = 3 := by
  unfold initRound
  simp only [spawnFood_length]
  rfl

/-- A tick never throws on a state whose snakes all have a segment (and which has a
snake in single-player mode); it keeps the number of foods or adds one food, the
latter only when there were fewer than five. -/
theorem tick_foods (g : Game) (r : Rng) (hne : BodiesNonEmpty g.snakes)
    (hsh : g.mode = some Mode.onePlayer → g.snakes ≠ []) :
    ∃ g2 r2, tick g r = some (g2, r2) ∧
      (g2.foods.length = g.foods.length ∨
        (g2.foods.length = g.foods.length + 1 ∧ g.foods.length < 5)) := by
  by_cases hrun : g.paused = false ∧ g.roundActive = true
  · obtain ⟨ai, r1, moved, f, rf, col, g2, -, -, -, -, -, hcre, htick, -, -, -, -, -, -, -, -, -,
      -, -, -, -, -, -, -, -, -, -, -, -, -, -, -, hffl⟩ :=
      tick_anatomy g r hrun.1 hrun.2 hne hsh
    obtain ⟨-, c2, -⟩ := checkRoundEnd_frame _ g2 hcre
    refine ⟨g2, _, htick, ?_⟩
    rw [c2, ← hffl]
    exact extraFood_length { f with snakes := col } rf
  · refine ⟨g, r, ?_, Or.inl rfl⟩
    unfold tick
    have hc : (g.paused || !g.roundActive) = true := by
      cases hp : g.paused <;> cases ha : g.roundActive <;> simp_all
    rw [if_pos hc]

/-- In every state of a round there are at least 3 and at most 5 foods. -/
theorem inRound_foods (g : Game) (h : InRound g) :
    3 ≤ g.foods.length ∧ g.foods.length ≤ 5 := by
  induction h with
  | init g0 r =>
    rw [initRound_length]
    exact ⟨le_refl 3, by decide⟩
  | tick g0 r g2 r2 hin htick ih =>
    obtain ⟨hb, hsh, -⟩ := inRound_inv g0 hin
    obtain ⟨g3, r3, ht, hlen⟩ := tick_foods g0 r hb hsh
    rw [htick] at ht
    simp only [Option.some.injEq, Prod.mk.injEq] at ht
    obtain ⟨hg, -⟩ := ht
    subst hg
    omega
  | key g0 k _ ih =>
    rw [(keydown_frame k g0).2.2.2.2.2.1]
    exact ih

/-- C22: initRound leaves exactly 3 foods, and in every state of a round (initRound
followed by ticks and key presses, for every stream of random draws) the number of
foods is at least 3 and at most 5.  A tick in such a state never throws and never
lowers the number of foods; a consumption replaces the eaten food at once.  In a tick
that runs, aiDecide is called with the foods of the start of the tick, which are not
empty, and the density step sees as many foods as at the start of the tick, so its
test for fewer than 2 foods is false. -/
theorem food_count_invariant :
    (∀ g r, (initRound g r).1.foods.length = 3) ∧
    (∀ g, InRound g → 3 ≤ g.foods.length ∧ g.foods.length ≤ 5) ∧
    (∀ g r, InRound g → ∃ g2 r2, tick g r = some (g2, r2) ∧
      g.foods.length ≤ g2.foods.length) ∧
    (∀ g idx i food r, i < g.foods.length →
      (eatFood g idx i food r).1.foods.length = g.foods.length) ∧
    (∀ g r, InRound g → g.paused = false → g.roundActive = true →
      ∃ ai r1 moved f rf col g2,
        g.foods ≠ [] ∧
        aiPhase g.foods (List.range g.snakes.length) g.snakes r = some (ai, r1) ∧
        updateAll ai = some moved ∧
        foodPhase (List.range moved.length) { g with snakes := moved } r1 = some (f, rf) ∧
        tickCollide f.snakes = some col ∧
        f.foods.length = g.foods.length ∧ ¬ (f.foods.length < 2) ∧
        checkRoundEnd (extraFood { f with snakes := col } rf).1 = some g2 ∧
        tick g r = some (g2, (extraFood { f with snakes := col } rf).2)) := by
  refine ⟨initRound_length, inRound_foods, ?_, eatFood_length, ?_⟩
  · intro g r hin
    obtain ⟨hb, hsh, -⟩ := inRound_inv g hin
    obtain ⟨g2, r2, ht, hlen⟩ := tick_foods g r hb hsh
    exact ⟨g2, r2, ht, by omega⟩
  · intro g r hin hp ha
    obtain ⟨hb, hsh, -⟩ := inRound_inv g hin
    obtain ⟨h3, -⟩ := inRound_foods g hin
    obtain ⟨ai, r1, moved, f, rf, col, g2, hai, hmoved, -, hf, hcol, hcre, htick, -, -, -, -, -, -,
      -, -, -, -, -, -, -, -, -, -, -, -, -, -, -, -, -, -, hffl⟩ :=
      tick_anatomy g r hp ha hb hsh
    refine ⟨ai, r1, moved, f, rf, col, g2, ?_, hai, hmoved, hf, hcol, hffl, by omega, hcre, htick⟩
    intro hnil
    rw [hnil] at h3
    simp at h3

/-- C22, at the first state of a two-player round. -/
theorem food_count_invariant_witness :
    3 ≤ (initRound headOnFoodState rngZero).1.foods.length ∧
    (initRound headOnFoodState rngZero).1.foods.length ≤ 5 :=
  food_count_invariant.2.1 _ (InRound.init headOnFoodState rngZero)

/-! ## AI policy: the move that follows a selection -/

/-- When the loop of aiDecide has recorded a score, aiDecide writes the recorded
direction to nextDir, and that direction survived pruning. -/
theorem aiDecide_selected (foods : List Food) (s : Snake) (head : Vec) (rest : List Vec)
    (other : Option Snake) (r : Rng) (hbody : s.body = head :: rest)
    (hsel : (aiBest foods s head other r).bestScore ≠ none) :
    aiDecide foods s other r
      = some ({ s with nextDir := (aiBest foods s head other r).bestDir },
          (aiBest foods s head other r).rng) ∧
    survives s head other (aiBest foods s head other r).bestDir = true := by
  obtain ⟨-, hsv⟩ := foldl_aiStep_selected foods s head other dirs dirs
    { bestDir := s.dir, bestScore := none, rng := r } (fun d hd => hd)
    (fun hne => absurd rfl hne) hsel
  refine ⟨?_, hsv⟩
  have h1 := ((survives_iff s head other (aiBest foods s head other r).bestDir).mp hsv).1
  have hrev : isReverse s.dir (aiBest foods s head other r).bestDir = false := by
    simp only [isReverse, Bool.and_eq_false_imp, decide_eq_true_eq, decide_eq_false_iff_not]
    intro hx hy
    apply h1
    constructor <;> omega
  have hset : s.setDirection (aiBest foods s head other r).bestDir
      = { s with nextDir := (aiBest foods s head other r).bestDir } := by
    unfold Snake.setDirection
    simp only [hrev, Bool.false_eq_true, if_false]
  have hhead : s.headPos = some head := by
    simp [Snake.headPos, hbody]
  unfold aiDecide
  rw [hhead]
  simp only []
  rw [hset]

/-- A cell that holds no segment of a body holds no segment of what update keeps of
that body. -/
theorem hits_kept_false (body : List Vec) (n : Nat) (x y : Int) (h : hits body x y = false) :
    hits (if 0 < n then body else body.dropLast) x y = false := by
  split
  · exact h
  · rw [hits_eq_false_iff] at h ⊢
    intro seg hseg
    exact h seg (List.mem_of_mem_dropLast hseg)

/-- The tick of a state with a human snake at index 0 and a living AI snake at index 1
whose aiDecide sets nextDir to d: the tick returns, the AI snake has moved one step in
direction d, and it is dead exactly when it collides there. -/
theorem tick_second_ai (g : Game) (r r2 : Rng) (p s : Snake) (head : Vec) (rest : List Vec)
    (d : Vec) (hp : g.paused = false) (ha : g.roundActive = true) (hs : g.snakes = [p, s])
    (hpai : p.isAI = false) (hsai : s.isAI = true) (hsalive : s.alive = true)
    (hpne : p.body ≠ []) (hbody : s.body = head :: rest)
    (hdec : aiDecide g.foods s (some p) r = some ({ s with nextDir := d }, r2)) :
    ∃ p2 g2 rr p3 s3, p.update = some p2 ∧ tick g r = some (g2, rr) ∧
      g2.snakes = [p3, s3] ∧ s3.dir = d ∧
      s3.body = ⟨head.x + d.x, head.y + d.y⟩ ::
        (if 0 < s.growCount then s.body else s.body.dropLast) ∧
      (s3.alive = false ↔
        (outOfGrid (head.x + d.x) (head.y + d.y) = true ∨
         hits (if 0 < s.growCount then s.body else s.body.dropLast)
           (head.x + d.x) (head.y + d.y) = true ∨
         hits p2.body (head.x + d.x) (head.y + d.y) = true)) := by
  have hsne : s.body ≠ [] := by
    rw [hbody]
    simp
  have hne : BodiesNonEmpty g.snakes := by
    intro x hmem
    rw [hs] at hmem
    simp only [List.mem_cons, List.mem_singleton, List.not_mem_nil, or_false] at hmem
    rcases hmem with h | h <;> (rw [h]; assumption)
  have hsh : g.mode = some Mode.onePlayer → g.snakes ≠ [] := by
    intro _
    rw [hs]
    simp
  obtain ⟨ai, r1, moved, f, rf, col, g2, hai, hmoved, -, -, -, -, htick, -, -, -, -, -, -, l3, l4,
    -, -, hcolmap, hsn, -, -, -, -, hfmap, hcolpt, -⟩ := tick_anatomy g r hp ha hne hsh
  have hr : List.range 2 = [0, 1] := by decide
  have hai2 : aiPhase g.foods (List.range g.snakes.length) g.snakes r
      = some ([p, { s with nextDir := d }], r2) := by
    rw [hs]
    show aiPhase g.foods (List.range 2) [p, s] r = _
    rw [hr]
    simp [aiPhase, hpai, hsai, hsalive, otherOf, hdec]
  rw [hai2] at hai
  simp only [Option.some.injEq, Prod.mk.injEq] at hai
  obtain ⟨hai_eq, -⟩ := hai
  subst hai_eq
  obtain ⟨p2, hp2, -⟩ := update_ok p hpne
  obtain ⟨s2, hs2, hs2dir, hs2alive, -, hs2body⟩ :=
    update_moved { s with nextDir := d } head rest hsalive hbody
  have hmoved2 : updateAll [p, { s with nextDir := d }] = some [p2, s2] := by
    simp [updateAll, hp2, hs2]
  rw [hmoved2] at hmoved
  simp only [Option.some.injEq] at hmoved
  subst hmoved
  rw [hs] at l3 l4
  obtain ⟨pf, sf, hff⟩ := list_of_length_two f.snakes l3
  obtain ⟨p3, s3, hcc⟩ := list_of_length_two col l4
  rw [hff] at hfmap hcolmap
  rw [hcc] at hcolmap
  simp only [List.map_cons, List.map_nil, List.cons.injEq, and_true] at hfmap hcolmap
  have hsf_body : sf.body = s2.body := by
    have := congrArg Snake.body hfmap.2
    exact this
  have hsf_alive : sf.alive = s2.alive := by
    have := congrArg Snake.alive hfmap.2
    exact this
  have hsf_dir : sf.dir = s2.dir := by
    have := congrArg Snake.dir hfmap.2
    exact this
  have hpf_body : pf.body = p2.body := by
    have := congrArg Snake.body hfmap.1
    exact this
  have hs3_body : s3.body = sf.body := by
    have := congrArg Snake.body hcolmap.2
    exact this
  have hs3_dir : s3.dir = sf.dir := by
    have := congrArg Snake.dir hcolmap.2
    exact this
  obtain ⟨t, ht, hta⟩ := hcolpt 1 sf (by rw [hff]; rfl)
  rw [hcc] at ht
  simp only [List.getElem?_cons_succ, List.getElem?_cons_zero, Option.some.injEq] at ht
  subst ht
  have hcol : collides f.snakes 1
      = (outOfGrid (head.x + d.x) (head.y + d.y)
        || hits (if 0 < s.growCount then s.body else s.body.dropLast)
            (head.x + d.x) (head.y + d.y)
        || hits p2.body (head.x + d.x) (head.y + d.y)) := by
    rw [hff, collides_pair_right pf sf ⟨head.x + d.x, head.y + d.y⟩
      (if 0 < s.growCount then s.body else s.body.dropLast) (hsf_body.trans hs2body), hpf_body]
  refine ⟨p2, g2, _, p3, s3, hp2, htick, hsn.trans hcc, (hs3_dir.trans hsf_dir).trans hs2dir,
    (hs3_body.trans hsf_body).trans hs2body, ?_⟩
  rw [hta, hsf_alive, hs2alive, hcol]
  simp only [Bool.true_and, Bool.not_eq_false', Bool.or_eq_true, or_assoc]

/-- A living snake whose nextDir is a direction that survives pruning moves, by update,
onto a cell inside the grid that none of the segments it keeps occupies. -/
theorem survivor_move_safe (s : Snake) (head : Vec) (rest : List Vec) (other : Option Snake)
    (d : Vec) (halive : s.alive = true) (hbody : s.body = head :: rest)
    (hsv : survives s head other d = true) :
    outOfGrid (head.x + d.x) (head.y + d.y) = false ∧
    hits (if 0 < s.growCount then s.body else s.body.dropLast)
      (head.x + d.x) (head.y + d.y) = false ∧
    (∀ o, other = some o → hits o.body (head.x + d.x) (head.y + d.y) = false) ∧
    ∃ u, Snake.update { s with nextDir := d } = some u ∧ u.alive = true ∧
      u.growCount = s.growCount - 1 ∧
      u.body = ⟨head.x + d.x, head.y + d.y⟩ ::
        (if 0 < s.growCount then s.body else s.body.dropLast) ∧
      u.checkWallCollision = some false ∧ u.checkSelfCollision = some false := by
  obtain ⟨-, hgrid, hself, hother⟩ := (survives_iff s head other d).mp hsv
  have hwall : outOfGrid (head.x + d.x) (head.y + d.y) = false :=
    (outOfGrid_eq_false_iff _ _).mpr hgrid
  have hkept : hits (if 0 < s.growCount then s.body else s.body.dropLast)
      (head.x + d.x) (head.y + d.y) = false :=
    hits_kept_false s.body s.growCount _ _ ((hits_eq_false_iff _ _ _).mpr hself)
  refine ⟨hwall, hkept, fun o ho => (hits_eq_false_iff _ _ _).mpr (hother o ho), ?_⟩
  by_cases hg : 0 < s.growCount
  · refine ⟨{ s with nextDir := d, dir := d,
                     body := ⟨head.x + d.x, head.y + d.y⟩ :: s.body,
                     growCount := s.growCount - 1 }, ?_, halive, rfl, ?_, ?_, ?_⟩
    · simp [Snake.update, halive, hbody, hg]
    · simp [hg]
    · show some (outOfGrid (head.x + d.x) (head.y + d.y)) = some false
      rw [hwall]
    · show some (hits s.body (head.x + d.x) (head.y + d.y)) = some false
      rw [if_pos hg] at hkept
      rw [hkept]
  · have h0 : s.growCount = 0 := by omega
    refine ⟨{ s with nextDir := d, dir := d,
                     body := ⟨head.x + d.x, head.y + d.y⟩ :: s.body.dropLast },
      ?_, halive, ?_, ?_, ?_, ?_⟩
    · simp [Snake.update, halive, hbody, hg]
    · show s.growCount = s.growCount - 1
      omega
    · simp [hg]
    · show some (outOfGrid (head.x + d.x) (head.y + d.y)) = some false
      rw [hwall]
    · show some (hits s.body.dropLast (head.x + d.x) (head.y + d.y)) = some false
      rw [if_neg hg] at hkept
      rw [hkept]

/-- C21: whenever the loop of aiDecide has selected a candidate for a living AI snake,
whatever the pending growth of that snake, aiDecide sets nextDir to the selected
direction, that direction survived pruning, and the update that follows returns a
living snake whose checkWallCollision and checkSelfCollision are both false; in the
tick of a state with a human snake at index 0 and such an AI snake at index 1, the tick
returns, the AI snake it leaves has both checks false, and that snake is dead exactly
when its new head lies on a segment of the other snake after that snake has moved. -/
theorem ai_selected_move_safe :
    (∀ (foods : List Food) (s : Snake) (head : Vec) (rest : List Vec) (other : Option Snake)
        (r : Rng), s.alive = true → s.body = head :: rest →
      (aiBest foods s head other r).bestScore ≠ none →
      ∃ t r2 u, aiDecide foods s other r = some (t, r2) ∧
        t.nextDir = (aiBest foods s head other r).bestDir ∧
        survives s head other t.nextDir = true ∧
        t.update = some u ∧ u.alive = true ∧
        u.checkWallCollision = some false ∧ u.checkSelfCollision = some false) ∧
    (∀ (g : Game) (r : Rng) (p s : Snake) (head : Vec) (rest : List Vec),
      g.paused = false → g.roundActive = true → g.snakes = [p, s] →
      p.isAI = false → s.isAI = true → s.alive = true → p.body ≠ [] → s.body = head :: rest →
      (aiBest g.foods s head (some p) r).bestScore ≠ none →
      ∃ p2 g2 rr p3 s3, p.update = some p2 ∧ tick g r = some (g2, rr) ∧
        g2.snakes = [p3, s3] ∧
        s3.headPos = some ⟨head.x + (aiBest g.foods s head (some p) r).bestDir.x,
                           head.y + (aiBest g.foods s head (some p) r).bestDir.y⟩ ∧
        s3.checkWallCollision = some false ∧ s3.checkSelfCollision = some false ∧
        (s3.alive = false ↔
          hits p2.body (head.x + (aiBest g.foods s head (some p) r).bestDir.x)
            (head.y + (aiBest g.foods s head (some p) r).bestDir.y) = true)) := by
  constructor
  · intro foods s head rest other r halive hbody hsel
    obtain ⟨hdec, hsv⟩ := aiDecide_selected foods s head rest other r hbody hsel
    obtain ⟨-, -, -, u, hu, hual, -, -, hw, hsf⟩ :=
      survivor_move_safe s head rest other _ halive hbody hsv
    exact ⟨_, _, u, hdec, rfl, hsv, hu, hual, hw, hsf⟩
  · intro g r p s head rest hp ha hs hpai hsai halive hpne hbody hsel
    obtain ⟨hdec, hsv⟩ := aiDecide_selected g.foods s head rest (some p) r hbody hsel
    obtain ⟨hwall, hkept, -, -⟩ := survivor_move_safe s head rest (some p) _ halive hbody hsv
    obtain ⟨p2, g2, rr, p3, s3, hp2, htick, hsn, -, hs3body, hiff⟩ :=
      tick_second_ai g r _ p s head rest _ hp ha hs hpai hsai halive hpne hbody hdec
    refine ⟨p2, g2, rr, p3, s3, hp2, htick, hsn, ?_, ?_, ?_, ?_⟩
    · unfold Snake.headPos
      rw [hs3body]
      rfl
    · unfold Snake.checkWallCollision Snake.headPos
      rw [hs3body]
      show some (outOfGrid _ _) = some false
      rw [hwall]
    · unfold Snake.checkSelfCollision
      rw [hs3body]
      show some (hits _ _ _) = some false
      rw [hkept]
    · rw [hiff, hwall, hkept]
      simp

/-- C21, at aiChaseState: the AI snake, which has a pending growth of 2, selects a
candidate, the tick returns, and the AI snake it leaves is inside the grid and off its
own segments. -/
theorem ai_selected_move_safe_witness :
    ∃ g2 rr p3 s3, tick aiChaseState rngZero = some (g2, rr) ∧ g2.snakes = [p3, s3] ∧
      s3.checkWallCollision = some false ∧ s3.checkSelfCollision = some false := by
  obtain ⟨-, g2, rr, p3, s3, -, h1, h2, -, h3, h4, -⟩ :=
    ai_selected_move_safe.2 aiChaseState rngZero (snakeAt aiChaseState 0)
      (snakeAt aiChaseState 1) ⟨24, 15⟩ [⟨25, 15⟩, ⟨26, 15⟩]
      rfl rfl rfl rfl rfl rfl (by decide) rfl (by decide!)
  exact ⟨g2, rr, p3, s3, h1, h2, h3, h4⟩

end SnakeClash
